import Mathlib

/-!
# Light-Manager command daemon (`lightmanager.c`)

A shallow embedding of the command protocol engine of `lightmanager.c`:
the FS20 address codec (`fs20toi`, `itofs20`, `itoa`), the keyword
comparison (`strnicmp`, `cmdcompare`), the retrying USB transport
(`usb_send`) and the command dispatcher (`handle_input`).

Conventions of the embedding.

* A C string is the list of its bytes before the terminating NUL
  (`CStr`); the characters are ASCII codes.  Reading one position past the
  last byte yields the terminator `0`.
* `int` is 32 bits wide and wraps (`wrap32`); `long` is 32 or 64 bits wide
  depending on the data model of the build (`DataModel`); the conversion of
  a `long` to `int` keeps the low 32 bits, as GCC defines it.
* A frame (`usbcmd`) is a list of eight byte values `0..255`.
* Everything the program does to the outside world is recorded as a list of
  `Event`s in program order.
-/

namespace LightManager

/-! ## C strings, characters and machine integers -/

/-- A C string: its bytes before the terminating NUL. -/
abbrev CStr := List Nat

/-- The bytes of a string literal. -/
def cstr (s : String) : CStr := s.toList.map Char.toNat

/-- Value of an `int` expression after wrap-around to 32 bits. -/
def wrap32 (x : Int) : Int := (x + 2147483648) % 4294967296 - 2147483648

/-- Value of a `signed char` after wrap-around to 8 bits. -/
def wrap8 (x : Int) : Int := (x + 128) % 256 - 128

/-- The byte stored in a `char` cell when an `int` is assigned to it. -/
def toByte (x : Int) : Nat := (x % 256).toNat

/-- The function `isspace` of the C locale. -/
def isspace (c : Nat) : Bool := c == 32 || (9 ≤ c && c ≤ 13)

/-- The function `toupper` of the C locale. -/
def toupper (c : Nat) : Nat := if 97 ≤ c ∧ c ≤ 122 then c - 32 else c

/-- The character a `char*` points at: the head of the string, or the
terminating NUL when the string is exhausted. -/
def deref (s : CStr) : Nat := s.headD 0

/-- The value an `int` read from a `char` cell holding byte `b` has: the
byte itself where `char` is unsigned, its two's complement reading where
`char` is signed. -/
def charVal (charSigned : Bool) (b : Nat) : Int :=
  if charSigned ∧ 128 ≤ b % 256 then (b % 256 : Nat) - 256 else (b % 256 : Nat)

/-! ## Non-ANSI stdlib functions -/

/-- The loop of `strnicmp`: `__res` is only ever returned as assigned in the
last executed iteration, and is `0` when `count` is `0` on entry. -/
def strnicmp : CStr → CStr → Nat → Int
  | _, _, 0 => 0
  | cs, ct, count + 1 =>
    let res := wrap8 ((toupper (deref cs) : Int) - (toupper (deref ct) : Int))
    if res ≠ 0 ∨ deref cs = 0 then res
    else strnicmp cs.tail ct.tail count

/-- The digit table indexed by `35 + remainder` in `itoa`. -/
def itoa_table : CStr :=
  cstr "zyxwvutsrqponmlkjihgfedcba9876543210123456789abcdefghijklmnopqrstuvwxyz"

/-- The `do ... while (value)` loop of `itoa`: the characters written through
`ptr` (least significant digit first) and the last `tmp_value`.  The loop
runs at most `|value| + 1` times for a base of at least 2, which is the fuel
its caller passes. -/
def itoa_loop : Nat → Int → Int → CStr × Int
  | 0, value, _ => ([], value)
  | fuel + 1, value, base =>
    let tmp_value := value
    let value := Int.tdiv value base
    let c := itoa_table.getD (35 + (tmp_value - value * base)).toNat 0
    if value ≠ 0 then
      let r := itoa_loop fuel value base
      (c :: r.1, r.2)
    else ([c], tmp_value)

/-- The string `itoa(value, result, base)` leaves in `result`: digits are
produced least significant first, the sign is appended, then the string is
reversed in place. -/
def itoa (value : Int) (base : Int) : CStr :=
  if base < 2 ∨ base > 36 then []
  else
    let r := itoa_loop (value.natAbs + 1) value base
    let s := if r.2 < 0 then r.1 ++ [45] else r.1
    s.reverse

/-! ## FS20 specific -/

/-- The `while` loop of `fs20toi`, returning `res` and the final position of
`fs20`, on a build whose plain `char` is signed or not as `charSigned` says.
The characters are read through the `char*` parameter, so `*fs20++ - '0'` is
computed from the value of a plain `char`: a byte of 0x80 or above is
negative where `char` is signed (`isspace` is false for such a byte either
way).  Each iteration consumes two characters; the
second read of the one-character case hits the terminating NUL (only possible
for a string of odd length, which `fs20toi` turns away before the loop). -/
def fs20toi_loop (charSigned : Bool) : CStr → Int → Int × CStr
  | [], res => (res, [])
  | [c1], res =>
    if isspace c1 then (res, [c1])
    else
      (wrap32 (wrap32 (res * 16)
        + ((charVal charSigned c1 - 48 - 1) * 4 + ((0 : Int) - 48 - 1))), [])
  | c1 :: c2 :: rest, res =>
    if isspace c1 then (res, c1 :: c2 :: rest)
    else
      fs20toi_loop charSigned rest
        (wrap32 (wrap32 (res * 16)
          + ((charVal charSigned c1 - 48 - 1) * 4 + (charVal charSigned c2 - 48 - 1))))

/-- The return value of `fs20toi(fs20, endptr)` on a build whose plain `char`
is signed or not as `charSigned` says. -/
def fs20toi (charSigned : Bool) (fs20 : CStr) : Int :=
  if fs20.length % 2 ≠ 0 then -1
  else (fs20toi_loop charSigned fs20 0).1

/-- What `fs20toi` stores through a non-NULL `endptr`: nothing on the early
return, otherwise the position where the loop stopped. -/
def fs20toi_endptr (charSigned : Bool) (fs20 : CStr) : Option CStr :=
  if fs20.length % 2 ≠ 0 then none
  else some (fs20toi_loop charSigned fs20 0).2

/-- The caller's buffer `buf`, as a map from index to byte. -/
abbrev Mem := Nat → Nat

/-- Store one byte: `buf[i] = v`. -/
def Mem.write (m : Mem) (i v : Nat) : Mem := fun j => if j = i then v else m j

/-- Store a string and its terminating NUL from index `i` on, as `itoa` does
through its `result` pointer. -/
def Mem.writeStr (m : Mem) (i : Nat) : CStr → Mem
  | [] => m.write i 0
  | c :: cs => Mem.writeStr (m.write i c) (i + 1) cs

/-- Read the C string that starts at index `i`, looking at no more than
`fuel` cells. -/
def Mem.cstrAt (m : Mem) : Nat → Nat → CStr
  | 0, _ => []
  | fuel + 1, i => if m i = 0 then [] else m i :: Mem.cstrAt m fuel (i + 1)

/-- The separator character `itofs20` uses, if any: `separator` is not NULL
and does not point at an empty string. -/
def itofs20_sep (separator : Option CStr) : Option Nat :=
  match separator with
  | some (c :: _) => some c
  | _ => none

/-- One iteration of the first `while` loop of `itofs20` on `(buf, strpos)`. -/
def itofs20_step (code : Int) (sep : Option Nat) (shift : Nat) (st : Mem × Nat) : Mem × Nat :=
  let nib : Int := (code / 2 ^ shift) % 16
  let st1 : Mem × Nat :=
    if nib < 4 then
      (Mem.writeStr (st.1.write st.2 48) (st.2 + 1) (itoa nib 4), st.2 + 2)
    else
      (Mem.writeStr st.1 st.2 (itoa nib 4), st.2 + 2)
  match sep with
  | some c => (st1.1.write st1.2 ((c + 255) % 256), st1.2 + 1)
  | none => st1

/-- The loop `while (shift >= 0) { ...; shift -= 4; }` of `itofs20`. -/
def itofs20_while (code : Int) (sep : Option Nat) : Nat → Int → Mem × Nat → Mem × Nat
  | 0, _, st => st
  | fuel + 1, shift, st =>
    if shift ≥ 0 then
      itofs20_while code sep fuel (shift - 4) (itofs20_step code sep shift.toNat st)
    else st

/-- The loop `while (buf[strpos]) buf[strpos++]++` of `itofs20`. -/
def itofs20_incr : Nat → Mem → Nat → Mem
  | 0, buf, _ => buf
  | fuel + 1, buf, strpos =>
    if buf strpos ≠ 0 then
      itofs20_incr fuel (buf.write strpos ((buf strpos + 1) % 256)) (strpos + 1)
    else buf

/-- The string `itofs20(buf, code, separator)` returns, for a buffer with the
initial content `buf`.  The first loop runs at most four times and leaves
the terminating NUL at an index of at most 11, so twelve cells bound both the
second loop and the final read. -/
def itofs20 (buf : Mem) (code : Int) (separator : Option CStr) : CStr :=
  let sep := itofs20_sep separator
  let shift : Int := if code > 255 then 12 else 4
  let st := itofs20_while code sep 4 shift (buf, 0)
  let buf1 : Mem :=
    match sep with
    | some _ => st.1.write (st.2 - 1) 0
    | none => st.1
  Mem.cstrAt (itofs20_incr 12 buf1 0) 12 0

/-! ## C library functions used by the dispatcher -/

/-- The data model of the build: the width of `long` is 32 bits (ILP32) or
64 bits (LP64); `int` has 32 bits in both. -/
inductive DataModel
  | ILP32
  | LP64
  deriving DecidableEq

/-- Width of `long` in bits. -/
def DataModel.longBits : DataModel → Nat
  | .ILP32 => 32
  | .LP64 => 64

/-- The constant `LONG_MAX` of the data model. -/
def LONG_MAX (dm : DataModel) : Int := 2 ^ (dm.longBits - 1) - 1

/-- The constant `LONG_MIN` of the data model. -/
def LONG_MIN (dm : DataModel) : Int := -(2 ^ (dm.longBits - 1))

/-- Value of a `long` expression after wrap-around. -/
def wrapLong (dm : DataModel) (x : Int) : Int :=
  (x + 2 ^ (dm.longBits - 1)) % 2 ^ dm.longBits - 2 ^ (dm.longBits - 1)

/-- The run of decimal digits at the start of a string: its value on top of
`acc`, and the rest of the string. -/
def strtol_digits : CStr → Nat → Nat × CStr
  | [], acc => (acc, [])
  | c :: cs, acc =>
    if 48 ≤ c ∧ c ≤ 57 then strtol_digits cs (acc * 10 + (c - 48))
    else (acc, c :: cs)

/-- The C library call `strtol(nptr, NULL, 10)`: the returned `long` and
whether `errno` was set to `ERANGE`.  White space is skipped, one sign is
accepted, the digits are read; without digits the result is `0`; a value
outside the range of `long` is clamped to `LONG_MAX` or `LONG_MIN` and
reported through `errno`. -/
def strtol (dm : DataModel) (nptr : CStr) : Int × Bool :=
  let s := nptr.dropWhile isspace
  let sg : Bool × CStr :=
    if deref s = 45 then (true, s.tail)
    else if deref s = 43 then (false, s.tail)
    else (false, s)
  let v : Int := ((strtol_digits sg.2 0).1 : Int)
  if sg.1 then
    if -v < LONG_MIN dm then (LONG_MIN dm, true) else (-v, false)
  else
    if v > LONG_MAX dm then (LONG_MAX dm, true) else (v, false)

/-- The C library call `strtok`: skip leading delimiters; if nothing is left
there is no token; otherwise the token runs up to the next delimiter, which
is overwritten by NUL, and the scan position saved for the next
`strtok(NULL, ...)` call is the character after it.  The result is the token
and the saved position. -/
def strtok (delim : CStr) (s : CStr) : Option (CStr × CStr) :=
  match s.dropWhile (fun c => delim.contains c) with
  | [] => none
  | c :: cs =>
    some ((c :: cs).takeWhile (fun x => !delim.contains x),
          ((c :: cs).dropWhile (fun x => !delim.contains x)).drop 1)

/-- The broken-down time fields of `struct tm` the dispatcher touches. -/
structure Tm where
  tm_sec : Int
  tm_min : Int
  tm_hour : Int
  tm_mday : Int
  tm_mon : Int
  tm_year : Int
  tm_wday : Int
  deriving DecidableEq

/-! ## USB functions -/

/-- The device behind `libusb_interrupt_transfer`.  Transfers are numbered in
the order they are performed; `xferOut k data` is the return code of the
transfer number `k` when it sends `data`, `xferIn k data` the return code and
the content of the buffer after transfer number `k` when it reads into a
buffer holding `data`. -/
structure Device where
  xferOut : Nat → List Nat → Int
  xferIn : Nat → List Nat → Int × List Nat

/-- What `usb_send` does, in program order. -/
inductive UsbStep
  | lock
  | transfer (endpoint : Nat) (data : List Nat) (ret : Int)
  | usleep (usec : Nat)
  | unlock
  deriving DecidableEq

/-- The constant `USB_MAX_RETRY`. -/
def USB_MAX_RETRY : Nat := 5

/-- The constant `USB_WAIT_ON_ERROR`. -/
def USB_WAIT_ON_ERROR : Nat := 250

/-- The variables of a retry loop of `usb_send` when it is left, the number
of transfers the device has seen, and the steps taken. -/
structure UsbLoop where
  ret : Int
  retry : Nat
  data : List Nat
  tick : Nat
  steps : List UsbStep

/-- The loop `while( ret!=0 && retry>0 )` of the outbound phase, entered with
the variables `retry` and `ret`. -/
def usb_send_out (dev : Device) (data : List Nat) : Nat → Int → Nat → UsbLoop
  | 0, ret, tick => ⟨ret, 0, data, tick, []⟩
  | retry + 1, ret, tick =>
    if ret ≠ 0 then
      let ret1 := dev.xferOut tick data
      let pause : List UsbStep :=
        if ret1 ≠ 0 ∧ retry > 0 then [UsbStep.usleep (USB_WAIT_ON_ERROR * 1000)] else []
      let r := usb_send_out dev data retry ret1 (tick + 1)
      ⟨r.ret, r.retry, r.data, r.tick, UsbStep.transfer 0x01 data ret1 :: pause ++ r.steps⟩
    else ⟨ret, retry + 1, data, tick, []⟩

/-- The loop `while( ret!=0 && retry>0 )` of the inbound phase; every
transfer reads into the buffer the previous one left. -/
def usb_send_in (dev : Device) : Nat → Int → List Nat → Nat → UsbLoop
  | 0, ret, data, tick => ⟨ret, 0, data, tick, []⟩
  | retry + 1, ret, data, tick =>
    if ret ≠ 0 then
      let x := dev.xferIn tick data
      let pause : List UsbStep :=
        if x.1 ≠ 0 ∧ retry > 0 then [UsbStep.usleep (USB_WAIT_ON_ERROR * 1000)] else []
      let r := usb_send_in dev retry x.1 x.2 (tick + 1)
      ⟨r.ret, r.retry, r.data, r.tick, UsbStep.transfer 0x82 x.2 x.1 :: pause ++ r.steps⟩
    else ⟨ret, retry + 1, data, tick, []⟩

/-- The outcome of one call of `usb_send`: the returned `err`, the content of
`device_data` afterwards, the number of transfers the device has seen, and
the steps taken. -/
structure UsbResult where
  err : Int
  data : List Nat
  tick : Nat
  steps : List UsbStep

/-- The function `usb_send(dev_handle, device_data, fexpectdata)`, called
when the device has seen `tick` transfers. -/
def usb_send (dev : Device) (device_data : List Nat) (fexpectdata : Bool) (tick : Nat) :
    UsbResult :=
  let o := usb_send_out dev device_data USB_MAX_RETRY (-1) tick
  let err : Int := if o.ret ≠ 0 ∧ o.retry = 0 then o.ret else 0
  if fexpectdata then
    let i := usb_send_in dev USB_MAX_RETRY (-1) o.data o.tick
    let err2 : Int := if i.ret ≠ 0 ∧ i.retry = 0 then i.ret else err
    ⟨err2, i.data, i.tick, [UsbStep.lock] ++ o.steps ++ i.steps ++ [UsbStep.unlock]⟩
  else
    ⟨err, o.data, o.tick, [UsbStep.lock] ++ o.steps ++ [UsbStep.unlock]⟩

/-! ## Helper functions -/

/-- The constant `PROGNAME`. -/
def PROGNAME : CStr := cstr "Linux Lightmanager"

/-- The constant `VERSION`. -/
def VERSION : CStr := cstr "1.2.0008"

/-- An argument handed to `write_to_client` after the format string: a
string for a `%s` directive, or the `float` quotient `num / den` for a `%f`
directive. -/
inductive Arg
  | str (s : CStr)
  | fdiv (num : Int) (den : Int)
  deriving DecidableEq

/-- What `handle_input` does to the outside world, in program order: a call
of `usb_send` (the frame handed over, whether a response is expected, the
steps inside the call and the value it returned), a call of
`write_to_client` (socket handle, format string, arguments), and a call of
`usleep`. -/
inductive Event
  | usb (device_data : List Nat) (fexpectdata : Bool) (steps : List UsbStep) (err : Int)
  | write (socket_handle : Int) (format : CStr) (args : List Arg)
  | usleep (usec : Int)
  deriving DecidableEq

/-- Everything `handle_input` reads from its surroundings: the global
`housecode`, the data model and the signedness of `char` of the build, the
device, the local time `localtime(time())` yields, the C library function
`strptime` (input, format, `struct tm` before the call, giving the
`struct tm` after it), and the text `asctime` yields after `mktime` has
normalised a `struct tm` with the given `tm_sec`, `tm_min`, `tm_hour`,
`tm_mday`, `tm_mon` and `tm_year`. -/
structure Env where
  housecode : Nat
  dataModel : DataModel
  charSigned : Bool
  dev : Device
  localtime : Tm
  strptime : CStr → CStr → Tm → Tm
  mktime_asctime : Int → Int → Int → Int → Int → Int → CStr

/-- The outcome of `handle_input`: the returned value, the events, and the
number of transfers the device has seen. -/
structure Result where
  rc : Int
  events : List Event
  tick : Nat

/-- The format string of `client_cmd_help`. -/
def help_format : CStr :=
  cstr "\r\n"
  ++ cstr "%s (%s) command list\r\n"
  ++ cstr "    FS20 addr cmd     Send a FS20 command where\r\n"
  ++ cstr "                        adr  FS20 address using the format ggss (1111-4444)\r\n"
  ++ cstr "                        cmd  Command ON|OFF|TOGGLE|UP|+|DOWN|-|<dim>\r\n"
  ++ cstr "                             where <dim> is the dim level\r\n"
  ++ cstr "                             * absolute values:   0 (min=off) to 16 (max))\r\n"
  ++ cstr "                             * percentage values: O% to 100%)\r\n"
  ++ cstr "    UNIROLL addr cmd  Send an Uniroll command where\r\n"
  ++ cstr "                        adr  Uniroll jalousie number (1-100)\r\n"
  ++ cstr "                        cmd  Command UP|+|DOWN|-|STOP\r\n"
  ++ cstr "    IT code addr cmd    Send an InterTechno command where\r\n"
  ++ cstr "                        code  InterTechno housecode (A-P)\r\n"
  ++ cstr "                        addr  InterTechno channel (1-16)\r\n"
  ++ cstr "                        cmd   Command ON|OFF|TOGGLE\r\n"
  ++ cstr "    SCENE scn         Activate scene <scn> (1-254)\r\n"
  ++ cstr "    GET CLOCK         Get the current device date and time\r\n"
  ++ cstr "    GET TEMP          Get the current device temperature sensor\r\n"
  ++ cstr "    SET CLOCK [time]  Set the device clock to system time or to <time>\r\n"
  ++ cstr "                      where time format is MMDDhhmm[[CC]YY][.ss]\r\n"
  ++ cstr "    WAIT ms           Wait for <ms> milliseconds\r\n"
  ++ cstr "    QUIT              Disconnect\r\n"
  ++ cstr "    EXIT              Disconnect and exit server programm\r\n"

/-- The function `client_cmd_help`. -/
def client_cmd_help (socket_handle : Int) : List Event :=
  [Event.write socket_handle help_format [Arg.str PROGNAME, Arg.str VERSION]]

/-- The function `cmdcompare`. -/
def cmdcompare (cs ct : CStr) : Int := strnicmp cs ct ct.length

/-- The array `delimiter` of `handle_input`. -/
def delimiter : CStr := [32, 44, 59, 9, 11, 12]

/-- The frame `usbcmd` after `memset(usbcmd, 0, sizeof(usbcmd))`. -/
def usbcmd_clear : List Nat := List.replicate 8 0

/-- The assignment `usbcmd[i] = v` of an `int` to a cell of the frame. -/
def usbcmd_set (usbcmd : List Nat) (i : Nat) (v : Int) : List Nat :=
  usbcmd.set i (toByte v)

/-- The tail shared by the frame-sending commands: hand the frame to
`usb_send` without expecting a response and reply with the communication
error or with `OK`. -/
def send_and_reply (env : Env) (usbcmd : List Nat) (socket_handle : Int) (tick : Nat)
    (before : List Event) : Result :=
  let r := usb_send env.dev usbcmd false tick
  ⟨0, before ++ [Event.usb usbcmd false r.steps r.err,
      if r.err ≠ 0 then Event.write socket_handle (cstr "USB communication error\r\n") []
      else Event.write socket_handle (cstr "OK\r\n") []], r.tick⟩

/-- The FS20 branch of `handle_input` from the point where the token `ptr`
of the `<cmd>` parameter has been found, with `addr` already computed. -/
def handle_input_FS20_cmd (env : Env) (addr : Int) (ptr : CStr) (socket_handle : Int)
    (tick : Nat) : Result :=
  let c : Int × List Event :=
    if cmdcompare ptr (cstr "ON") = 0 then (0x11, [])
    else if cmdcompare ptr (cstr "OFF") = 0 then (0x00, [])
    else if cmdcompare ptr (cstr "TOGGLE") = 0 then (0x12, [])
    else if cmdcompare ptr (cstr "UP") = 0 ∨ cmdcompare ptr (cstr "+") = 0 then (0x13, [])
    else if cmdcompare ptr (cstr "DOWN") = 0 ∨ cmdcompare ptr (cstr "-") = 0 then (0x14, [])
    else
      let r := strtol env.dataModel ptr
      let dim_value : Int := wrap32 r.1
      let dim_value : Int :=
        if ptr.getLast? = some 37 then Int.tdiv (wrap32 (16 * dim_value)) 100
        else dim_value
      if r.2 ∨ dim_value < 0 ∨ dim_value > 16 then
        (-2, [Event.write socket_handle
          (cstr "FS20: Wrong dim level (must be within 0-16 or 0%-100%)\r\n") []])
      else (0x01 * dim_value, [])
  let cmd := c.1
  if cmd ≥ 0 then
    let usbcmd := usbcmd_clear
    let usbcmd := usbcmd_set usbcmd 0 0x01
    let usbcmd := usbcmd_set usbcmd 1 ((env.housecode / 256 % 256 : Nat) : Int)
    let usbcmd := usbcmd_set usbcmd 2 ((env.housecode % 256 : Nat) : Int)
    let usbcmd := usbcmd_set usbcmd 3 addr
    let usbcmd := usbcmd_set usbcmd 4 cmd
    let usbcmd := usbcmd_set usbcmd 6 0x03
    send_and_reply env usbcmd socket_handle tick c.2
  else if cmd = -1 then
    ⟨0, c.2 ++ [Event.write socket_handle
      (cstr "FS20: unknown <cmd> parameter \x27%s\x27\r\n") [Arg.str ptr]], tick⟩
  else ⟨0, c.2, tick⟩

/-- The FS20 branch of `handle_input`, entered with the saved `strtok`
position `rest`. -/
def handle_input_FS20 (env : Env) (rest : CStr) (socket_handle : Int) (tick : Nat) : Result :=
  match strtok delimiter rest with
  | none => ⟨0, [Event.write socket_handle (cstr "FS20: missing <addr> parameter\r\n") []], tick⟩
  | some (ptr, rest1) =>
    let addr : Int := fs20toi env.charSigned ptr
    if addr > 0 then
      match strtok delimiter rest1 with
      | none =>
        ⟨0, [Event.write socket_handle (cstr "FS20: missing <cmd> parameter\r\n") []], tick⟩
      | some (ptr, _) => handle_input_FS20_cmd env addr ptr socket_handle tick
    else
      ⟨0, [Event.write socket_handle (cstr "FS20 %s: wrong <addr> parameter\r\n")
        [Arg.str ptr]], tick⟩

/-- The Uniroll branch of `handle_input` from the point where the token
`ptr` of the `<cmd>` parameter has been found. -/
def handle_input_UNI_cmd (env : Env) (addr : Int) (ptr : CStr) (socket_handle : Int)
    (tick : Nat) : Result :=
  let cmd : Int :=
    if cmdcompare ptr (cstr "STOP") = 0 then 0x02
    else if cmdcompare ptr (cstr "UP") = 0 ∨ cmdcompare ptr (cstr "+") = 0 then 0x01
    else if cmdcompare ptr (cstr "DOWN") = 0 ∨ cmdcompare ptr (cstr "-") = 0 then 0x04
    else -1
  if cmd ≥ 0 then
    let usbcmd := usbcmd_clear
    let usbcmd := usbcmd_set usbcmd 0 0x15
    let usbcmd := usbcmd_set usbcmd 1 (addr - 1)
    let usbcmd := usbcmd_set usbcmd 2 0x74
    let usbcmd := usbcmd_set usbcmd 3 cmd
    send_and_reply env usbcmd socket_handle tick []
  else
    ⟨0, [Event.write socket_handle
      (cstr "UNIROLL: wrong <cmd> parameter \x27%s\x27\r\n") [Arg.str ptr]], tick⟩

/-- The Uniroll branch of `handle_input`. -/
def handle_input_UNI (env : Env) (rest : CStr) (socket_handle : Int) (tick : Nat) : Result :=
  match strtok delimiter rest with
  | none =>
    ⟨0, [Event.write socket_handle (cstr "UNIROLL: missing <addr> parameter\r\n") []], tick⟩
  | some (ptr, rest1) =>
    let r := strtol env.dataModel ptr
    let addr : Int := wrap32 r.1
    if ¬ r.2 ∧ addr ≥ 1 ∧ addr ≤ 16 then
      match strtok delimiter rest1 with
      | none =>
        ⟨0, [Event.write socket_handle (cstr "UNIROLL: missing <cmd> parameter\r\n") []], tick⟩
      | some (ptr, _) => handle_input_UNI_cmd env addr ptr socket_handle tick
    else
      ⟨0, [Event.write socket_handle (cstr "UNIROLL %s: wrong <addr> parameter\r\n")
        [Arg.str ptr]], tick⟩

/-- The InterTechno branch of `handle_input` from the point where the token
`ptr` of the `<cmd>` parameter has been found. -/
def handle_input_IT_cmd (env : Env) (code addr : Int) (ptr : CStr) (socket_handle : Int)
    (tick : Nat) : Result :=
  let cmd : Int :=
    if cmdcompare ptr (cstr "ON") = 0 then 0x01
    else if cmdcompare ptr (cstr "OFF") = 0 then 0x00
    else if cmdcompare ptr (cstr "TOGGLE") = 0 then 0x02
    else -1
  if cmd ≥ 0 then
    let usbcmd := usbcmd_clear
    let usbcmd := usbcmd_set usbcmd 0 0x05
    let usbcmd := usbcmd_set usbcmd 1 (code * 0x10 + (addr - 1))
    let usbcmd := usbcmd_set usbcmd 2 cmd
    let usbcmd := usbcmd_set usbcmd 3 0x06
    send_and_reply env usbcmd socket_handle tick []
  else
    ⟨0, [Event.write socket_handle
      (cstr "InterTechno: wrong <cmd> parameter \x27%s\x27\r\n") [Arg.str ptr]], tick⟩

/-- The InterTechno branch of `handle_input`. -/
def handle_input_IT (env : Env) (rest : CStr) (socket_handle : Int) (tick : Nat) : Result :=
  match strtok delimiter rest with
  | none =>
    ⟨0, [Event.write socket_handle (cstr "InterTechno: missing <code> parameter\r\n") []], tick⟩
  | some (ptr, rest1) =>
    if toupper (deref ptr) ≥ 65 ∧ toupper (deref ptr) ≤ 90 then
      let code : Int := (toupper (deref ptr) : Int) - 65
      match strtok delimiter rest1 with
      | none =>
        ⟨0, [Event.write socket_handle (cstr "InterTechno: missing <addr> parameter\r\n") []],
          tick⟩
      | some (ptr, rest2) =>
        let r := strtol env.dataModel ptr
        let addr : Int := wrap32 r.1
        if ¬ r.2 ∧ addr ≥ 1 ∧ addr ≤ 16 then
          match strtok delimiter rest2 with
          | none =>
            ⟨0, [Event.write socket_handle
              (cstr "InterTechno: missing <cmd> parameter\r\n") []], tick⟩
          | some (ptr, _) => handle_input_IT_cmd env code addr ptr socket_handle tick
        else
          ⟨0, [Event.write socket_handle
            (cstr "InterTechno: %s: <addr> parameter out of range (must be within 1 to 16)\r\n")
            [Arg.str ptr]], tick⟩
    else
      ⟨0, [Event.write socket_handle
        (cstr "InterTechno: <code> parameter out of range (must be within \x27A\x27 to \x27P\x27)\r\n")
        []], tick⟩

/-- The scene branch of `handle_input`; `scene` is a `long`. -/
def handle_input_SCENE (env : Env) (rest : CStr) (socket_handle : Int) (tick : Nat) : Result :=
  match strtok delimiter rest with
  | none => ⟨0, [Event.write socket_handle (cstr "SCENE: missing parameter\r\n") []], tick⟩
  | some (ptr, _) =>
    let scene : Int := (strtol env.dataModel ptr).1
    if scene ≥ 1 ∧ scene ≤ 254 then
      let usbcmd := usbcmd_clear
      let usbcmd := usbcmd_set usbcmd 0 0x0f
      let usbcmd := usbcmd_set usbcmd 1 (0x01 * scene)
      send_and_reply env usbcmd socket_handle tick []
    else
      ⟨0, [Event.write socket_handle
        (cstr "SCENE: parameter <s> out of range (must be within range 1-254)\r\n") []], tick⟩

/-- The value of `usbcmd[i]` read as an `int`. -/
def usbcmd_get (env : Env) (usbcmd : List Nat) (i : Nat) : Int :=
  charVal env.charSigned (usbcmd.getD i 0)

/-- The GET branch of `handle_input`. -/
def handle_input_GET (env : Env) (rest : CStr) (socket_handle : Int) (tick : Nat) : Result :=
  match strtok delimiter rest with
  | none => ⟨0, [Event.write socket_handle (cstr "GET: missing parameter\r\n") []], tick⟩
  | some (ptr, _) =>
    if cmdcompare ptr (cstr "CLOCK") = 0 ∨ cmdcompare ptr (cstr "TIME") = 0 then
      let usbcmd := usbcmd_set usbcmd_clear 0 0x09
      let r := usb_send env.dev usbcmd true tick
      let failed : List Event :=
        if r.err ≠ 0 then [Event.write socket_handle (cstr "USB communication error\r\n") []]
        else []
      let text := env.mktime_asctime (usbcmd_get env r.data 0) (usbcmd_get env r.data 1)
        (usbcmd_get env r.data 2) (usbcmd_get env r.data 3) (usbcmd_get env r.data 4 - 1)
        (usbcmd_get env r.data 6 + 100)
      ⟨0, [Event.usb usbcmd true r.steps r.err] ++ failed
          ++ [Event.write socket_handle (cstr "%s\r") [Arg.str text]], r.tick⟩
    else if cmdcompare ptr (cstr "TEMP") = 0 then
      let usbcmd := usbcmd_set usbcmd_clear 0 0x0c
      let r := usb_send env.dev usbcmd true tick
      let reply : List Event :=
        if r.err ≠ 0 then [Event.write socket_handle (cstr "USB communication error\r\n") []]
        else if usbcmd_get env r.data 0 = 0xfd then
          [Event.write socket_handle (cstr "%.1f degree Celsius\r\n")
            [Arg.fdiv (usbcmd_get env r.data 1) 2]]
        else []
      ⟨0, [Event.usb usbcmd true r.steps r.err] ++ reply, r.tick⟩
    else
      ⟨0, [Event.write socket_handle (cstr "GET: unknown parameter \x27%s\x27\r\n")
        [Arg.str ptr]], tick⟩

/-- The loop body `usbcmd[i] = ((usbcmd[i]/10)*0x10) + (usbcmd[i]%10)`. -/
def usbcmd_bcd (env : Env) (usbcmd : List Nat) (i : Nat) : List Nat :=
  usbcmd_set usbcmd i
    (Int.tdiv (usbcmd_get env usbcmd i) 10 * 0x10 + Int.tmod (usbcmd_get env usbcmd i) 10)

/-- The SET branch of `handle_input`. -/
def handle_input_SET (env : Env) (rest : CStr) (socket_handle : Int) (tick : Nat) : Result :=
  match strtok delimiter rest with
  | none => ⟨0, [Event.write socket_handle (cstr "SET: missing parameter\r\n") []], tick⟩
  | some (ptr, rest1) =>
    if cmdcompare ptr (cstr "CLOCK") = 0 ∨ cmdcompare ptr (cstr "TIME") = 0 then
      let t : Int × Tm × List Event :=
        match strtok delimiter rest1 with
        | none => (8, env.localtime, [])
        | some (ptr, _) =>
          if ptr.length = 8 then (8, env.strptime ptr (cstr "%m%d%H%M") env.localtime, [])
          else if ptr.length = 10 then
            (8, env.strptime ptr (cstr "%m%d%H%M%y") env.localtime, [])
          else if ptr.length = 11 then
            (8, env.strptime ptr (cstr "%m%d%H%M.%S") env.localtime, [])
          else if ptr.length = 12 then
            (8, env.strptime ptr (cstr "%m%d%H%M%Y") env.localtime, [])
          else if ptr.length = 13 then
            (8, env.strptime ptr (cstr "%m%d%H%M%y.%S") env.localtime, [])
          else if ptr.length = 15 then
            (8, env.strptime ptr (cstr "%m%d%H%M%Y.%S") env.localtime, [])
          else
            (-1, env.localtime, [Event.write socket_handle
              (cstr "SET CLOCK: wrong time format (use MMDDhhmm[[CC]YY][.ss])\r\n") []])
      let cmd := t.1
      let timeinfo := t.2.1
      if cmd ≠ -1 then
        let usbcmd := usbcmd_clear
        let usbcmd := usbcmd_set usbcmd 0 cmd
        let usbcmd := usbcmd_set usbcmd 1 timeinfo.tm_sec
        let usbcmd := usbcmd_set usbcmd 2 timeinfo.tm_min
        let usbcmd := usbcmd_set usbcmd 3 timeinfo.tm_hour
        let usbcmd := usbcmd_set usbcmd 4 timeinfo.tm_mday
        let usbcmd := usbcmd_set usbcmd 5 (timeinfo.tm_mon + 1)
        let usbcmd := usbcmd_set usbcmd 6 (if timeinfo.tm_wday = 0 then 7 else timeinfo.tm_wday)
        let usbcmd := usbcmd_set usbcmd 7 (timeinfo.tm_year - 100)
        let usbcmd := [1, 2, 3, 4, 5, 6, 7].foldl (usbcmd_bcd env) usbcmd
        let ra := usb_send env.dev usbcmd false tick
        let usbcmd2 := usbcmd_set usbcmd_clear 2 0x0d
        let rb := usb_send env.dev usbcmd2 false ra.tick
        let usbcmd3 := usbcmd_clear
        let usbcmd3 := usbcmd_set usbcmd3 0 0x06
        let usbcmd3 := usbcmd_set usbcmd3 1 0x02
        let usbcmd3 := usbcmd_set usbcmd3 2 0x01
        let usbcmd3 := usbcmd_set usbcmd3 3 0x02
        send_and_reply env usbcmd3 socket_handle rb.tick
          (t.2.2 ++ [Event.usb usbcmd false ra.steps ra.err,
                     Event.usb usbcmd2 false rb.steps rb.err])
      else ⟨0, t.2.2, tick⟩
    else
      ⟨0, [Event.write socket_handle (cstr "SET: unknown parameter \x27%s\x27\r\n")
        [Arg.str ptr]], tick⟩

/-- The WAIT branch of `handle_input`: `ms*1000L` is computed in `long` and
converted to the 32-bit unsigned argument type of `usleep`. -/
def handle_input_WAIT (env : Env) (rest : CStr) (socket_handle : Int) (tick : Nat) : Result :=
  match strtok delimiter rest with
  | none => ⟨0, [Event.write socket_handle (cstr "WAIT: missing parameter\r\n") []], tick⟩
  | some (ptr, _) =>
    let ms : Int := (strtol env.dataModel ptr).1
    ⟨0, [Event.usleep (wrapLong env.dataModel (ms * 1000) % 4294967296),
         Event.write socket_handle (cstr "OK\r\n") []], tick⟩

/-- The string `input` points at once the first `strtok` call has written
the terminator behind the first token: the leading delimiters, which
`strtok` skips but leaves in place, followed by the token. -/
def input_after_strtok (input ptr : CStr) : CStr :=
  input.takeWhile (fun c => delimiter.contains c) ++ ptr

/-- The function `handle_input(input, dev_handle, socket_handle)`, called
when the device has seen `tick` transfers.  The command family is chosen by
comparing `input`, not the token `ptr`.  In the format strings the escape
`\e` of the source is the GCC escape for the character 27, and `\%` of
the source is the character `%`. -/
def handle_input (env : Env) (input : CStr) (socket_handle : Int) (tick : Nat) : Result :=
  match strtok delimiter input with
  | none => ⟨0, [], tick⟩
  | some (ptr, rest) =>
    let input := input_after_strtok input ptr
    if cmdcompare input (cstr "H") = 0 ∨ cmdcompare input (cstr "?") = 0 then
      ⟨0, client_cmd_help socket_handle, tick⟩
    else if cmdcompare input (cstr "FS20") = 0 then
      handle_input_FS20 env rest socket_handle tick
    else if cmdcompare input (cstr "UNI") = 0 then
      handle_input_UNI env rest socket_handle tick
    else if cmdcompare input (cstr "IT") = 0 ∨ cmdcompare input (cstr "InterTechno") = 0 then
      handle_input_IT env rest socket_handle tick
    else if cmdcompare input (cstr "SCENE") = 0 then
      handle_input_SCENE env rest socket_handle tick
    else if cmdcompare input (cstr "GET") = 0 then
      handle_input_GET env rest socket_handle tick
    else if cmdcompare input (cstr "SET") = 0 then
      handle_input_SET env rest socket_handle tick
    else if cmdcompare input (cstr "WAIT") = 0 then
      handle_input_WAIT env rest socket_handle tick
    else if cmdcompare input (cstr "QUIT") = 0 ∨ cmdcompare input (cstr "Q") = 0 then
      ⟨-1, [], tick⟩
    else if cmdcompare input (cstr "EXIT") = 0 ∨ cmdcompare input (cstr "E") = 0 then
      ⟨-2, [], tick⟩
    else
      ⟨0, [Event.write socket_handle (cstr "\x1brror - unknown command \x27%s\x27\r\n")
        [Arg.str ptr]], tick⟩

/-! ## TCP socket thread functions -/

/-- The function `ltrim`: the leading white space is removed. -/
def ltrim (s : CStr) : CStr := s.dropWhile isspace

/-- The function `rtrim`: the terminator is written behind the last character
that is not white space, or at the start of a string of white space only. -/
def rtrim (s : CStr) : CStr := (s.reverse.dropWhile isspace).reverse

/-- The function `trim`: `rtrim`, then `ltrim`. -/
def trim (s : CStr) : CStr := ltrim (rtrim s)

/-- What `usb_release` does, in program order. -/
inductive ReleaseStep
  | lock
  | release_interface (rc : Int)
  | close
  | exit_context
  | unlock
  deriving DecidableEq

/-- The function `usb_release`, for the value `release_rc` that
`libusb_release_interface` returns: the returned status (`EXIT_FAILURE` is
1, `EXIT_SUCCESS` is 0) and the steps taken. -/
def usb_release (release_rc : Int) : Int × List ReleaseStep :=
  if release_rc ≠ 0 then
    (1, [ReleaseStep.lock, ReleaseStep.release_interface release_rc, ReleaseStep.unlock])
  else
    (0, [ReleaseStep.lock, ReleaseStep.release_interface release_rc, ReleaseStep.close,
      ReleaseStep.exit_context, ReleaseStep.unlock])

/-- What the thread of a client does, in program order: an event of
`handle_input` or a call of `write_to_client` of its own, `FD_CLR` on the
socket set (under `mutex_socks`), `close` of a socket, a call of
`usb_release` with its steps and returned status, `exit`, and
`pthread_exit`. -/
inductive ServerStep
  | event (e : Event)
  | fd_clr (fd : Int)
  | close (fd : Int)
  | usb_release (steps : List ReleaseStep) (rc : Int)
  | exit (status : Int)
  | pthread_exit
  deriving DecidableEq

/-- How far the thread of a client has come: it waits in `recbuffer` for the
next line, it has ended itself, or it has ended the process. -/
inductive ThreadEnd
  | waiting
  | thread_exit
  | process_exit (status : Int)
  deriving DecidableEq

/-- The run of the thread of a client: its steps, the number of transfers the
device has seen, and how far it has come. -/
structure ClientRun where
  steps : List ServerStep
  tick : Nat
  ending : ThreadEnd

/-- The loop `while(true)` of `tcp_server_handle_client` over the buffers that
the successive calls of `recbuffer` deliver; the value `recbuffer` returns is
overwritten unread.  When the buffers are used up the thread waits in
`recbuffer`. -/
def tcp_server_handle_client_loop (env : Env) (release_rc : Int) (client_fd : Int) :
    List CStr → Nat → ClientRun
  | [], tick => ⟨[], tick, ThreadEnd.waiting⟩
  | buf :: more, tick =>
    let r := handle_input env (trim buf) client_fd tick
    if r.rc < 0 then
      let leave : List ServerStep :=
        [ServerStep.event (Event.write client_fd (cstr "bye\r\n") []),
         ServerStep.fd_clr client_fd, ServerStep.close client_fd]
      if r.rc = -2 then
        let rel := usb_release release_rc
        ⟨r.events.map ServerStep.event ++ leave
            ++ [ServerStep.usb_release rel.2 rel.1, ServerStep.exit rel.1],
          r.tick, ThreadEnd.process_exit rel.1⟩
      else
        ⟨r.events.map ServerStep.event ++ leave ++ [ServerStep.pthread_exit],
          r.tick, ThreadEnd.thread_exit⟩
    else
      let rest := tcp_server_handle_client_loop env release_rc client_fd more r.tick
      ⟨r.events.map ServerStep.event
          ++ ServerStep.event (Event.write client_fd (cstr ">") []) :: rest.steps,
        rest.tick, rest.ending⟩

/-- The function `tcp_server_handle_client` for the client socket
`client_fd`: the welcome line, then the loop. -/
def tcp_server_handle_client (env : Env) (release_rc : Int) (client_fd : Int)
    (bufs : List CStr) (tick : Nat) : ClientRun :=
  let run := tcp_server_handle_client_loop env release_rc client_fd bufs tick
  ⟨ServerStep.event (Event.write client_fd (cstr "Welcome to %s (%s)\r\n>")
      [Arg.str PROGNAME, Arg.str VERSION]) :: run.steps, run.tick, run.ending⟩

/-! ## Two concurrent calls of `usb_send` -/

/-- Where a thread stands inside `usb_send`: before `pthread_mutex_lock`, at
the test of the first `while` loop, at its `usleep`, at the test of the second
`while` loop, at its `usleep`, before `pthread_mutex_unlock`, and after the
call has returned. -/
inductive SendPc
  | entry
  | out_test
  | out_sleep
  | in_test
  | in_sleep
  | leave
  | returned
  deriving DecidableEq

/-- Whether a thread at this point is between `pthread_mutex_lock` and
`pthread_mutex_unlock`. -/
def SendPc.inside : SendPc → Bool
  | SendPc.entry => false
  | SendPc.returned => false
  | _ => true

/-- The parameters and local variables of one call of `usb_send`:
`device_data` is a pointer, given as the number of the buffer it points at. -/
structure SendState where
  pc : SendPc
  device_data : Nat
  fexpectdata : Bool
  retry : Nat
  ret : Int
  err : Int

/-- What the threads of two sessions share while each of them is in a call of
`usb_send`: the state of either call, the owner of `mutex_usb` if it is
locked, the buffers, the number of transfers the device has seen, and what
has happened so far, each step with the session that took it. -/
structure World where
  session : Bool → SendState
  mutex_usb : Option Bool
  mem : Nat → List Nat
  tick : Nat
  trace : List (Bool × UsbStep)

/-- The world after the session `who` has moved to the state `s` and has
taken the steps `steps`. -/
def World.move (w : World) (who : Bool) (s : SendState) (mutex_usb : Option Bool)
    (mem : Nat → List Nat) (tick : Nat) (steps : List UsbStep) : World :=
  ⟨fun b => if b = who then s else w.session b, mutex_usb, mem, tick,
    w.trace ++ steps.map (fun a => (who, a))⟩

/-- One step of the thread of session `who` inside `usb_send`.  A thread that
waits in `pthread_mutex_lock` for a locked mutex, or whose call has returned,
leaves the world as it is.  The test of a `while` loop is taken together with
what follows it up to the next call: the transfer and `retry--` when the loop
goes on, the update of `err` when it ends. -/
def usb_send_step (dev : Device) (who : Bool) (w : World) : World :=
  let s := w.session who
  match s.pc with
  | SendPc.entry =>
    if w.mutex_usb = none then
      w.move who ⟨SendPc.out_test, s.device_data, s.fexpectdata, USB_MAX_RETRY, -1, s.err⟩
        (some who) w.mem w.tick [UsbStep.lock]
    else w
  | SendPc.out_test =>
    if s.ret ≠ 0 ∧ s.retry > 0 then
      let ret := dev.xferOut w.tick (w.mem s.device_data)
      let retry := s.retry - 1
      w.move who
        ⟨if ret ≠ 0 ∧ retry > 0 then SendPc.out_sleep else SendPc.out_test, s.device_data,
          s.fexpectdata, retry, ret, s.err⟩
        w.mutex_usb w.mem (w.tick + 1) [UsbStep.transfer 0x01 (w.mem s.device_data) ret]
    else
      let err := if s.ret ≠ 0 ∧ s.retry = 0 then s.ret else s.err
      if s.fexpectdata then
        w.move who ⟨SendPc.in_test, s.device_data, s.fexpectdata, USB_MAX_RETRY, -1, err⟩
          w.mutex_usb w.mem w.tick []
      else
        w.move who ⟨SendPc.leave, s.device_data, s.fexpectdata, s.retry, s.ret, err⟩
          w.mutex_usb w.mem w.tick []
  | SendPc.out_sleep =>
    w.move who ⟨SendPc.out_test, s.device_data, s.fexpectdata, s.retry, s.ret, s.err⟩
      w.mutex_usb w.mem w.tick [UsbStep.usleep (USB_WAIT_ON_ERROR * 1000)]
  | SendPc.in_test =>
    if s.ret ≠ 0 ∧ s.retry > 0 then
      let x := dev.xferIn w.tick (w.mem s.device_data)
      let retry := s.retry - 1
      w.move who
        ⟨if x.1 ≠ 0 ∧ retry > 0 then SendPc.in_sleep else SendPc.in_test, s.device_data,
          s.fexpectdata, retry, x.1, s.err⟩
        w.mutex_usb (fun p => if p = s.device_data then x.2 else w.mem p) (w.tick + 1)
        [UsbStep.transfer 0x82 x.2 x.1]
    else
      let err := if s.ret ≠ 0 ∧ s.retry = 0 then s.ret else s.err
      w.move who ⟨SendPc.leave, s.device_data, s.fexpectdata, s.retry, s.ret, err⟩
        w.mutex_usb w.mem w.tick []
  | SendPc.in_sleep =>
    w.move who ⟨SendPc.in_test, s.device_data, s.fexpectdata, s.retry, s.ret, s.err⟩
      w.mutex_usb w.mem w.tick [UsbStep.usleep (USB_WAIT_ON_ERROR * 1000)]
  | SendPc.leave =>
    w.move who ⟨SendPc.returned, s.device_data, s.fexpectdata, s.retry, s.ret, s.err⟩
      none w.mem w.tick [UsbStep.unlock]
  | SendPc.returned => w

/-- The world in which two sessions are about to call `usb_send`, the first
with the buffer number `data1`, the second with the buffer number `data2`
(the two may be the same buffer), when the device has seen `tick` transfers. -/
def two_calls (data1 : Nat) (fexpect1 : Bool) (data2 : Nat) (fexpect2 : Bool)
    (mem : Nat → List Nat) (tick : Nat) : World :=
  ⟨fun b => if b then ⟨SendPc.entry, data2, fexpect2, 0, 0, 0⟩
      else ⟨SendPc.entry, data1, fexpect1, 0, 0, 0⟩,
    none, mem, tick, []⟩

/-- The world after the threads have been scheduled in the given order, the
first session as `false`, the second as `true`. -/
def run_schedule (dev : Device) (schedule : List Bool) (w : World) : World :=
  schedule.foldl (fun w who => usb_send_step dev who w) w

/-- The sessions of the transfers on the device link, in the order of the
transfers. -/
def transfer_sessions : List (Bool × UsbStep) → List Bool
  | [] => []
  | (who, UsbStep.transfer _ _ _) :: more => who :: transfer_sessions more
  | _ :: more => transfer_sessions more

/-- The steps of one session, in the order they were taken. -/
def steps_of (who : Bool) (trace : List (Bool × UsbStep)) : List UsbStep :=
  (trace.filter (fun p => p.1 == who)).map (fun p => p.2)

/-- What holds of the world of two calls at every moment: a session is
between lock and unlock exactly when it owns `mutex_usb`, and the trace is a
run of steps of one session followed by a run of steps of the other, where
the second run has not begun before the first session has returned and a
session that has not yet locked the mutex has no step in the trace. -/
def World.serial (w : World) : Prop :=
  (∀ b, (w.session b).pc.inside = true ↔ w.mutex_usb = some b)
    ∧ ∃ x tr1 tr2, w.trace = tr1 ++ tr2 ∧ (∀ p ∈ tr1, p.1 = x) ∧ (∀ p ∈ tr2, p.1 = !x)
        ∧ (tr2 ≠ [] → (w.session x).pc = SendPc.returned)
        ∧ ((w.session x).pc = SendPc.entry → tr1 = [])
        ∧ ((w.session (!x)).pc = SendPc.entry → tr2 = [])

/-! ## Observations on the steps of `usb_send` -/

/-- The values returned by the transfers on the given endpoint, in the order
of the transfers. -/
def transfer_rets (endpoint : Nat) : List UsbStep → List Int
  | [] => []
  | UsbStep.transfer e _ ret :: more =>
    if e = endpoint then ret :: transfer_rets endpoint more else transfer_rets endpoint more
  | _ :: more => transfer_rets endpoint more

/-- The endpoints of the transfers, in the order of the transfers. -/
def transfer_endpoints : List UsbStep → List Nat
  | [] => []
  | UsbStep.transfer e _ _ :: more => e :: transfer_endpoints more
  | _ :: more => transfer_endpoints more

/-! ## Main program: the batch mode -/

/-- The constant `MSG_BUFFER_MAXLEN`, the size of the array `cmdexec` of
`main`. -/
def MSG_BUFFER_MAXLEN : Nat := 2048

/-- The array `cmdexec` of `main`, read as a C string, after
`memset(cmdexec, 0, sizeof(cmdexec))` and
`strncpy(cmdexec, optarg, sizeof(cmdexec))`.  An `optarg` of fewer than 2048
characters is copied and followed by zeros.  From 2048 characters on
`strncpy` fills the array and stores no terminator, so the array holds no
string (`none`). -/
def main_cmdexec (optarg : CStr) : Option CStr :=
  if optarg.length < MSG_BUFFER_MAXLEN then some optarg else none

/-- The array `delimiter` of the batch branch of `main`. -/
def batch_delimiter : CStr := [44, 59]

/-- The tokens the first loop of the batch branch stores in `token[0]`,
`token[1]`, ...: the results of the successive calls of `strtok` on `cmdexec`
up to the first NULL.  Every call eats at least one character, so the length
of `cmdexec` plus one bounds the number of calls. -/
def main_tokens : Nat → CStr → List CStr
  | 0, _ => []
  | fuel + 1, s =>
    match strtok batch_delimiter s with
    | none => []
    | some (tok, rest) => tok :: main_tokens fuel rest

/-- The run of the batch branch: the last value of its variable `rc`, the
calls of `handle_input` it made (the string and the socket handle handed
over), the events of these calls, and the number of transfers the device has
seen. -/
structure BatchRun where
  rc : Int
  calls : List (CStr × Int)
  events : List Event
  tick : Nat

/-- The loop `while( rc>=0 && token[i]!=NULL )` of the batch branch, entered
with the tokens from `token[i]` on and the variable `rc`. -/
def main_batch_loop (env : Env) : List CStr → Int → Nat → BatchRun
  | [], rc, tick => ⟨rc, [], [], tick⟩
  | tok :: more, rc, tick =>
    if rc ≥ 0 then
      let r := handle_input env (trim tok) 0 tick
      let run := main_batch_loop env more r.rc r.tick
      ⟨run.rc, (trim tok, 0) :: run.calls, r.events ++ run.events, run.tick⟩
    else ⟨rc, [], [], tick⟩

/-- What `main` does once `usb_connect` has returned `EXIT_SUCCESS`: the
program has no defined behaviour, or it becomes the TCP server, or it makes
a batch run. -/
inductive MainRun
  | undefined
  | tcp_server
  | batch (run : BatchRun)

/-- The batch run of a `MainRun`, if it is one. -/
def MainRun.run : MainRun → Option BatchRun
  | MainRun.batch run => some run
  | _ => none

/-- The function `main` from the call of `usb_connect` on, when that call
has returned `EXIT_SUCCESS` and the device has seen `tick` transfers.
`optarg` is the argument of the last option `-c`, the empty string when
there is none.  With an `optarg` of 2048 characters or more `cmdexec` holds
no terminator and `strtok` reads beyond the array: undefined.  With
`*cmdexec` zero the `else` branch is taken, the TCP server.  Otherwise the
batch branch is taken: the array `token` has 100 cells and the first loop
stores one pointer per token and the final NULL, so with 100 tokens or more
it stores beyond the array: undefined. -/
def main_batch (env : Env) (optarg : CStr) (tick : Nat) : MainRun :=
  match main_cmdexec optarg with
  | none => MainRun.undefined
  | some cmdexec =>
    if deref cmdexec ≠ 0 then
      let token := main_tokens (cmdexec.length + 1) cmdexec
      if token.length < 100 then MainRun.batch (main_batch_loop env token 0 tick)
      else MainRun.undefined
    else MainRun.tcp_server

/-- The commands of a command string in the words of the specification: the
string is split at every `,` and every `;`, and the pieces that are not empty
are the commands. -/
def batch_commands (cmdexec : CStr) : List CStr :=
  (cmdexec.splitOnP (fun c => c == 44 || c == 59)).filter (fun c => !c.isEmpty)

/-- The calls the specification asks for: the commands in order, each once,
white space at its ends removed, with the socket handle 0, from the first
command up to and including the first one for which `handle_input` returns a
negative value, and all of them when there is none.  (The value returned by
`handle_input` does not depend on the transfers made before, so it is taken
at the transfer count 0.) -/
def batch_calls (env : Env) (commands : List CStr) : List (CStr × Int) :=
  (commands.take
    ((commands.takeWhile (fun c => decide ((handle_input env (trim c) 0 0).rc ≥ 0))).length
      + 1)).map
    (fun c => (trim c, 0))

/-- The execution of a list of calls of `handle_input` in the words of the
specification: the calls are made one after the other, each on the device as
the call before it has left it; the events are those of the calls in the
order of the calls, and the value is that of the last call (`rc` when there
is no call). -/
def calls_in_order (env : Env) : List (CStr × Int) → Int → Nat → Result
  | [], rc, tick => ⟨rc, [], tick⟩
  | (input, socket_handle) :: more, _, tick =>
    let r := handle_input env input socket_handle tick
    let run := calls_in_order env more r.rc r.tick
    ⟨run.rc, r.events ++ run.events, run.tick⟩

/-! ## Observations and a sample environment -/

/-- The frames handed to `usb_send`, in program order. -/
def sent_frames : List Event → List (List Nat)
  | [] => []
  | Event.usb device_data _ _ _ :: es => device_data :: sent_frames es
  | _ :: es => sent_frames es

/-- A device on which every transfer succeeds and every response is the
frame `fd 2b 00 00 00 00 00 00`. -/
def sample_device : Device :=
  ⟨fun _ _ => 0, fun _ _ => (0, [0xfd, 0x2b, 0, 0, 0, 0, 0, 0])⟩

/-- A sample environment: housecode 0x1234 on the given data model, signed
`char`, the sample device, and the local time Friday 2026-10-30 14:37:05;
`strptime` leaves the time alone and the clock text is empty. -/
def sample_env (dm : DataModel) : Env :=
  ⟨0x1234, dm, true, sample_device, ⟨5, 37, 14, 30, 9, 126, 5⟩, fun _ _ t => t,
    fun _ _ _ _ _ _ => []⟩

/-- A device on which every transfer fails with the libusb timeout code. -/
def dead_device : Device :=
  ⟨fun _ _ => -7, fun _ data => (-7, data)⟩

/-- The sample environment with the dead device in place of the sample
device. -/
def dead_env (dm : DataModel) : Env :=
  ⟨0x1234, dm, true, dead_device, ⟨5, 37, 14, 30, 9, 126, 5⟩, fun _ _ t => t,
    fun _ _ _ _ _ _ => []⟩

/-- A device on which the first five transfers fail and all later ones
succeed. -/
def flaky_device : Device :=
  ⟨fun k _ => if k < 5 then -7 else 0, fun k data => (if k < 5 then -7 else 0, data)⟩

/-- The sample environment with the flaky device in place of the sample
device. -/
def flaky_env (dm : DataModel) : Env :=
  ⟨0x1234, dm, true, flaky_device, ⟨5, 37, 14, 30, 9, 126, 5⟩, fun _ _ t => t,
    fun _ _ _ _ _ _ => []⟩

/-- The sample environment on a build whose plain `char` is unsigned. -/
def unsigned_env (dm : DataModel) : Env :=
  ⟨0x1234, dm, false, sample_device, ⟨5, 37, 14, 30, 9, 126, 5⟩, fun _ _ t => t,
    fun _ _ _ _ _ _ => []⟩

/-- The values returned by the calls of `usb_send`, in program order. -/
def usb_errors : List Event → List Int
  | [] => []
  | Event.usb _ _ _ err :: es => err :: usb_errors es
  | _ :: es => usb_errors es

/-- The format strings handed to `write_to_client`, in program order. -/
def written_formats : List Event → List CStr
  | [] => []
  | Event.write _ format _ :: es => format :: written_formats es
  | _ :: es => written_formats es

/-- The socket handles handed to `write_to_client`, in program order; with
the handle 0 `write_to_client` writes to `stdout`. -/
def written_sockets : List Event → List Int
  | [] => []
  | Event.write socket_handle _ _ :: es => socket_handle :: written_sockets es
  | _ :: es => written_sockets es

/-- The environment `env` with the C library function `strptime` given in
full: for the input, the format and the `struct tm` before the call it yields
the returned pointer (`none` for NULL, the report of a failed parse) and the
`struct tm` after the call.  `handle_input` drops the returned pointer. -/
def env_with_strptime (env : Env) (strptime_full : CStr → CStr → Tm → Option CStr × Tm) :
    Env :=
  ⟨env.housecode, env.dataModel, env.charSigned, env.dev, env.localtime,
    fun s format tm => (strptime_full s format tm).2, env.mktime_asctime⟩

/-- What `strptime` does on an input it cannot read from the first character
on: it returns NULL and leaves the `struct tm` alone. -/
def failing_strptime (_s : CStr) (_format : CStr) (tm : Tm) : Option CStr × Tm :=
  (none, tm)

/-! ## Lemmas on the FS20 codec -/

theorem isspace_ge (c : Nat) (h : 14 ≤ c) (h2 : c ≠ 32) : isspace c = false := by
  simp [isspace]
  omega

theorem isspace_digit (d : Nat) : isspace (48 + d) = false :=
  isspace_ge _ (by omega) (by omega)

theorem itoa_nibble (n : Nat) (h : n < 16) :
    itoa (n : Int) 4 = if n < 4 then [48 + n] else [48 + n / 4, 48 + n % 4] := by
  interval_cases n <;> decide

theorem itofs20_step_nib (code : Int) (shift n : Nat) (buf : Mem) (p : Nat)
    (hn : (code / 2 ^ shift) % 16 = (n : Int)) (hlt : n < 16) :
    itofs20_step code none shift (buf, p)
      = (((buf.write p (48 + n / 4)).write (p + 1) (48 + n % 4)).write (p + 2) 0, p + 2) := by
  unfold itofs20_step
  simp only [hn, itoa_nibble n hlt]
  by_cases h4 : n < 4
  · have h4i : (n : Int) < 4 := by omega
    have hq : n / 4 = 0 := by omega
    have hr : n % 4 = n := by omega
    rw [if_pos h4i, if_pos h4, hq, hr]
    rfl
  · have h4i : ¬ (n : Int) < 4 := by omega
    rw [if_neg h4i, if_neg h4]
    rfl

theorem itofs20_step_none (c shift : Nat) (buf : Mem) (p : Nat) :
    itofs20_step (c : Int) none shift (buf, p)
      = (((buf.write p (48 + c / 2 ^ shift % 16 / 4)).write (p + 1)
            (48 + c / 2 ^ shift % 16 % 4)).write (p + 2) 0, p + 2) := by
  apply itofs20_step_nib
  · push_cast
    rfl
  · exact Nat.mod_lt _ (by norm_num)

theorem itofs20_short (buf : Mem) (c : Nat) (h : c ≤ 255) :
    itofs20 buf (c : Int) none
      = [49 + c / 16 % 16 / 4, 49 + c / 16 % 16 % 4, 49 + c % 16 / 4, 49 + c % 16 % 4] := by
  have hc : ¬ ((c : Int) > 255) := by
    have : (c : Int) ≤ 255 := by exact_mod_cast h
    omega
  have e1 : (48 + c / 16 % 16 / 4 + 1) % 256 = 49 + c / 16 % 16 / 4 := by omega
  have e2 : (48 + c / 16 % 16 % 4 + 1) % 256 = 49 + c / 16 % 16 % 4 := by omega
  have e3 : (48 + c % 16 / 4 + 1) % 256 = 49 + c % 16 / 4 := by omega
  have e4 : (48 + c % 16 % 4 + 1) % 256 = 49 + c % 16 % 4 := by omega
  unfold itofs20
  simp only [itofs20_sep, hc, if_false]
  simp [itofs20_while, itofs20_step_none, itofs20_incr, Mem.write, Mem.cstrAt, e1, e2, e3, e4]

theorem itofs20_long (buf : Mem) (c : Nat) (h : 255 < c) :
    itofs20 buf (c : Int) none
      = [49 + c / 4096 % 16 / 4, 49 + c / 4096 % 16 % 4,
         49 + c / 256 % 16 / 4, 49 + c / 256 % 16 % 4,
         49 + c / 16 % 16 / 4, 49 + c / 16 % 16 % 4,
         49 + c % 16 / 4, 49 + c % 16 % 4] := by
  have hc : (c : Int) > 255 := by
    have : (255 : Int) < c := by exact_mod_cast h
    omega
  have e1 : (48 + c / 16 % 16 / 4 + 1) % 256 = 49 + c / 16 % 16 / 4 := by omega
  have e2 : (48 + c / 16 % 16 % 4 + 1) % 256 = 49 + c / 16 % 16 % 4 := by omega
  have e3 : (48 + c % 16 / 4 + 1) % 256 = 49 + c % 16 / 4 := by omega
  have e4 : (48 + c % 16 % 4 + 1) % 256 = 49 + c % 16 % 4 := by omega
  have e5 : (48 + c / 256 % 16 / 4 + 1) % 256 = 49 + c / 256 % 16 / 4 := by omega
  have e6 : (48 + c / 256 % 16 % 4 + 1) % 256 = 49 + c / 256 % 16 % 4 := by omega
  have e7 : (48 + c / 4096 % 16 / 4 + 1) % 256 = 49 + c / 4096 % 16 / 4 := by omega
  have e8 : (48 + c / 4096 % 16 % 4 + 1) % 256 = 49 + c / 4096 % 16 % 4 := by omega
  unfold itofs20
  simp only [itofs20_sep, hc, if_true]
  simp [itofs20_while, itofs20_step_none, itofs20_incr, Mem.write, Mem.cstrAt,
    e1, e2, e3, e4, e5, e6, e7, e8]

theorem charVal_small (s : Bool) (b : Nat) (h : b < 128) : charVal s b = b := by
  unfold charVal
  rw [if_neg (by omega)]
  omega

/-- On a string of ASCII characters the signedness of `char` makes no
difference to `fs20toi`. -/
theorem fs20toi_loop_ascii (s : Bool) :
    ∀ (fs20 : CStr) (res : Int), (∀ c ∈ fs20, c < 128) →
      fs20toi_loop s fs20 res = fs20toi_loop false fs20 res
  | [], _, _ => rfl
  | [c1], res, h => by
    simp only [fs20toi_loop, charVal_small s c1 (h c1 (by simp)),
      charVal_small false c1 (h c1 (by simp))]
  | c1 :: c2 :: rest, res, h => by
    simp only [fs20toi_loop, charVal_small s c1 (h c1 (by simp)),
      charVal_small false c1 (h c1 (by simp)), charVal_small s c2 (h c2 (by simp)),
      charVal_small false c2 (h c2 (by simp))]
    rw [fs20toi_loop_ascii s rest _ (fun c hc => h c (by simp [hc]))]

theorem fs20toi_ascii (s : Bool) (fs20 : CStr) (h : ∀ c ∈ fs20, c < 128) :
    fs20toi s fs20 = fs20toi false fs20 := by
  unfold fs20toi
  rw [fs20toi_loop_ascii s fs20 0 h]

theorem fs20toi_1111 (s : Bool) : fs20toi s [49, 49, 49, 49] = 0 := by
  cases s <;> decide

theorem fs20toi_1112 (s : Bool) : fs20toi s [49, 49, 49, 50] = 1 := by
  cases s <;> decide

theorem fs20toi_two_pairs (s : Bool) (a b c d : Nat) (ha : 1 ≤ a ∧ a ≤ 4) (hb : 1 ≤ b ∧ b ≤ 4)
    (hc : 1 ≤ c ∧ c ≤ 4) (hd : 1 ≤ d ∧ d ≤ 4) :
    fs20toi s [48 + a, 48 + b, 48 + c, 48 + d]
      = (((64 * a + 16 * b + 4 * c + d - 85 : Nat)) : Int) := by
  simp [fs20toi, fs20toi_loop, isspace_digit, wrap32, charVal_small s (48 + a) (by omega),
    charVal_small s (48 + b) (by omega), charVal_small s (48 + c) (by omega),
    charVal_small s (48 + d) (by omega)]
  omega

theorem fs20toi_four_pairs (s : Bool) (a b c d e f g h : Nat) (ha : 1 ≤ a ∧ a ≤ 4) (hb : 1 ≤ b ∧ b ≤ 4)
    (hc : 1 ≤ c ∧ c ≤ 4) (hd : 1 ≤ d ∧ d ≤ 4) (he : 1 ≤ e ∧ e ≤ 4) (hf : 1 ≤ f ∧ f ≤ 4)
    (hg : 1 ≤ g ∧ g ≤ 4) (hh : 1 ≤ h ∧ h ≤ 4) :
    fs20toi s [48 + a, 48 + b, 48 + c, 48 + d, 48 + e, 48 + f, 48 + g, 48 + h]
      = (((16384 * a + 4096 * b + 1024 * c + 256 * d + 64 * e + 16 * f + 4 * g + h - 21845
            : Nat)) : Int) := by
  simp [fs20toi, fs20toi_loop, isspace_digit, wrap32, charVal_small s (48 + a) (by omega),
    charVal_small s (48 + b) (by omega), charVal_small s (48 + c) (by omega),
    charVal_small s (48 + d) (by omega), charVal_small s (48 + e) (by omega),
    charVal_small s (48 + f) (by omega), charVal_small s (48 + g) (by omega),
    charVal_small s (48 + h) (by omega)]
  omega

/-! ## Lemmas on tokens, numbers and keywords -/

theorem strtok_token_sep (tok rest : CStr) (d : Nat) (hne : tok ≠ [])
    (h : ∀ c ∈ tok, c ∉ delimiter) (hd : d ∈ delimiter) :
    strtok delimiter (tok ++ d :: rest) = some (tok, rest) := by
  cases tok with
  | nil => exact absurd rfl hne
  | cons c t =>
    have hc : c ∉ delimiter := h c (by simp)
    have hall : ∀ a ∈ c :: t, (fun x => !delimiter.contains x) a = true := by
      intro a ha
      simpa using h a ha
    unfold strtok
    rw [List.cons_append, List.dropWhile_cons_of_neg (by simpa using hc)]
    simp only
    rw [← List.cons_append, List.takeWhile_append_of_pos hall,
      List.dropWhile_append_of_pos hall]
    rw [List.dropWhile_cons_of_neg (by simpa using hd),
      List.takeWhile_cons_of_neg (by simpa using hd)]
    simp

theorem strtok_token_end (tok : CStr) (hne : tok ≠ []) (h : ∀ c ∈ tok, c ∉ delimiter) :
    strtok delimiter tok = some (tok, []) := by
  cases tok with
  | nil => exact absurd rfl hne
  | cons c t =>
    have hc : c ∉ delimiter := h c (by simp)
    have hall : ∀ a ∈ c :: t, (fun x => !delimiter.contains x) a = true := by
      intro a ha
      simpa using h a ha
    have e := @List.takeWhile_append_of_pos _ _ (c :: t) [] hall
    have e2 := @List.dropWhile_append_of_pos _ _ (c :: t) [] hall
    simp only [List.append_nil, List.takeWhile_nil, List.dropWhile_nil] at e e2
    unfold strtok
    rw [List.dropWhile_cons_of_neg (by simpa using hc)]
    simp only
    rw [e, e2]
    rfl

theorem strtol_digits_append (ds : List Nat) (tail : CStr) (hd : ∀ d ∈ ds, d ≤ 9)
    (ht : ¬ (48 ≤ deref tail ∧ deref tail ≤ 57)) (acc : Nat) :
    strtol_digits (ds.map (fun d => 48 + d) ++ tail) acc
      = (ds.foldl (fun a d => a * 10 + d) acc, tail) := by
  induction ds generalizing acc with
  | nil =>
    cases tail with
    | nil => rfl
    | cons c cs =>
      have : ¬ (48 ≤ c ∧ c ≤ 57) := by simpa [deref] using ht
      simp [strtol_digits, this]
  | cons d ds ih =>
    have h9 : d ≤ 9 := hd d (by simp)
    have hrest : ∀ x ∈ ds, x ≤ 9 := fun x hx => hd x (by simp [hx])
    have hin : 48 ≤ 48 + d ∧ 48 + d ≤ 57 := by omega
    show strtol_digits ((48 + d) :: (ds.map (fun d => 48 + d) ++ tail)) acc = _
    rw [strtol_digits, if_pos hin, ih hrest]
    simp

theorem strtol_decimal (dm : DataModel) (ds : List Nat) (tail : CStr) (hne : ds ≠ [])
    (hd : ∀ d ∈ ds, d ≤ 9) (ht : ¬ (48 ≤ deref tail ∧ deref tail ≤ 57)) :
    strtol dm (ds.map (fun d => 48 + d) ++ tail)
      = if ((ds.foldl (fun a d => a * 10 + d) 0 : Nat) : Int) > LONG_MAX dm
        then (LONG_MAX dm, true)
        else (((ds.foldl (fun a d => a * 10 + d) 0 : Nat) : Int), false) := by
  cases ds with
  | nil => exact absurd rfl hne
  | cons d ds =>
    have h9 : d ≤ 9 := hd d (by simp)
    have h := strtol_digits_append (d :: ds) tail hd ht 0
    simp only [List.map_cons, List.cons_append] at h
    unfold strtol
    simp only [List.map_cons, List.cons_append]
    rw [List.dropWhile_cons_of_neg (by simp [isspace_digit])]
    have e1 : ¬ deref ((48 + d) :: (ds.map (fun d => 48 + d) ++ tail)) = 45 := by
      simp [deref]; omega
    have e2 : ¬ deref ((48 + d) :: (ds.map (fun d => 48 + d) ++ tail)) = 43 := by
      simp [deref]; omega
    simp only [e1, e2, if_false, h]
    simp

theorem wrap8_ne_zero (x : Int) (h : x ≠ 0) (hlo : -256 < x) (hhi : x < 256) : wrap8 x ≠ 0 := by
  unfold wrap8
  omega

theorem cmdcompare_head_ne (c : Nat) (t : CStr) (k : Nat) (ks : CStr)
    (hc : toupper c < 256) (hk : toupper k < 256) (h : toupper c ≠ toupper k) :
    cmdcompare (c :: t) (k :: ks) ≠ 0 := by
  have hx : wrap8 ((toupper c : Int) - (toupper k : Int)) ≠ 0 :=
    wrap8_ne_zero _ (by omega) (by omega) (by omega)
  simp only [cmdcompare, List.length_cons, strnicmp, deref, List.headD_cons]
  rw [if_pos (Or.inl hx)]
  exact hx

theorem toupper_digit (d : Nat) (h : d ≤ 9) : toupper (48 + d) = 48 + d := by
  unfold toupper
  rw [if_neg (by omega)]

theorem cmdcompare_digit_head (d : Nat) (t : CStr) (k : Nat) (ks : CStr) (hd : d ≤ 9)
    (hk : toupper k < 48 ∨ (57 < toupper k ∧ toupper k < 256)) :
    cmdcompare ((48 + d) :: t) (k :: ks) ≠ 0 := by
  apply cmdcompare_head_ne
  · rw [toupper_digit d hd]; omega
  · omega
  · rw [toupper_digit d hd]; omega

theorem digit_not_delimiter (d : Nat) (h : d ≤ 9) : 48 + d ∉ delimiter := by
  simp [delimiter]
  omega

theorem decimal_token_no_delimiter (ds : List Nat) (tail : CStr) (hd : ∀ d ∈ ds, d ≤ 9)
    (ht : ∀ c ∈ tail, c ∉ delimiter) :
    ∀ c ∈ ds.map (fun d => 48 + d) ++ tail, c ∉ delimiter := by
  intro c hc
  rcases List.mem_append.mp hc with h | h
  · obtain ⟨d, hdm, rfl⟩ := List.mem_map.mp h
    exact digit_not_delimiter d (hd d hdm)
  · exact ht c h

theorem getLast_decimal_percent (ds : List Nat) :
    (ds.map (fun d => 48 + d) ++ [37]).getLast? = some 37 := by
  simp

theorem getLast_decimal (ds : List Nat) :
    (ds.map (fun d => 48 + d)).getLast? ≠ some 37 := by
  intro h
  have hm := List.mem_of_getLast?_eq_some h
  obtain ⟨d, _, hd37⟩ := List.mem_map.mp hm
  omega

theorem toByte_natCast (n : Nat) (h : n < 256) : toByte (n : Int) = n := by
  unfold toByte
  omega

theorem usbcmd_FS20 (hc : Nat) (addr cmd : Int) :
    usbcmd_set (usbcmd_set (usbcmd_set (usbcmd_set (usbcmd_set (usbcmd_set usbcmd_clear
      0 0x01) 1 ((hc / 256 % 256 : Nat) : Int)) 2 ((hc % 256 : Nat) : Int)) 3 addr) 4 cmd)
      6 0x03
      = [1, hc / 256 % 256, hc % 256, toByte addr, toByte cmd, 0, 3, 0] := by
  have h1 : toByte ((hc / 256 % 256 : Nat) : Int) = hc / 256 % 256 :=
    toByte_natCast _ (Nat.mod_lt _ (by norm_num))
  have h2 : toByte ((hc % 256 : Nat) : Int) = hc % 256 :=
    toByte_natCast _ (Nat.mod_lt _ (by norm_num))
  have h3 : toByte 0x01 = 1 := by decide
  have h4 : toByte 0x03 = 3 := by decide
  simp only [usbcmd_set, usbcmd_clear, h1, h2, h3, h4]
  rfl

/-- The FS20 branch on an action token that starts with a decimal digit: no
keyword matches, so the token is read as a dim level. -/
theorem handle_input_FS20_cmd_digit (env : Env) (addr : Int) (d : Nat) (t : CStr)
    (socket_handle : Int) (tick : Nat) (hd : d ≤ 9) (r : Int × Bool) (dim : Int)
    (hr : r = strtol env.dataModel ((48 + d) :: t))
    (hdim : dim = if ((48 + d) :: t).getLast? = some 37
      then Int.tdiv (wrap32 (16 * wrap32 r.1)) 100 else wrap32 r.1) :
    handle_input_FS20_cmd env addr ((48 + d) :: t) socket_handle tick
      = (if r.2 ∨ dim < 0 ∨ dim > 16 then
          ⟨0, [Event.write socket_handle
            (cstr "FS20: Wrong dim level (must be within 0-16 or 0%-100%)\r\n") []], tick⟩
         else
          send_and_reply env
            [1, env.housecode / 256 % 256, env.housecode % 256, toByte addr, toByte dim, 0, 3, 0]
            socket_handle tick []) := by
  have k1 : ¬ cmdcompare ((48 + d) :: t) (cstr "ON") = 0 :=
    cmdcompare_digit_head d t 79 [78] hd (by decide)
  have k2 : ¬ cmdcompare ((48 + d) :: t) (cstr "OFF") = 0 :=
    cmdcompare_digit_head d t 79 [70, 70] hd (by decide)
  have k3 : ¬ cmdcompare ((48 + d) :: t) (cstr "TOGGLE") = 0 :=
    cmdcompare_digit_head d t 84 [79, 71, 71, 76, 69] hd (by decide)
  have k4 : ¬ cmdcompare ((48 + d) :: t) (cstr "UP") = 0 :=
    cmdcompare_digit_head d t 85 [80] hd (by decide)
  have k5 : ¬ cmdcompare ((48 + d) :: t) (cstr "+") = 0 :=
    cmdcompare_digit_head d t 43 [] hd (by decide)
  have k6 : ¬ cmdcompare ((48 + d) :: t) (cstr "DOWN") = 0 :=
    cmdcompare_digit_head d t 68 [79, 87, 78] hd (by decide)
  have k7 : ¬ cmdcompare ((48 + d) :: t) (cstr "-") = 0 :=
    cmdcompare_digit_head d t 45 [] hd (by decide)
  unfold handle_input_FS20_cmd
  simp only [k1, k2, k3, k4, k5, k6, k7, if_false, or_self, ← hr, ← hdim]
  by_cases hbad : r.2 = true ∨ dim < 0 ∨ dim > 16
  · have h2 : ¬ ((-2 : Int) ≥ 0) := by decide
    have h3 : ¬ ((-2 : Int) = -1) := by decide
    simp only [if_pos hbad, h2, h3, if_false]
  · have hge : 0x01 * dim ≥ 0 := by
      have : ¬ dim < 0 := fun h => hbad (Or.inr (Or.inl h))
      omega
    simp only [if_neg hbad, hge, if_true, usbcmd_FS20]
    rw [show (0x01 : Int) * dim = dim by omega]

theorem LONG_MAX_ge (dm : DataModel) : 2147483647 ≤ LONG_MAX dm := by
  cases dm <;> decide

theorem strtol_decimal_small (dm : DataModel) (ds : List Nat) (tail : CStr) (hne : ds ≠ [])
    (hd : ∀ d ∈ ds, d ≤ 9) (ht : ¬ (48 ≤ deref tail ∧ deref tail ≤ 57))
    (hsmall : ds.foldl (fun a d => a * 10 + d) 0 ≤ 2147483647) :
    strtol dm (ds.map (fun d => 48 + d) ++ tail)
      = (((ds.foldl (fun a d => a * 10 + d) 0 : Nat) : Int), false) := by
  rw [strtol_decimal dm ds tail hne hd ht, if_neg]
  have := LONG_MAX_ge dm
  omega

theorem handle_input_FS20_line (env : Env) (rest : CStr) (socket_handle : Int) (tick : Nat) :
    handle_input env (cstr "FS20 " ++ rest) socket_handle tick
      = handle_input_FS20 env rest socket_handle tick := by
  have h : cstr "FS20 " = [70, 83, 50, 48, 32] := by decide
  have c1 : ¬ (cmdcompare [70, 83, 50, 48] (cstr "H") = 0
      ∨ cmdcompare [70, 83, 50, 48] (cstr "?") = 0) := by decide
  have c2 : cmdcompare [70, 83, 50, 48] (cstr "FS20") = 0 := by decide
  rw [h]
  simp [handle_input, strtok, delimiter, input_after_strtok, c1, c2]

theorem handle_input_UNIROLL_line (env : Env) (rest : CStr) (socket_handle : Int) (tick : Nat) :
    handle_input env (cstr "UNIROLL " ++ rest) socket_handle tick
      = handle_input_UNI env rest socket_handle tick := by
  have h : cstr "UNIROLL " = [85, 78, 73, 82, 79, 76, 76, 32] := by decide
  have c1 : ¬ (cmdcompare [85, 78, 73, 82, 79, 76, 76] (cstr "H") = 0
      ∨ cmdcompare [85, 78, 73, 82, 79, 76, 76] (cstr "?") = 0) := by decide
  have c2 : ¬ cmdcompare [85, 78, 73, 82, 79, 76, 76] (cstr "FS20") = 0 := by decide
  have c3 : cmdcompare [85, 78, 73, 82, 79, 76, 76] (cstr "UNI") = 0 := by decide
  rw [h]
  simp [handle_input, strtok, delimiter, input_after_strtok, c1, c2, c3]

theorem handle_input_IT_line (env : Env) (rest : CStr) (socket_handle : Int) (tick : Nat) :
    handle_input env (cstr "IT " ++ rest) socket_handle tick
      = handle_input_IT env rest socket_handle tick := by
  have h : cstr "IT " = [73, 84, 32] := by decide
  have c1 : ¬ (cmdcompare [73, 84] (cstr "H") = 0 ∨ cmdcompare [73, 84] (cstr "?") = 0) := by
    decide
  have c2 : ¬ cmdcompare [73, 84] (cstr "FS20") = 0 := by decide
  have c3 : ¬ cmdcompare [73, 84] (cstr "UNI") = 0 := by decide
  have c4 : cmdcompare [73, 84] (cstr "IT") = 0 := by decide
  rw [h]
  simp [handle_input, strtok, delimiter, input_after_strtok, c1, c2, c3, c4]

theorem usbcmd_UNI (addr cmd : Int) :
    usbcmd_set (usbcmd_set (usbcmd_set (usbcmd_set usbcmd_clear 0 0x15) 1 addr) 2 0x74) 3 cmd
      = [0x15, toByte addr, 0x74, toByte cmd, 0, 0, 0, 0] := by
  have h1 : toByte 0x15 = 0x15 := by decide
  have h2 : toByte 0x74 = 0x74 := by decide
  simp only [usbcmd_set, usbcmd_clear, h1, h2]
  rfl

theorem usbcmd_IT (b1 cmd : Int) :
    usbcmd_set (usbcmd_set (usbcmd_set (usbcmd_set usbcmd_clear 0 0x05) 1 b1) 2 cmd) 3 0x06
      = [0x05, toByte b1, toByte cmd, 0x06, 0, 0, 0, 0] := by
  have h1 : toByte 0x05 = 0x05 := by decide
  have h2 : toByte 0x06 = 0x06 := by decide
  simp only [usbcmd_set, usbcmd_clear, h1, h2]
  rfl

/-- The FS20 line with an address token and an action token of decimal
digits only. -/
theorem handle_input_FS20_dim (env : Env) (a : CStr) (ds : List Nat) (socket_handle : Int)
    (tick : Nat) (ha : a ≠ []) (had : ∀ c ∈ a, c ∉ delimiter) (hpos : 0 < fs20toi env.charSigned a)
    (hne : ds ≠ []) (hd : ∀ d ∈ ds, d ≤ 9) :
    handle_input env (cstr "FS20 " ++ a ++ 32 :: ds.map (fun d => 48 + d)) socket_handle tick
      = (if (strtol env.dataModel (ds.map (fun d => 48 + d))).2
            ∨ wrap32 (strtol env.dataModel (ds.map (fun d => 48 + d))).1 < 0
            ∨ wrap32 (strtol env.dataModel (ds.map (fun d => 48 + d))).1 > 16 then
          ⟨0, [Event.write socket_handle
            (cstr "FS20: Wrong dim level (must be within 0-16 or 0%-100%)\r\n") []], tick⟩
         else
          send_and_reply env
            [1, env.housecode / 256 % 256, env.housecode % 256, toByte (fs20toi env.charSigned a),
              toByte (wrap32 (strtol env.dataModel (ds.map (fun d => 48 + d))).1), 0, 3, 0]
            socket_handle tick []) := by
  have hnd := decimal_token_no_delimiter ds [] hd (by simp)
  have hlast := getLast_decimal ds
  rw [List.append_nil] at hnd
  rw [List.append_assoc, handle_input_FS20_line]
  unfold handle_input_FS20
  rw [strtok_token_sep a _ 32 ha had (by decide)]
  simp only [gt_iff_lt, hpos, if_true]
  rw [strtok_token_end _ (by simpa using hne) hnd]
  simp only
  cases ds with
  | nil => exact absurd rfl hne
  | cons d ds =>
    have h9 : d ≤ 9 := hd d (by simp)
    simp only [List.map_cons] at hlast ⊢
    rw [handle_input_FS20_cmd_digit env _ d _ socket_handle tick h9 _ _ rfl rfl]
    simp only [hlast, if_false]

theorem handle_input_UNI_cmd_keyword (env : Env) (addr : Int) (act : CStr) (code : Nat)
    (socket_handle : Int) (tick : Nat)
    (h : (act, code) ∈ [(cstr "STOP", 0x02), (cstr "UP", 0x01), (cstr "+", 0x01),
      (cstr "DOWN", 0x04), (cstr "-", 0x04)]) :
    handle_input_UNI_cmd env addr act socket_handle tick
      = send_and_reply env [0x15, toByte (addr - 1), 0x74, code, 0, 0, 0, 0]
          socket_handle tick [] := by
  have s1 : cmdcompare (cstr "STOP") (cstr "STOP") = 0 := by decide
  have u1 : ¬ cmdcompare (cstr "UP") (cstr "STOP") = 0 := by decide
  have u2 : cmdcompare (cstr "UP") (cstr "UP") = 0 := by decide
  have p1 : ¬ cmdcompare (cstr "+") (cstr "STOP") = 0 := by decide
  have p2 : cmdcompare (cstr "+") (cstr "+") = 0 := by decide
  have d1 : ¬ cmdcompare (cstr "DOWN") (cstr "STOP") = 0 := by decide
  have d2 : ¬ cmdcompare (cstr "DOWN") (cstr "UP") = 0 := by decide
  have d3 : ¬ cmdcompare (cstr "DOWN") (cstr "+") = 0 := by decide
  have d4 : cmdcompare (cstr "DOWN") (cstr "DOWN") = 0 := by decide
  have m1 : ¬ cmdcompare (cstr "-") (cstr "STOP") = 0 := by decide
  have m2 : ¬ cmdcompare (cstr "-") (cstr "UP") = 0 := by decide
  have m3 : ¬ cmdcompare (cstr "-") (cstr "+") = 0 := by decide
  have m4 : cmdcompare (cstr "-") (cstr "-") = 0 := by decide
  have b1 : toByte 0x01 = 1 := by decide
  have b2 : toByte 0x02 = 2 := by decide
  have b4 : toByte 0x04 = 4 := by decide
  simp only [List.mem_cons, Prod.mk.injEq, List.mem_singleton, List.not_mem_nil, or_false] at h
  unfold handle_input_UNI_cmd
  rcases h with ⟨rfl, rfl⟩ | ⟨rfl, rfl⟩ | ⟨rfl, rfl⟩ | ⟨rfl, rfl⟩ | ⟨rfl, rfl⟩
  · simp [s1, usbcmd_UNI, b2]
  · simp [u1, u2, usbcmd_UNI, b1]
  · simp [p1, p2, usbcmd_UNI, b1]
  · simp [d1, d2, d3, d4, usbcmd_UNI, b4]
  · simp [m1, m2, m3, m4, usbcmd_UNI, b4]

theorem handle_input_IT_cmd_keyword (env : Env) (code addr : Int) (act : CStr) (cmd : Nat)
    (socket_handle : Int) (tick : Nat)
    (h : (act, cmd) ∈ [(cstr "ON", 0x01), (cstr "OFF", 0x00), (cstr "TOGGLE", 0x02)]) :
    handle_input_IT_cmd env code addr act socket_handle tick
      = send_and_reply env [0x05, toByte (code * 0x10 + (addr - 1)), cmd, 0x06, 0, 0, 0, 0]
          socket_handle tick [] := by
  have o1 : cmdcompare (cstr "ON") (cstr "ON") = 0 := by decide
  have f1 : ¬ cmdcompare (cstr "OFF") (cstr "ON") = 0 := by decide
  have f2 : cmdcompare (cstr "OFF") (cstr "OFF") = 0 := by decide
  have t1 : ¬ cmdcompare (cstr "TOGGLE") (cstr "ON") = 0 := by decide
  have t2 : ¬ cmdcompare (cstr "TOGGLE") (cstr "OFF") = 0 := by decide
  have t3 : cmdcompare (cstr "TOGGLE") (cstr "TOGGLE") = 0 := by decide
  have b0 : toByte 0x00 = 0 := by decide
  have b1 : toByte 0x01 = 1 := by decide
  have b2 : toByte 0x02 = 2 := by decide
  simp only [List.mem_cons, Prod.mk.injEq, List.mem_singleton, List.not_mem_nil, or_false] at h
  unfold handle_input_IT_cmd
  rcases h with ⟨rfl, rfl⟩ | ⟨rfl, rfl⟩ | ⟨rfl, rfl⟩
  · simp [o1, usbcmd_IT, b1]
  · simp [f1, f2, usbcmd_IT, b0]
  · simp [t1, t2, t3, usbcmd_IT, b2]

/-- The Uniroll line with an address token of decimal digits only. -/
theorem handle_input_UNI_decimal (env : Env) (ds : List Nat) (act : CStr) (socket_handle : Int)
    (tick : Nat) (hne : ds ≠ []) (hd : ∀ d ∈ ds, d ≤ 9) (hact : act ≠ [])
    (hactd : ∀ c ∈ act, c ∉ delimiter) :
    handle_input env (cstr "UNIROLL " ++ ds.map (fun d => 48 + d) ++ 32 :: act)
        socket_handle tick
      = (if ¬ (strtol env.dataModel (ds.map (fun d => 48 + d))).2
            ∧ wrap32 (strtol env.dataModel (ds.map (fun d => 48 + d))).1 ≥ 1
            ∧ wrap32 (strtol env.dataModel (ds.map (fun d => 48 + d))).1 ≤ 16 then
          handle_input_UNI_cmd env (wrap32 (strtol env.dataModel (ds.map (fun d => 48 + d))).1)
            act socket_handle tick
         else
          ⟨0, [Event.write socket_handle (cstr "UNIROLL %s: wrong <addr> parameter\r\n")
            [Arg.str (ds.map (fun d => 48 + d))]], tick⟩) := by
  have hnd := decimal_token_no_delimiter ds [] hd (by simp)
  rw [List.append_nil] at hnd
  rw [List.append_assoc, handle_input_UNIROLL_line]
  unfold handle_input_UNI
  rw [strtok_token_sep _ _ 32 (by simpa using hne) hnd (by decide)]
  simp only
  rw [strtok_token_end act hact hactd]

theorem handle_input_FS20_cmd_keyword (env : Env) (addr : Int) (act : CStr) (code : Nat)
    (socket_handle : Int) (tick : Nat)
    (h : (act, code) ∈ [(cstr "ON", 0x11), (cstr "OFF", 0x00), (cstr "TOGGLE", 0x12),
      (cstr "UP", 0x13), (cstr "+", 0x13), (cstr "DOWN", 0x14), (cstr "-", 0x14)]) :
    handle_input_FS20_cmd env addr act socket_handle tick
      = send_and_reply env
          [0x01, env.housecode / 256 % 256, env.housecode % 256, toByte addr, code, 0, 3, 0]
          socket_handle tick [] := by
  have o1 : cmdcompare (cstr "ON") (cstr "ON") = 0 := by decide
  have f1 : ¬ cmdcompare (cstr "OFF") (cstr "ON") = 0 := by decide
  have f2 : cmdcompare (cstr "OFF") (cstr "OFF") = 0 := by decide
  have t1 : ¬ cmdcompare (cstr "TOGGLE") (cstr "ON") = 0 := by decide
  have t2 : ¬ cmdcompare (cstr "TOGGLE") (cstr "OFF") = 0 := by decide
  have t3 : cmdcompare (cstr "TOGGLE") (cstr "TOGGLE") = 0 := by decide
  have u1 : ¬ cmdcompare (cstr "UP") (cstr "ON") = 0 := by decide
  have u2 : ¬ cmdcompare (cstr "UP") (cstr "OFF") = 0 := by decide
  have u3 : ¬ cmdcompare (cstr "UP") (cstr "TOGGLE") = 0 := by decide
  have u4 : cmdcompare (cstr "UP") (cstr "UP") = 0 := by decide
  have p1 : ¬ cmdcompare (cstr "+") (cstr "ON") = 0 := by decide
  have p2 : ¬ cmdcompare (cstr "+") (cstr "OFF") = 0 := by decide
  have p3 : ¬ cmdcompare (cstr "+") (cstr "TOGGLE") = 0 := by decide
  have p4 : cmdcompare (cstr "+") (cstr "+") = 0 := by decide
  have d1 : ¬ cmdcompare (cstr "DOWN") (cstr "ON") = 0 := by decide
  have d2 : ¬ cmdcompare (cstr "DOWN") (cstr "OFF") = 0 := by decide
  have d3 : ¬ cmdcompare (cstr "DOWN") (cstr "TOGGLE") = 0 := by decide
  have d4 : ¬ cmdcompare (cstr "DOWN") (cstr "UP") = 0 := by decide
  have d5 : ¬ cmdcompare (cstr "DOWN") (cstr "+") = 0 := by decide
  have d6 : cmdcompare (cstr "DOWN") (cstr "DOWN") = 0 := by decide
  have m1 : ¬ cmdcompare (cstr "-") (cstr "ON") = 0 := by decide
  have m2 : ¬ cmdcompare (cstr "-") (cstr "OFF") = 0 := by decide
  have m3 : ¬ cmdcompare (cstr "-") (cstr "TOGGLE") = 0 := by decide
  have m4 : ¬ cmdcompare (cstr "-") (cstr "UP") = 0 := by decide
  have m5 : ¬ cmdcompare (cstr "-") (cstr "+") = 0 := by decide
  have m6 : ¬ cmdcompare (cstr "-") (cstr "DOWN") = 0 := by decide
  have m7 : cmdcompare (cstr "-") (cstr "-") = 0 := by decide
  have b0 : toByte 0x00 = 0x00 := by decide
  have b1 : toByte 0x11 = 0x11 := by decide
  have b2 : toByte 0x12 = 0x12 := by decide
  have b3 : toByte 0x13 = 0x13 := by decide
  have b4 : toByte 0x14 = 0x14 := by decide
  simp only [List.mem_cons, Prod.mk.injEq, List.mem_singleton, List.not_mem_nil, or_false] at h
  unfold handle_input_FS20_cmd
  rcases h with ⟨rfl, rfl⟩ | ⟨rfl, rfl⟩ | ⟨rfl, rfl⟩ | ⟨rfl, rfl⟩ | ⟨rfl, rfl⟩ | ⟨rfl, rfl⟩
    | ⟨rfl, rfl⟩
  · simp only [o1, if_true]
    rw [if_pos (by decide), usbcmd_FS20, b1]
  · simp only [f1, f2, if_true, if_false]
    rw [if_pos (by decide), usbcmd_FS20, b0]
  · simp only [t1, t2, t3, if_true, if_false]
    rw [if_pos (by decide), usbcmd_FS20, b2]
  · simp only [u1, u2, u3, u4, if_true, if_false, true_or]
    rw [if_pos (by decide), usbcmd_FS20, b3]
  · simp only [p1, p2, p3, p4, if_true, if_false, or_true]
    rw [if_pos (by decide), usbcmd_FS20, b3]
  · simp only [d1, d2, d3, d4, d5, d6, if_true, if_false, or_self, true_or]
    rw [if_pos (by decide), usbcmd_FS20, b4]
  · simp only [m1, m2, m3, m4, m5, m6, m7, if_true, if_false, or_self, or_true]
    rw [if_pos (by decide), usbcmd_FS20, b4]

/-! ## What `send_and_reply` stands for -/

/-- A command that ends in `send_and_reply` hands exactly one frame to
`usb_send`, expects no response, returns 0, and replies `OK` when `usb_send`
returned 0 and the communication error otherwise. -/
theorem send_and_reply_spelled_out (env : Env) (usbcmd : List Nat) (socket_handle : Int)
    (tick : Nat) :
    sent_frames (send_and_reply env usbcmd socket_handle tick []).events = [usbcmd]
      ∧ (send_and_reply env usbcmd socket_handle tick []).rc = 0
      ∧ (send_and_reply env usbcmd socket_handle tick []).events
          = [Event.usb usbcmd false (usb_send env.dev usbcmd false tick).steps
                (usb_send env.dev usbcmd false tick).err,
             Event.write socket_handle
                (if (usb_send env.dev usbcmd false tick).err = 0 then cstr "OK\r\n"
                 else cstr "USB communication error\r\n") []] := by
  refine ⟨?_, rfl, ?_⟩
  · unfold send_and_reply
    by_cases h : (usb_send env.dev usbcmd false tick).err = 0 <;> simp [h, sent_frames]
  · unfold send_and_reply
    by_cases h : (usb_send env.dev usbcmd false tick).err = 0 <;> simp [h]

/-! ## Claim C1: the FS20 frame -/

/-- C1: a line of the form `FS20 1111 ...`, whatever follows the address and
whatever the housecode, is turned away with the wrong-address reply and no
frame is transferred; the claim says the frame `01 hh ll 00 cc 00 03 00` is
sent. -/
theorem handle_input_FS20_address_1111 (env : Env) (rest : CStr) (socket_handle : Int)
    (tick : Nat) :
    handle_input env (cstr "FS20 1111 " ++ rest) socket_handle tick
      = ⟨0, [Event.write socket_handle (cstr "FS20 %s: wrong <addr> parameter\r\n")
          [Arg.str (cstr "1111")]], tick⟩ := by
  have h : cstr "FS20 1111 " = cstr "FS20 " ++ [49, 49, 49, 49, 32] := by decide
  have h2 : cstr "1111" = [49, 49, 49, 49] := by decide
  have h3 : fs20toi env.charSigned [49, 49, 49, 49] = 0 := fs20toi_1111 _
  rw [h, List.append_assoc, handle_input_FS20_line, h2]
  simp [handle_input_FS20, strtok, delimiter, h3]

/-- What holds of the FS20 frame (supplement to claim C1): for every address
token the dispatcher accepts, that is every token on which `fs20toi` gives a
positive value, and every action keyword (ON = 0x11, OFF = 0x00,
TOGGLE = 0x12, UP or + = 0x13, DOWN or - = 0x14), the line
`FS20 <addr> <action>` makes exactly one call of `usb_send`, with the frame
`01, housecode high, housecode low, address, action, 00, 03, 00`, followed
by the reply `OK` or the communication error. -/
theorem handle_input_FS20_frame (env : Env) (a act : CStr) (code : Nat) (socket_handle : Int)
    (tick : Nat) (ha : a ≠ []) (had : ∀ c ∈ a, c ∉ delimiter) (hpos : 0 < fs20toi env.charSigned a)
    (hact : (act, code) ∈ [(cstr "ON", 0x11), (cstr "OFF", 0x00), (cstr "TOGGLE", 0x12),
      (cstr "UP", 0x13), (cstr "+", 0x13), (cstr "DOWN", 0x14), (cstr "-", 0x14)]) :
    handle_input env (cstr "FS20 " ++ a ++ 32 :: act) socket_handle tick
      = send_and_reply env
          [0x01, env.housecode / 256 % 256, env.housecode % 256, toByte (fs20toi env.charSigned a), code,
            0x00, 0x03, 0x00]
          socket_handle tick [] := by
  have hactne : act ≠ [] ∧ ∀ x ∈ act, x ∉ delimiter := by
    simp only [List.mem_cons, Prod.mk.injEq, List.mem_singleton, List.not_mem_nil,
      or_false] at hact
    rcases hact with ⟨rfl, _⟩ | ⟨rfl, _⟩ | ⟨rfl, _⟩ | ⟨rfl, _⟩ | ⟨rfl, _⟩ | ⟨rfl, _⟩
      | ⟨rfl, _⟩ <;> decide
  rw [List.append_assoc, handle_input_FS20_line]
  unfold handle_input_FS20
  rw [strtok_token_sep a _ 32 ha had (by decide)]
  simp only [gt_iff_lt, hpos, if_true]
  rw [strtok_token_end act hactne.1 hactne.2]
  simp only
  rw [handle_input_FS20_cmd_keyword env _ act code socket_handle tick hact]

/-- The address value of a two-pair address other than `1111` is positive and
below 256 (supplement to claim C1): every such address is accepted. -/
theorem fs20toi_two_pairs_pos (charSigned : Bool) (a b c d : Nat) (ha : 1 ≤ a ∧ a ≤ 4)
    (hb : 1 ≤ b ∧ b ≤ 4) (hc : 1 ≤ c ∧ c ≤ 4) (hd : 1 ≤ d ∧ d ≤ 4)
    (hne : ¬ (a = 1 ∧ b = 1 ∧ c = 1 ∧ d = 1)) :
    0 < fs20toi charSigned [48 + a, 48 + b, 48 + c, 48 + d]
      ∧ fs20toi charSigned [48 + a, 48 + b, 48 + c, 48 + d] < 256 := by
  rw [fs20toi_two_pairs charSigned a b c d ha hb hc hd]
  omega

/-! ## The FS20 codec: claims C2 to C6 -/

/-- C2, as the claim states it, fails: the one-pair string `12` encodes to 1,
and 1 decodes to the two-pair string `1112`. -/
theorem itofs20_fs20toi_one_pair :
    itofs20 (fun _ => 0) (fs20toi true (cstr "12")) none = cstr "1112"
      ∧ itofs20 (fun _ => 0) (fs20toi true (cstr "12")) none ≠ cstr "12"
      ∧ itofs20 (fun _ => 0) (fs20toi false (cstr "12")) none = cstr "1112"
      ∧ itofs20 (fun _ => 0) (fs20toi false (cstr "12")) none ≠ cstr "12" := by
  decide

/-- C2, amended: for every string of exactly two pairs of digits 1..4, and
for every string of exactly four pairs of digits 1..4 whose encoded value
exceeds 0xff, decoding the encoded value without separator gives the string
back, whatever the buffer held before. -/
theorem itofs20_fs20toi_roundtrip (charSigned : Bool) (buf : Mem) (ps : List (Nat × Nat))
    (hd : ∀ p ∈ ps, 1 ≤ p.1 ∧ p.1 ≤ 4 ∧ 1 ≤ p.2 ∧ p.2 ≤ 4)
    (hk : ps.length = 2
      ∨ (ps.length = 4
          ∧ 255 < fs20toi charSigned (ps.flatMap fun p => [48 + p.1, 48 + p.2]))) :
    itofs20 buf (fs20toi charSigned (ps.flatMap fun p => [48 + p.1, 48 + p.2])) none
      = ps.flatMap fun p => [48 + p.1, 48 + p.2] := by
  match ps, hd, hk with
  | [(a, b), (c, d)], hd, _ =>
    have h1 := hd (a, b) (by simp)
    have h2 := hd (c, d) (by simp)
    simp only [List.flatMap_cons, List.flatMap_nil, List.append_nil, List.cons_append,
      List.nil_append]
    rw [fs20toi_two_pairs charSigned a b c d ⟨h1.1, h1.2.1⟩ ⟨h1.2.2.1, h1.2.2.2⟩ ⟨h2.1, h2.2.1⟩
      ⟨h2.2.2.1, h2.2.2.2⟩]
    rw [itofs20_short buf _ (by omega)]
    simp only [List.cons.injEq, and_true]
    omega
  | [(a, b), (c, d), (e, f), (g, h)], hd, hk =>
    have h1 := hd (a, b) (by simp)
    have h2 := hd (c, d) (by simp)
    have h3 := hd (e, f) (by simp)
    have h4 := hd (g, h) (by simp)
    simp only [List.flatMap_cons, List.flatMap_nil, List.append_nil, List.cons_append,
      List.nil_append] at hk ⊢
    rw [fs20toi_four_pairs charSigned a b c d e f g h ⟨h1.1, h1.2.1⟩ ⟨h1.2.2.1, h1.2.2.2⟩ ⟨h2.1, h2.2.1⟩
      ⟨h2.2.2.1, h2.2.2.2⟩ ⟨h3.1, h3.2.1⟩ ⟨h3.2.2.1, h3.2.2.2⟩ ⟨h4.1, h4.2.1⟩
      ⟨h4.2.2.1, h4.2.2.2⟩] at hk ⊢
    have hgt : 255 < 16384 * a + 4096 * b + 1024 * c + 256 * d + 64 * e + 16 * f + 4 * g + h
        - 21845 := by
      rcases hk with hk | hk
      · simp at hk
      · exact_mod_cast hk.2
    rw [itofs20_long buf _ hgt]
    simp only [List.cons.injEq, and_true]
    omega
  | [], _, hk => simp at hk
  | [_], _, hk => simp at hk
  | [_, _, _], _, hk => simp at hk
  | _ :: _ :: _ :: _ :: _ :: _, _, hk => simp at hk

/-- Witness of `itofs20_fs20toi_roundtrip`: the two-pair address `1423`. -/
theorem itofs20_fs20toi_roundtrip_witness :
    itofs20 (fun _ => 0)
        (fs20toi true ([(1, 4), (2, 3)].flatMap fun p => [48 + p.1, 48 + p.2])) none
      = [(1, 4), (2, 3)].flatMap fun p => [48 + p.1, 48 + p.2] :=
  itofs20_fs20toi_roundtrip true (fun _ => 0) [(1, 4), (2, 3)] (by decide) (Or.inl rfl)

/-- C3: for a string of k pairs of digits 1..4, 1 ≤ k ≤ 4, `fs20toi` returns
the sum over the pairs i of `((d1-1)*4 + (d2-1)) * 16^(k-1-i)`. -/
theorem fs20toi_packs_nibbles (charSigned : Bool) (ps : List (Nat × Nat))
    (hk : 1 ≤ ps.length ∧ ps.length ≤ 4)
    (hd : ∀ p ∈ ps, 1 ≤ p.1 ∧ p.1 ≤ 4 ∧ 1 ≤ p.2 ∧ p.2 ≤ 4) :
    fs20toi charSigned (ps.flatMap fun p => [48 + p.1, 48 + p.2])
      = ∑ i in Finset.range ps.length,
          ((((ps.getD i (1, 1)).1 : Int) - 1) * 4 + (((ps.getD i (1, 1)).2 : Int) - 1))
            * 16 ^ (ps.length - 1 - i) := by
  match ps, hk, hd with
  | [p1], _, hd =>
    have h1 := hd p1 (by simp)
    simp [fs20toi, fs20toi_loop, isspace_digit, wrap32, Finset.sum_range_succ,
      charVal_small charSigned (48 + p1.1) (by omega),
      charVal_small charSigned (48 + p1.2) (by omega)]
    omega
  | [p1, p2], _, hd =>
    have h1 := hd p1 (by simp)
    have h2 := hd p2 (by simp)
    simp [fs20toi, fs20toi_loop, isspace_digit, wrap32, Finset.sum_range_succ,
      charVal_small charSigned (48 + p1.1) (by omega),
      charVal_small charSigned (48 + p1.2) (by omega), charVal_small charSigned (48 + p2.1) (by omega),
      charVal_small charSigned (48 + p2.2) (by omega)]
    omega
  | [p1, p2, p3], _, hd =>
    have h1 := hd p1 (by simp)
    have h2 := hd p2 (by simp)
    have h3 := hd p3 (by simp)
    simp [fs20toi, fs20toi_loop, isspace_digit, wrap32, Finset.sum_range_succ,
      charVal_small charSigned (48 + p1.1) (by omega),
      charVal_small charSigned (48 + p1.2) (by omega), charVal_small charSigned (48 + p2.1) (by omega),
      charVal_small charSigned (48 + p2.2) (by omega), charVal_small charSigned (48 + p3.1) (by omega),
      charVal_small charSigned (48 + p3.2) (by omega)]
    omega
  | [p1, p2, p3, p4], _, hd =>
    have h1 := hd p1 (by simp)
    have h2 := hd p2 (by simp)
    have h3 := hd p3 (by simp)
    have h4 := hd p4 (by simp)
    simp [fs20toi, fs20toi_loop, isspace_digit, wrap32, Finset.sum_range_succ,
      charVal_small charSigned (48 + p1.1) (by omega),
      charVal_small charSigned (48 + p1.2) (by omega), charVal_small charSigned (48 + p2.1) (by omega),
      charVal_small charSigned (48 + p2.2) (by omega), charVal_small charSigned (48 + p3.1) (by omega),
      charVal_small charSigned (48 + p3.2) (by omega), charVal_small charSigned (48 + p4.1) (by omega),
      charVal_small charSigned (48 + p4.2) (by omega)]
    omega
  | [], hk, _ => simp at hk
  | _ :: _ :: _ :: _ :: _ :: _, hk, _ => simp at hk

/-- Witness of `fs20toi_packs_nibbles`: the housecode text `14213444`. -/
theorem fs20toi_packs_nibbles_witness :
    fs20toi true ([(1, 4), (2, 1), (3, 4), (4, 4)].flatMap fun p => [48 + p.1, 48 + p.2])
      = ∑ i in Finset.range [((1 : Nat), (4 : Nat)), (2, 1), (3, 4), (4, 4)].length,
          (((([((1 : Nat), (4 : Nat)), (2, 1), (3, 4), (4, 4)].getD i (1, 1)).1 : Int) - 1) * 4
            + ((([((1 : Nat), (4 : Nat)), (2, 1), (3, 4), (4, 4)].getD i (1, 1)).2 : Int) - 1))
            * 16 ^ ([((1 : Nat), (4 : Nat)), (2, 1), (3, 4), (4, 4)].length - 1 - i) :=
  fs20toi_packs_nibbles true [(1, 4), (2, 1), (3, 4), (4, 4)] (by decide) (by decide)

/-- C4: for every input string of odd length `fs20toi` returns -1. -/
theorem fs20toi_odd_length (charSigned : Bool) (fs20 : CStr) (h : fs20.length % 2 = 1) :
    fs20toi charSigned fs20 = -1 := by
  unfold fs20toi
  simp [h]

/-- Witness of `fs20toi_odd_length`: the three-character string `123`. -/
theorem fs20toi_odd_length_witness :
    (cstr "123").length % 2 = 1 ∧ fs20toi true (cstr "123") = -1 :=
  ⟨by decide, fs20toi_odd_length true (cstr "123") (by decide)⟩

/-- C5: on the even-length string `15`, whose second character is not one of
the digits 1..4, `fs20toi` does not report failure but returns the value 4,
the value of the valid address `21`; on `99` it returns 40. -/
theorem fs20toi_invalid_digit_accepted (charSigned : Bool) :
    fs20toi charSigned (cstr "15") = 4 ∧ fs20toi charSigned (cstr "21") = 4
      ∧ fs20toi charSigned (cstr "99") = 40 := by
  cases charSigned <;> decide

/-- C6, as the claim states it, fails: for the code 0 the decoder gives the
four characters `1111`, not the eight characters `11111111`. -/
theorem itofs20_zero_is_short :
    itofs20 (fun _ => 0) 0 none = cstr "1111"
      ∧ itofs20 (fun _ => 0) 0 none ≠ cstr "11111111" := by
  decide

/-- C6, amended: without separator, `itofs20` gives for every code above 0xff
the eight characters of four digit pairs, one per nibble from bit position 12
down to bit position 0, and for every code up to 0xff the four characters of
the two digit pairs of the nibbles at bit positions 4 and 0; a nibble n is
written as the digits n/4+1 and n%4+1. -/
theorem itofs20_digit_pairs (buf : Mem) (c : Nat) :
    itofs20 buf (c : Int) none
      = (if 255 < c then
          [48 + (c / 2 ^ 12 % 16 / 4 + 1), 48 + (c / 2 ^ 12 % 16 % 4 + 1),
           48 + (c / 2 ^ 8 % 16 / 4 + 1), 48 + (c / 2 ^ 8 % 16 % 4 + 1)]
         else [])
        ++ [48 + (c / 2 ^ 4 % 16 / 4 + 1), 48 + (c / 2 ^ 4 % 16 % 4 + 1),
            48 + (c / 2 ^ 0 % 16 / 4 + 1), 48 + (c / 2 ^ 0 % 16 % 4 + 1)] := by
  by_cases h : 255 < c
  · rw [itofs20_long buf c h, if_pos h]
    simp only [List.cons_append, List.nil_append, List.cons.injEq, and_true]
    norm_num
    omega
  · rw [itofs20_short buf c (by omega), if_neg h]
    simp only [List.nil_append, List.cons.injEq, and_true]
    norm_num
    omega

/-! ## Claims C7 and C8: FS20 dim levels -/

/-- C7, as the claim states it, fails: for `10%` the action byte of the frame
is 1, while 16*10/100 = 1.6 rounds to 2. -/
theorem handle_input_FS20_ten_percent :
    sent_frames (handle_input (sample_env DataModel.LP64) (cstr "FS20 1112 10%") 0 0).events
        = [[0x01, 0x12, 0x34, 0x01, 1, 0x00, 0x03, 0x00]]
      ∧ round ((16 * 10 : ℚ) / 100) = 2 := by
  constructor
  · decide
  · rw [round_eq]
    norm_num [Int.floor_eq_iff]

/-- C7, amended: for every address token the dispatcher accepts (`fs20toi`,
reading the token as plain `char` of the build, gives a positive value) and
every percentage p with 0 ≤ p ≤ 100, written
with any number of decimal digits, the line `FS20 <addr> p%` makes exactly
one call of `usb_send`, with a frame whose action byte is 16*p/100 rounded
down, followed by the reply `OK` or the communication error. -/
theorem handle_input_FS20_percent (env : Env) (a : CStr) (ds : List Nat) (socket_handle : Int)
    (tick : Nat) (ha : a ≠ []) (had : ∀ c ∈ a, c ∉ delimiter) (hpos : 0 < fs20toi env.charSigned a)
    (hne : ds ≠ []) (hd : ∀ d ∈ ds, d ≤ 9)
    (hp : ds.foldl (fun a d => a * 10 + d) 0 ≤ 100) :
    handle_input env (cstr "FS20 " ++ a ++ 32 :: (ds.map (fun d => 48 + d) ++ cstr "%"))
        socket_handle tick
      = send_and_reply env
          [0x01, env.housecode / 256 % 256, env.housecode % 256, toByte (fs20toi env.charSigned a),
            16 * ds.foldl (fun a d => a * 10 + d) 0 / 100, 0x00, 0x03, 0x00]
          socket_handle tick [] := by
  have hpc : cstr "%" = [37] := by decide
  have htail : ¬ (48 ≤ deref [37] ∧ deref [37] ≤ 57) := by decide
  have hst := strtol_decimal_small env.dataModel ds [37] hne hd htail (by omega)
  have hnd := decimal_token_no_delimiter ds [37] hd (by decide)
  have hlast := getLast_decimal_percent ds
  rw [hpc, List.append_assoc, handle_input_FS20_line]
  unfold handle_input_FS20
  rw [strtok_token_sep a _ 32 ha had (by decide)]
  simp only [gt_iff_lt, hpos, if_true]
  rw [strtok_token_end _ (by simp) hnd]
  simp only
  cases ds with
  | nil => exact absurd rfl hne
  | cons d ds =>
    have h9 : d ≤ 9 := hd d (by simp)
    simp only [List.map_cons, List.cons_append] at hst hlast ⊢
    rw [handle_input_FS20_cmd_digit env _ d _ socket_handle tick h9 _ _ rfl rfl]
    simp only [hst, hlast, if_true]
    generalize List.foldl (fun a d => a * 10 + d) 0 (d :: ds) = p at hp ⊢
    have e1 : wrap32 (p : Int) = p := by unfold wrap32; omega
    have e2 : wrap32 (16 * (p : Int)) = ((16 * p : Nat) : Int) := by
      unfold wrap32; push_cast; omega
    have e3 : Int.tdiv ((16 * p : Nat) : Int) 100 = ((16 * p / 100 : Nat) : Int) := by
      rw [Int.ofNat_tdiv]; rfl
    rw [e1, e2, e3]
    have hlt : 16 * p / 100 ≤ 16 := by omega
    rw [if_neg (by simp; omega), toByte_natCast _ (by omega)]

/-- Witness of `handle_input_FS20_percent`: the line `FS20 1112 50%`. -/
theorem handle_input_FS20_percent_witness :
    handle_input (sample_env DataModel.ILP32)
        (cstr "FS20 " ++ cstr "1112" ++ 32 :: ([5, 0].map (fun d => 48 + d) ++ cstr "%")) 0 0
      = send_and_reply (sample_env DataModel.ILP32)
          [0x01, (sample_env DataModel.ILP32).housecode / 256 % 256,
            (sample_env DataModel.ILP32).housecode % 256,
            toByte (fs20toi (sample_env DataModel.ILP32).charSigned (cstr "1112")),
            16 * [5, 0].foldl (fun a d => a * 10 + d) 0 / 100, 0x00, 0x03, 0x00] 0 0 [] :=
  handle_input_FS20_percent (sample_env DataModel.ILP32) (cstr "1112") [5, 0] 0 0
    (by decide) (by decide) (by decide) (by decide) (by decide) (by decide)

/-- An address token with a byte above 0x7f (supplement to claim C7): for the
token of the bytes 0xc8 and `1`, `fs20toi` gives -420 where plain `char` is
signed and 604 where it is unsigned.  So on the signed build the line with
`50%` gets the wrong-address reply and no frame is sent, and on the unsigned
build the frame with the address byte 0x5c and the action byte 8 is sent. -/
theorem handle_input_FS20_percent_high_byte :
    fs20toi true [200, 49] = -420 ∧ fs20toi false [200, 49] = 604
      ∧ (handle_input (sample_env DataModel.LP64) (cstr "FS20 " ++ [200, 49] ++ cstr " 50%")
          0 0).events
        = [Event.write 0 (cstr "FS20 %s: wrong <addr> parameter\r\n") [Arg.str [200, 49]]]
      ∧ sent_frames (handle_input (unsigned_env DataModel.LP64)
          (cstr "FS20 " ++ [200, 49] ++ cstr " 50%") 0 0).events
        = [[0x01, 0x12, 0x34, 0x5c, 8, 0x00, 0x03, 0x00]] := by
  decide

/-- C8: on a build whose `long` has 64 bits, the dim level 4294967296 is not
turned away: `strtol` returns it without error, the assignment to the `int`
variable `dim_value` keeps the low 32 bits, which are 0, and the frame with
action byte 0 is sent; the claim says the wrong-dim-level reply is given and
no frame is sent. -/
theorem handle_input_FS20_dim_4294967296 (env : Env) (socket_handle : Int) (tick : Nat)
    (h64 : env.dataModel = DataModel.LP64) :
    handle_input env (cstr "FS20 1112 4294967296") socket_handle tick
      = send_and_reply env
          [0x01, env.housecode / 256 % 256, env.housecode % 256, 0x01, 0x00, 0x00, 0x03, 0x00]
          socket_handle tick [] := by
  have h : cstr "FS20 1112 4294967296"
      = cstr "FS20 " ++ [49, 49, 49, 50] ++ 32 :: [4, 2, 9, 4, 9, 6, 7, 2, 9, 6].map
          (fun d => 48 + d) := by decide
  have h4 : strtol DataModel.LP64 ([4, 2, 9, 4, 9, 6, 7, 2, 9, 6].map (fun d => 48 + d))
      = (4294967296, false) := by decide
  have h5 : wrap32 4294967296 = 0 := by decide
  have h3 : toByte (fs20toi env.charSigned [49, 49, 49, 50]) = 1 := by
    rw [fs20toi_1112]
    decide
  have h8 : toByte 0 = 0 := by decide
  rw [h, handle_input_FS20_dim env _ _ socket_handle tick (by decide) (by decide)
    (by rw [fs20toi_1112]; decide) (by decide) (by decide), h64, h4]
  simp only [h5, h3, h8]
  rw [if_neg (by decide)]

/-- Witness of `handle_input_FS20_dim_4294967296`: the sample environment
with 64-bit `long`. -/
theorem handle_input_FS20_dim_4294967296_witness :
    handle_input (sample_env DataModel.LP64) (cstr "FS20 1112 4294967296") 0 0
      = send_and_reply (sample_env DataModel.LP64)
          [0x01, (sample_env DataModel.LP64).housecode / 256 % 256,
            (sample_env DataModel.LP64).housecode % 256, 0x01, 0x00, 0x00, 0x03, 0x00] 0 0 [] :=
  handle_input_FS20_dim_4294967296 (sample_env DataModel.LP64) 0 0 rfl

/-- In-range behaviour of the FS20 dim level (supplement to claim C8): as long as the dim level n fits an `int`, the line
`FS20 <addr> n` sends a frame if and only if n ≤ 16, its action byte is n,
and a larger n gets the wrong-dim-level reply without any frame, on either
data model. -/
theorem handle_input_FS20_dim_in_int_range (env : Env) (a : CStr) (ds : List Nat)
    (socket_handle : Int) (tick : Nat) (ha : a ≠ []) (had : ∀ c ∈ a, c ∉ delimiter)
    (hpos : 0 < fs20toi env.charSigned a) (hne : ds ≠ []) (hd : ∀ d ∈ ds, d ≤ 9)
    (hn : ds.foldl (fun a d => a * 10 + d) 0 ≤ 2147483647) :
    handle_input env (cstr "FS20 " ++ a ++ 32 :: ds.map (fun d => 48 + d)) socket_handle tick
      = (if ds.foldl (fun a d => a * 10 + d) 0 ≤ 16 then
          send_and_reply env
            [0x01, env.housecode / 256 % 256, env.housecode % 256, toByte (fs20toi env.charSigned a),
              ds.foldl (fun a d => a * 10 + d) 0, 0x00, 0x03, 0x00]
            socket_handle tick []
         else
          ⟨0, [Event.write socket_handle
            (cstr "FS20: Wrong dim level (must be within 0-16 or 0%-100%)\r\n") []], tick⟩) := by
  have hst := strtol_decimal_small env.dataModel ds [] hne hd (by decide) hn
  rw [List.append_nil] at hst
  rw [handle_input_FS20_dim env a ds socket_handle tick ha had hpos hne hd, hst]
  generalize List.foldl (fun a d => a * 10 + d) 0 ds = n at hn ⊢
  have e1 : wrap32 (n : Int) = n := by unfold wrap32; omega
  simp only [e1]
  by_cases h16 : n ≤ 16
  · rw [if_neg (by simp; omega), if_pos h16, toByte_natCast _ (by omega)]
  · rw [if_pos (by simp; omega), if_neg h16]

/-- The FS20 dim level with a 32-bit `long` (supplement to claim C8): on a build whose `long` has 32 bits the claim holds for
every n, because `strtol` reports every value that does not fit. -/
theorem handle_input_FS20_dim_ILP32 (env : Env) (a : CStr) (ds : List Nat)
    (socket_handle : Int) (tick : Nat) (h32 : env.dataModel = DataModel.ILP32) (ha : a ≠ [])
    (had : ∀ c ∈ a, c ∉ delimiter) (hpos : 0 < fs20toi env.charSigned a) (hne : ds ≠ [])
    (hd : ∀ d ∈ ds, d ≤ 9) :
    handle_input env (cstr "FS20 " ++ a ++ 32 :: ds.map (fun d => 48 + d)) socket_handle tick
      = (if ds.foldl (fun a d => a * 10 + d) 0 ≤ 16 then
          send_and_reply env
            [0x01, env.housecode / 256 % 256, env.housecode % 256, toByte (fs20toi env.charSigned a),
              ds.foldl (fun a d => a * 10 + d) 0, 0x00, 0x03, 0x00]
            socket_handle tick []
         else
          ⟨0, [Event.write socket_handle
            (cstr "FS20: Wrong dim level (must be within 0-16 or 0%-100%)\r\n") []], tick⟩) := by
  by_cases hn : ds.foldl (fun a d => a * 10 + d) 0 ≤ 2147483647
  · exact handle_input_FS20_dim_in_int_range env a ds socket_handle tick ha had hpos hne hd hn
  · have hst := strtol_decimal DataModel.ILP32 ds [] hne hd (by decide)
    rw [List.append_nil] at hst
    have hmax : LONG_MAX DataModel.ILP32 = 2147483647 := by decide
    rw [handle_input_FS20_dim env a ds socket_handle tick ha had hpos hne hd, h32, hst, hmax]
    generalize List.foldl (fun a d => a * 10 + d) 0 ds = n at hn ⊢
    have hgt : (n : Int) > 2147483647 := by omega
    simp only [if_pos hgt, true_or, if_true]
    rw [if_neg (by omega)]

/-! ## Claim C9: Uniroll -/

/-- C9: on a build whose `long` has 64 bits, the Uniroll address 4294967297 is
not turned away: `strtol` returns it without error, the assignment to the
`int` variable `addr` keeps the low 32 bits, which are 1, and the frame
`15 00 74 01 00 00 00 00` of address 1 is sent; the claim says that for an
address outside 1..16 no frame is sent and an error about the address is
replied. -/
theorem handle_input_UNI_addr_4294967297 (env : Env) (socket_handle : Int) (tick : Nat)
    (h64 : env.dataModel = DataModel.LP64) :
    handle_input env (cstr "UNIROLL 4294967297 UP") socket_handle tick
      = send_and_reply env [0x15, 0x00, 0x74, 0x01, 0x00, 0x00, 0x00, 0x00]
          socket_handle tick [] := by
  have h : cstr "UNIROLL 4294967297 UP"
      = cstr "UNIROLL " ++ [4, 2, 9, 4, 9, 6, 7, 2, 9, 7].map (fun d => 48 + d)
          ++ 32 :: cstr "UP" := by decide
  have h4 : strtol DataModel.LP64 ([4, 2, 9, 4, 9, 6, 7, 2, 9, 7].map (fun d => 48 + d))
      = (4294967297, false) := by decide
  have h5 : wrap32 4294967297 = 1 := by decide
  have h6 : toByte (1 - 1) = 0 := by decide
  rw [h, handle_input_UNI_decimal env _ _ socket_handle tick (by decide) (by decide)
    (by decide) (by decide), h64, h4]
  simp only [h5]
  rw [if_pos (by decide),
    handle_input_UNI_cmd_keyword env 1 (cstr "UP") 0x01 socket_handle tick (by decide), h6]

/-- Witness of `handle_input_UNI_addr_4294967297`: the sample environment
with 64-bit `long`. -/
theorem handle_input_UNI_addr_4294967297_witness :
    handle_input (sample_env DataModel.LP64) (cstr "UNIROLL 4294967297 UP") 0 0
      = send_and_reply (sample_env DataModel.LP64)
          [0x15, 0x00, 0x74, 0x01, 0x00, 0x00, 0x00, 0x00] 0 0 [] :=
  handle_input_UNI_addr_4294967297 (sample_env DataModel.LP64) 0 0 rfl

/-- The Uniroll frame (supplement to claim C9): for every address n with 1 ≤ n ≤ 16 written with
decimal digits and every Uniroll action (STOP = 0x02, UP or + = 0x01, DOWN or
- = 0x04), the line `UNIROLL n <action>` makes exactly one call of
`usb_send`, with the frame `15, n-1, 74, action, 00, 00, 00, 00`. -/
theorem handle_input_UNI_frame (env : Env) (ds : List Nat) (act : CStr) (code : Nat)
    (socket_handle : Int) (tick : Nat) (hne : ds ≠ []) (hd : ∀ d ∈ ds, d ≤ 9)
    (hn : 1 ≤ ds.foldl (fun a d => a * 10 + d) 0 ∧ ds.foldl (fun a d => a * 10 + d) 0 ≤ 16)
    (hact : (act, code) ∈ [(cstr "STOP", 0x02), (cstr "UP", 0x01), (cstr "+", 0x01),
      (cstr "DOWN", 0x04), (cstr "-", 0x04)]) :
    handle_input env (cstr "UNIROLL " ++ ds.map (fun d => 48 + d) ++ 32 :: act)
        socket_handle tick
      = send_and_reply env
          [0x15, ds.foldl (fun a d => a * 10 + d) 0 - 1, 0x74, code, 0x00, 0x00, 0x00, 0x00]
          socket_handle tick [] := by
  have hst := strtol_decimal_small env.dataModel ds [] hne hd (by decide) (by omega)
  rw [List.append_nil] at hst
  have hactne : act ≠ [] ∧ ∀ x ∈ act, x ∉ delimiter := by
    simp only [List.mem_cons, Prod.mk.injEq, List.mem_singleton, List.not_mem_nil,
      or_false] at hact
    rcases hact with ⟨rfl, _⟩ | ⟨rfl, _⟩ | ⟨rfl, _⟩ | ⟨rfl, _⟩ | ⟨rfl, _⟩ <;> decide
  rw [handle_input_UNI_decimal env ds act socket_handle tick hne hd hactne.1 hactne.2, hst]
  generalize List.foldl (fun a d => a * 10 + d) 0 ds = n at hn ⊢
  have e1 : wrap32 (n : Int) = n := by unfold wrap32; omega
  have e2 : toByte ((n : Int) - 1) = n - 1 := by unfold toByte; omega
  simp only [e1]
  rw [if_pos (by simp; omega),
    handle_input_UNI_cmd_keyword env _ act code socket_handle tick hact, e2]

/-- In-range behaviour of the Uniroll address (supplement to claim C9): as long as the address n fits an `int`, an n outside
1..16 gets the wrong-address reply and no frame is sent, on either data
model. -/
theorem handle_input_UNI_addr_in_int_range (env : Env) (ds : List Nat) (act : CStr)
    (socket_handle : Int) (tick : Nat) (hne : ds ≠ []) (hd : ∀ d ∈ ds, d ≤ 9)
    (hact : act ≠ []) (hactd : ∀ c ∈ act, c ∉ delimiter)
    (hn : ds.foldl (fun a d => a * 10 + d) 0 = 0
      ∨ (16 < ds.foldl (fun a d => a * 10 + d) 0
          ∧ ds.foldl (fun a d => a * 10 + d) 0 ≤ 2147483647)) :
    handle_input env (cstr "UNIROLL " ++ ds.map (fun d => 48 + d) ++ 32 :: act)
        socket_handle tick
      = ⟨0, [Event.write socket_handle (cstr "UNIROLL %s: wrong <addr> parameter\r\n")
          [Arg.str (ds.map (fun d => 48 + d))]], tick⟩ := by
  have hst := strtol_decimal_small env.dataModel ds [] hne hd (by decide) (by omega)
  rw [List.append_nil] at hst
  rw [handle_input_UNI_decimal env ds act socket_handle tick hne hd hact hactd, hst]
  generalize List.foldl (fun a d => a * 10 + d) 0 ds = n at hn ⊢
  have e1 : wrap32 (n : Int) = n := by unfold wrap32; omega
  simp only [e1]
  rw [if_neg (by simp; omega)]

/-! ## Claim C10: InterTechno -/

/-- C10: for every code letter A..P in either case (mapped to c = 0..15),
every channel n with 1 ≤ n ≤ 16 written with decimal digits, and every
InterTechno action (ON = 0x01, OFF = 0x00, TOGGLE = 0x02), the line
`IT L n <action>` makes exactly one call of `usb_send`, with the frame
`05, c*16+(n-1), action, 06, 00, 00, 00, 00`, followed by the reply `OK` or
the communication error. -/
theorem handle_input_IT_frame (env : Env) (L c : Nat) (ds : List Nat) (act : CStr) (cmd : Nat)
    (socket_handle : Int) (tick : Nat) (hL : L = 65 + c ∨ L = 97 + c) (hc : c ≤ 15)
    (hne : ds ≠ []) (hd : ∀ d ∈ ds, d ≤ 9)
    (hn : 1 ≤ ds.foldl (fun a d => a * 10 + d) 0 ∧ ds.foldl (fun a d => a * 10 + d) 0 ≤ 16)
    (hact : (act, cmd) ∈ [(cstr "ON", 0x01), (cstr "OFF", 0x00), (cstr "TOGGLE", 0x02)]) :
    handle_input env (cstr "IT " ++ L :: 32 :: (ds.map (fun d => 48 + d) ++ 32 :: act))
        socket_handle tick
      = send_and_reply env
          [0x05, c * 16 + (ds.foldl (fun a d => a * 10 + d) 0 - 1), cmd, 0x06,
            0x00, 0x00, 0x00, 0x00]
          socket_handle tick [] := by
  have hnd := decimal_token_no_delimiter ds [] hd (by simp)
  rw [List.append_nil] at hnd
  have hst := strtol_decimal_small env.dataModel ds [] hne hd (by decide) (by omega)
  rw [List.append_nil] at hst
  have hLd : ∀ x ∈ [L], x ∉ delimiter := by
    intro x hx
    simp only [List.mem_singleton] at hx
    subst hx
    simp [delimiter]
    omega
  have hup : toupper (deref [L]) = 65 + c := by
    simp only [deref, List.headD_cons, toupper]
    rcases hL with rfl | rfl
    · rw [if_neg (by omega)]
    · rw [if_pos (by omega)]; omega
  have hactne : act ≠ [] ∧ ∀ x ∈ act, x ∉ delimiter := by
    simp only [List.mem_cons, Prod.mk.injEq, List.mem_singleton, List.not_mem_nil,
      or_false] at hact
    rcases hact with ⟨rfl, _⟩ | ⟨rfl, _⟩ | ⟨rfl, _⟩ <;> decide
  rw [handle_input_IT_line]
  unfold handle_input_IT
  rw [show L :: 32 :: (ds.map (fun d => 48 + d) ++ 32 :: act)
      = [L] ++ 32 :: (ds.map (fun d => 48 + d) ++ 32 :: act) from rfl,
    strtok_token_sep [L] _ 32 (by simp) hLd (by decide)]
  simp only [hup]
  rw [if_pos (by omega), strtok_token_sep _ _ 32 (by simpa using hne) hnd (by decide)]
  simp only [hst]
  generalize List.foldl (fun a d => a * 10 + d) 0 ds = n at hn ⊢
  have e1 : wrap32 (n : Int) = n := by unfold wrap32; omega
  rw [e1, if_pos (by simp; omega), strtok_token_end act hactne.1 hactne.2]
  simp only
  rw [handle_input_IT_cmd_keyword env _ _ act cmd socket_handle tick hact]
  have e2 : toByte ((((65 + c : Nat) : Int) - 65) * 0x10 + ((n : Int) - 1))
      = c * 16 + (n - 1) := by
    unfold toByte
    omega
  rw [e2]

/-- Witness of `handle_input_IT_frame`: the line `IT B 3 ON` gives the frame
`05 12 01 06 00 00 00 00`. -/
theorem handle_input_IT_frame_witness :
    handle_input (sample_env DataModel.LP64)
        (cstr "IT " ++ 66 :: 32 :: ([3].map (fun d => 48 + d) ++ 32 :: cstr "ON")) 0 0
      = send_and_reply (sample_env DataModel.LP64)
          [0x05, 1 * 16 + ([3].foldl (fun a d => a * 10 + d) 0 - 1), 0x01, 0x06,
            0x00, 0x00, 0x00, 0x00] 0 0 [] :=
  handle_input_IT_frame (sample_env DataModel.LP64) 66 1 [3] (cstr "ON") 0x01 0 0
    (Or.inl rfl) (by decide) (by decide) (by decide) (by decide) (by decide)

/-! ## Claim C11: the InterTechno code letter -/

/-- The InterTechno line for any letter of the alphabet: the code test of
the dispatcher lets every letter A..Z of either case pass. -/
theorem handle_input_IT_letter (env : Env) (L c : Nat) (ds : List Nat) (act : CStr) (cmd : Nat)
    (socket_handle : Int) (tick : Nat) (hL : L = 65 + c ∨ L = 97 + c) (hc : c ≤ 25)
    (hne : ds ≠ []) (hd : ∀ d ∈ ds, d ≤ 9)
    (hn : 1 ≤ ds.foldl (fun a d => a * 10 + d) 0 ∧ ds.foldl (fun a d => a * 10 + d) 0 ≤ 16)
    (hact : (act, cmd) ∈ [(cstr "ON", 0x01), (cstr "OFF", 0x00), (cstr "TOGGLE", 0x02)]) :
    handle_input env (cstr "IT " ++ L :: 32 :: (ds.map (fun d => 48 + d) ++ 32 :: act))
        socket_handle tick
      = send_and_reply env
          [0x05, (c * 16 + (ds.foldl (fun a d => a * 10 + d) 0 - 1)) % 256, cmd, 0x06,
            0x00, 0x00, 0x00, 0x00]
          socket_handle tick [] := by
  have hnd := decimal_token_no_delimiter ds [] hd (by simp)
  rw [List.append_nil] at hnd
  have hst := strtol_decimal_small env.dataModel ds [] hne hd (by decide) (by omega)
  rw [List.append_nil] at hst
  have hLd : ∀ x ∈ [L], x ∉ delimiter := by
    intro x hx
    simp only [List.mem_singleton] at hx
    subst hx
    simp [delimiter]
    omega
  have hup : toupper (deref [L]) = 65 + c := by
    simp only [deref, List.headD_cons, toupper]
    rcases hL with rfl | rfl
    · rw [if_neg (by omega)]
    · rw [if_pos (by omega)]; omega
  have hactne : act ≠ [] ∧ ∀ x ∈ act, x ∉ delimiter := by
    simp only [List.mem_cons, Prod.mk.injEq, List.mem_singleton, List.not_mem_nil,
      or_false] at hact
    rcases hact with ⟨rfl, _⟩ | ⟨rfl, _⟩ | ⟨rfl, _⟩ <;> decide
  rw [handle_input_IT_line]
  unfold handle_input_IT
  rw [show L :: 32 :: (ds.map (fun d => 48 + d) ++ 32 :: act)
      = [L] ++ 32 :: (ds.map (fun d => 48 + d) ++ 32 :: act) from rfl,
    strtok_token_sep [L] _ 32 (by simp) hLd (by decide)]
  simp only [hup]
  rw [if_pos (by omega), strtok_token_sep _ _ 32 (by simpa using hne) hnd (by decide)]
  simp only [hst]
  generalize List.foldl (fun a d => a * 10 + d) 0 ds = n at hn ⊢
  have e1 : wrap32 (n : Int) = n := by unfold wrap32; omega
  rw [e1, if_pos (by simp; omega), strtok_token_end act hactne.1 hactne.2]
  simp only
  rw [handle_input_IT_cmd_keyword env _ _ act cmd socket_handle tick hact]
  have e2 : toByte ((((65 + c : Nat) : Int) - 65) * 0x10 + ((n : Int) - 1))
      = (c * 16 + (n - 1)) % 256 := by
    unfold toByte
    omega
  rw [e2]

/-- C11: a code letter Q..Z of either case (c = 16..25) is not turned away:
for every channel n in 1..16 and every InterTechno action the line
`IT L n <action>` sends the frame `05, c*16+(n-1)-256, action, 06, 00, 00,
00, 00`, which is the frame of the code letter sixteen places earlier; the
claim says the reply is that the code is out of range and no frame is
sent. -/
theorem handle_input_IT_code_beyond_P (env : Env) (L c : Nat) (ds : List Nat) (act : CStr)
    (cmd : Nat) (socket_handle : Int) (tick : Nat) (hL : L = 65 + c ∨ L = 97 + c)
    (hc : 16 ≤ c ∧ c ≤ 25) (hne : ds ≠ []) (hd : ∀ d ∈ ds, d ≤ 9)
    (hn : 1 ≤ ds.foldl (fun a d => a * 10 + d) 0 ∧ ds.foldl (fun a d => a * 10 + d) 0 ≤ 16)
    (hact : (act, cmd) ∈ [(cstr "ON", 0x01), (cstr "OFF", 0x00), (cstr "TOGGLE", 0x02)]) :
    handle_input env (cstr "IT " ++ L :: 32 :: (ds.map (fun d => 48 + d) ++ 32 :: act))
        socket_handle tick
      = send_and_reply env
          [0x05, (c - 16) * 16 + (ds.foldl (fun a d => a * 10 + d) 0 - 1), cmd, 0x06,
            0x00, 0x00, 0x00, 0x00]
          socket_handle tick [] := by
  rw [handle_input_IT_letter env L c ds act cmd socket_handle tick hL (by omega) hne hd hn hact]
  have e : (c * 16 + (ds.foldl (fun a d => a * 10 + d) 0 - 1)) % 256
      = (c - 16) * 16 + (ds.foldl (fun a d => a * 10 + d) 0 - 1) := by omega
  rw [e]

/-- Witness of `handle_input_IT_code_beyond_P`: the line `IT Q 3 ON` sends
the frame `05 02 01 06 00 00 00 00` of `IT A 3 ON`. -/
theorem handle_input_IT_code_beyond_P_witness :
    handle_input (sample_env DataModel.LP64)
        (cstr "IT " ++ 81 :: 32 :: ([3].map (fun d => 48 + d) ++ 32 :: cstr "ON")) 0 0
      = send_and_reply (sample_env DataModel.LP64)
          [0x05, (16 - 16) * 16 + ([3].foldl (fun a d => a * 10 + d) 0 - 1), 0x01, 0x06,
            0x00, 0x00, 0x00, 0x00] 0 0 [] :=
  handle_input_IT_code_beyond_P (sample_env DataModel.LP64) 81 16 [3] (cstr "ON") 0x01 0 0
    (Or.inl rfl) (by decide) (by decide) (by decide) (by decide) (by decide)

/-- What holds of the code test (supplement to claim C11): a code token whose
first character is not a letter is turned away with the out-of-range reply
and no frame is sent, whatever follows it. -/
theorem handle_input_IT_code_not_a_letter (env : Env) (c0 : Nat) (t rest : CStr)
    (socket_handle : Int) (tick : Nat) (htok : ∀ x ∈ c0 :: t, x ∉ delimiter)
    (hc0 : ¬ (65 ≤ toupper c0 ∧ toupper c0 ≤ 90)) :
    handle_input env (cstr "IT " ++ (c0 :: t) ++ 32 :: rest) socket_handle tick
      = ⟨0, [Event.write socket_handle
          (cstr "InterTechno: <code> parameter out of range (must be within \x27A\x27 to \x27P\x27)\r\n")
          []], tick⟩ := by
  rw [List.append_assoc, handle_input_IT_line]
  unfold handle_input_IT
  rw [strtok_token_sep (c0 :: t) rest 32 (by simp) htok (by decide)]
  simp only [deref, List.headD_cons, ge_iff_le]
  rw [if_neg hc0]

/-! ## Claim C12: scenes -/

theorem handle_input_SCENE_line (env : Env) (rest : CStr) (socket_handle : Int) (tick : Nat) :
    handle_input env (cstr "SCENE " ++ rest) socket_handle tick
      = handle_input_SCENE env rest socket_handle tick := by
  have h : cstr "SCENE " = [83, 67, 69, 78, 69, 32] := by decide
  have c1 : ¬ (cmdcompare [83, 67, 69, 78, 69] (cstr "H") = 0
      ∨ cmdcompare [83, 67, 69, 78, 69] (cstr "?") = 0) := by decide
  have c2 : ¬ cmdcompare [83, 67, 69, 78, 69] (cstr "FS20") = 0 := by decide
  have c3 : ¬ cmdcompare [83, 67, 69, 78, 69] (cstr "UNI") = 0 := by decide
  have c4 : ¬ (cmdcompare [83, 67, 69, 78, 69] (cstr "IT") = 0
      ∨ cmdcompare [83, 67, 69, 78, 69] (cstr "InterTechno") = 0) := by decide
  have c5 : cmdcompare [83, 67, 69, 78, 69] (cstr "SCENE") = 0 := by decide
  rw [h]
  simp [handle_input, strtok, delimiter, input_after_strtok, c1, c2, c3, c4, c5]

theorem strtol_negative (dm : DataModel) (ds : List Nat) (tail : CStr)
    (hd : ∀ d ∈ ds, d ≤ 9) (ht : ¬ (48 ≤ deref tail ∧ deref tail ≤ 57)) :
    strtol dm (45 :: (ds.map (fun d => 48 + d) ++ tail))
      = if -((ds.foldl (fun a d => a * 10 + d) 0 : Nat) : Int) < LONG_MIN dm
        then (LONG_MIN dm, true)
        else (-((ds.foldl (fun a d => a * 10 + d) 0 : Nat) : Int), false) := by
  have h := strtol_digits_append ds tail hd ht 0
  have hsp : isspace 45 = false := by decide
  unfold strtol
  rw [List.dropWhile_cons_of_neg (by simp [hsp])]
  simp only [deref, List.headD_cons, if_true, List.tail_cons, h]

theorem LONG_MIN_le (dm : DataModel) : LONG_MIN dm ≤ -2147483648 := by
  cases dm <;> decide

theorem usbcmd_SCENE (scene : Int) :
    usbcmd_set (usbcmd_set usbcmd_clear 0 0x0f) 1 (0x01 * scene)
      = [0x0f, toByte scene, 0, 0, 0, 0, 0, 0] := by
  have h1 : toByte 0x0f = 0x0f := by decide
  simp only [usbcmd_set, usbcmd_clear, h1, one_mul]
  rfl

/-- C12: for every integer n, written with an optional minus sign and any
number of decimal digits, the line `SCENE n` makes a call of `usb_send` if
and only if 1 ≤ n ≤ 254, and then exactly one, with the frame
`0f, n, 00, 00, 00, 00, 00, 00`; every other n, among them 0, 255, every
negative number and every number too large for a `long`, gets the
out-of-range reply and no frame is sent. -/
theorem handle_input_SCENE_range (env : Env) (neg : Bool) (ds : List Nat) (socket_handle : Int)
    (tick : Nat) (hne : ds ≠ []) (hd : ∀ d ∈ ds, d ≤ 9) :
    handle_input env
        (cstr "SCENE " ++ ((if neg then [45] else []) ++ ds.map (fun d => 48 + d)))
        socket_handle tick
      = (if (1 : Int) ≤ (if neg then -((ds.foldl (fun a d => a * 10 + d) 0 : Nat) : Int)
                          else ((ds.foldl (fun a d => a * 10 + d) 0 : Nat) : Int))
            ∧ (if neg then -((ds.foldl (fun a d => a * 10 + d) 0 : Nat) : Int)
                else ((ds.foldl (fun a d => a * 10 + d) 0 : Nat) : Int)) ≤ 254 then
          send_and_reply env
            [0x0f, ds.foldl (fun a d => a * 10 + d) 0, 0x00, 0x00, 0x00, 0x00, 0x00, 0x00]
            socket_handle tick []
         else
          ⟨0, [Event.write socket_handle
            (cstr "SCENE: parameter <s> out of range (must be within range 1-254)\r\n") []],
            tick⟩) := by
  have hnd := decimal_token_no_delimiter ds [] hd (by simp)
  rw [List.append_nil] at hnd
  have hmax := LONG_MAX_ge env.dataModel
  have hmin := LONG_MIN_le env.dataModel
  rw [handle_input_SCENE_line]
  unfold handle_input_SCENE
  cases neg with
  | false =>
    have hst := strtol_decimal env.dataModel ds [] hne hd (by decide)
    rw [List.append_nil] at hst
    simp only [Bool.false_eq_true, if_false, List.nil_append]
    rw [strtok_token_end _ (by simpa using hne) hnd]
    simp only [hst, usbcmd_SCENE]
    generalize List.foldl (fun a d => a * 10 + d) 0 ds = n
    by_cases hbig : (n : Int) > LONG_MAX env.dataModel
    · simp only [if_pos hbig]
      rw [if_neg (by omega), if_neg (by omega)]
    · simp only [if_neg hbig]
      by_cases hin : (1 : Int) ≤ n ∧ (n : Int) ≤ 254
      · rw [if_pos (by omega), if_pos hin, toByte_natCast _ (by omega)]
      · rw [if_neg (by omega), if_neg hin]
  | true =>
    have hst := strtol_negative env.dataModel ds [] hd (by decide)
    rw [List.append_nil] at hst
    have hnd2 : ∀ c ∈ 45 :: ds.map (fun d => 48 + d), c ∉ delimiter := by
      intro c hc
      rcases List.mem_cons.mp hc with rfl | h
      · decide
      · exact hnd c h
    simp only [if_true, List.singleton_append]
    rw [strtok_token_end _ (by simp) hnd2]
    simp only [hst]
    generalize List.foldl (fun a d => a * 10 + d) 0 ds = n
    by_cases hbig : -(n : Int) < LONG_MIN env.dataModel
    · simp only [if_pos hbig]
      rw [if_neg (by omega), if_neg (by omega)]
    · simp only [if_neg hbig]
      rw [if_neg (by omega), if_neg (by omega)]

/-- Witness of `handle_input_SCENE_range`: the line `SCENE 254`. -/
theorem handle_input_SCENE_range_witness :
    handle_input (sample_env DataModel.LP64)
        (cstr "SCENE " ++ ((if false then [45] else []) ++ [2, 5, 4].map (fun d => 48 + d))) 0 0
      = (if (1 : Int) ≤ (if false then -(([2, 5, 4].foldl (fun a d => a * 10 + d) 0 : Nat) : Int)
                          else (([2, 5, 4].foldl (fun a d => a * 10 + d) 0 : Nat) : Int))
            ∧ (if false then -(([2, 5, 4].foldl (fun a d => a * 10 + d) 0 : Nat) : Int)
                else (([2, 5, 4].foldl (fun a d => a * 10 + d) 0 : Nat) : Int)) ≤ 254 then
          send_and_reply (sample_env DataModel.LP64)
            [0x0f, [2, 5, 4].foldl (fun a d => a * 10 + d) 0, 0x00, 0x00, 0x00, 0x00, 0x00, 0x00]
            0 0 []
         else
          ⟨0, [Event.write 0
            (cstr "SCENE: parameter <s> out of range (must be within range 1-254)\r\n") []],
            0⟩) :=
  handle_input_SCENE_range (sample_env DataModel.LP64) false [2, 5, 4] 0 0 (by decide)
    (by decide)

/-! ## Claim C13: the retries of the outbound phase -/

theorem usb_send_steps_outbound_first (dev : Device) (data : List Nat) (fexpectdata : Bool)
    (tick : Nat) :
    ∃ rest, (usb_send dev data fexpectdata tick).steps
      = UsbStep.lock :: ((usb_send_out dev data USB_MAX_RETRY (-1) tick).steps ++ rest) := by
  cases fexpectdata with
  | false => exact ⟨[UsbStep.unlock], by simp [usb_send]⟩
  | true =>
    exact ⟨(usb_send_in dev USB_MAX_RETRY (-1)
        (usb_send_out dev data USB_MAX_RETRY (-1) tick).data
        (usb_send_out dev data USB_MAX_RETRY (-1) tick).tick).steps ++ [UsbStep.unlock],
      by simp [usb_send]⟩

theorem usb_send_err_of_outbound_exhausted (dev : Device) (data : List Nat)
    (fexpectdata : Bool) (tick : Nat)
    (hret : (usb_send_out dev data USB_MAX_RETRY (-1) tick).ret ≠ 0)
    (hretry : (usb_send_out dev data USB_MAX_RETRY (-1) tick).retry = 0) :
    (usb_send dev data fexpectdata tick).err ≠ 0 := by
  cases fexpectdata with
  | false => simp [usb_send, hret, hretry]
  | true =>
    simp only [usb_send, hret, hretry, ne_eq, not_false_eq_true, and_self, if_true]
    split
    · rename_i h
      exact h.1
    · exact hret

/-- C13: let the first k outbound transfers of a call of `usb_send` fail and,
if k < 5, the next one succeed.  Then the outbound phase performs exactly
min(k+1, 5) transfers, all of the same frame on endpoint 0x01, with a sleep of
250000 microseconds after each failed one except the fifth; the call returns
0 without a response phase when a transfer succeeded, and a non-zero value,
with or without response phase, when all five failed. -/
theorem usb_send_outbound_attempts (dev : Device) (data : List Nat) (tick k : Nat) (hk : k ≤ 5)
    (hfail : ∀ j, j < k → dev.xferOut (tick + j) data ≠ 0)
    (hsucc : k < 5 → dev.xferOut (tick + k) data = 0) :
    (usb_send_out dev data USB_MAX_RETRY (-1) tick).steps
        = (List.range (min (k + 1) 5)).flatMap (fun j =>
            UsbStep.transfer 0x01 data (dev.xferOut (tick + j) data)
              :: (if dev.xferOut (tick + j) data ≠ 0 ∧ j < 4
                    then [UsbStep.usleep 250000] else []))
      ∧ (usb_send_out dev data USB_MAX_RETRY (-1) tick).tick = tick + min (k + 1) 5
      ∧ (k < 5 → (usb_send dev data false tick).err = 0)
      ∧ (k = 5 → ∀ fexpectdata, (usb_send dev data fexpectdata tick).err ≠ 0) := by
  interval_cases k
  · have s0 := hsucc (by omega)
    simp only [Nat.add_zero] at s0
    simp [USB_MAX_RETRY, usb_send, usb_send_out, s0, List.range_succ]
  · have f0 := hfail 0 (by omega)
    have s1 := hsucc (by omega)
    simp only [Nat.add_zero] at f0
    simp [USB_MAX_RETRY, USB_WAIT_ON_ERROR, usb_send, usb_send_out, f0, s1, List.range_succ]
  · have f0 := hfail 0 (by omega)
    have f1 := hfail 1 (by omega)
    have s2 := hsucc (by omega)
    simp only [Nat.add_zero] at f0
    simp [USB_MAX_RETRY, USB_WAIT_ON_ERROR, usb_send, usb_send_out, f0, f1, s2,
      List.range_succ]
  · have f0 := hfail 0 (by omega)
    have f1 := hfail 1 (by omega)
    have f2 := hfail 2 (by omega)
    have s3 := hsucc (by omega)
    simp only [Nat.add_zero] at f0
    simp [USB_MAX_RETRY, USB_WAIT_ON_ERROR, usb_send, usb_send_out, f0, f1, f2, s3,
      List.range_succ]
  · have f0 := hfail 0 (by omega)
    have f1 := hfail 1 (by omega)
    have f2 := hfail 2 (by omega)
    have f3 := hfail 3 (by omega)
    have s4 := hsucc (by omega)
    simp only [Nat.add_zero] at f0
    simp [USB_MAX_RETRY, USB_WAIT_ON_ERROR, usb_send, usb_send_out, f0, f1, f2, f3, s4,
      List.range_succ]
  · have f0 := hfail 0 (by omega)
    have f1 := hfail 1 (by omega)
    have f2 := hfail 2 (by omega)
    have f3 := hfail 3 (by omega)
    have f4 := hfail 4 (by omega)
    simp only [Nat.add_zero] at f0
    have hret : (usb_send_out dev data USB_MAX_RETRY (-1) tick).ret ≠ 0 := by
      simp [USB_MAX_RETRY, usb_send_out, f0, f1, f2, f3, f4]
    have hretry : (usb_send_out dev data USB_MAX_RETRY (-1) tick).retry = 0 := by
      simp [USB_MAX_RETRY, usb_send_out, f0, f1, f2, f3, f4]
    refine ⟨?_, ?_, ?_, ?_⟩
    · simp [USB_MAX_RETRY, USB_WAIT_ON_ERROR, usb_send_out, f0, f1, f2, f3, f4,
        List.range_succ]
    · simp [USB_MAX_RETRY, usb_send_out, f0, f1, f2, f3, f4]
    · intro h
      omega
    · intro _ fexpectdata
      exact usb_send_err_of_outbound_exhausted dev data fexpectdata tick hret hretry

/-- Witness of `usb_send_outbound_attempts`: on the dead device all five
transfers fail. -/
theorem usb_send_outbound_attempts_witness :
    (usb_send_out dead_device [1, 2, 3, 4, 5, 6, 7, 8] USB_MAX_RETRY (-1) 0).steps
        = (List.range (min (5 + 1) 5)).flatMap (fun j =>
            UsbStep.transfer 0x01 [1, 2, 3, 4, 5, 6, 7, 8]
                (dead_device.xferOut (0 + j) [1, 2, 3, 4, 5, 6, 7, 8])
              :: (if dead_device.xferOut (0 + j) [1, 2, 3, 4, 5, 6, 7, 8] ≠ 0 ∧ j < 4
                    then [UsbStep.usleep 250000] else []))
      ∧ (usb_send_out dead_device [1, 2, 3, 4, 5, 6, 7, 8] USB_MAX_RETRY (-1) 0).tick
          = 0 + min (5 + 1) 5
      ∧ (5 < 5 → (usb_send dead_device [1, 2, 3, 4, 5, 6, 7, 8] false 0).err = 0)
      ∧ (5 = 5 → ∀ fexpectdata,
          (usb_send dead_device [1, 2, 3, 4, 5, 6, 7, 8] fexpectdata 0).err ≠ 0) :=
  usb_send_outbound_attempts dead_device [1, 2, 3, 4, 5, 6, 7, 8] 0 5 (by decide)
    (by intro j _; simp [dead_device]) (by decide)

/-- The steps of a call on the dead device, spelled out (supplement to claim
C13): five transfers, four sleeps between them, and the error code of the
last transfer as result. -/
theorem usb_send_dead_device :
    (usb_send dead_device [1, 2, 3, 4, 5, 6, 7, 8] false 0).steps
        = [UsbStep.lock,
           UsbStep.transfer 0x01 [1, 2, 3, 4, 5, 6, 7, 8] (-7), UsbStep.usleep 250000,
           UsbStep.transfer 0x01 [1, 2, 3, 4, 5, 6, 7, 8] (-7), UsbStep.usleep 250000,
           UsbStep.transfer 0x01 [1, 2, 3, 4, 5, 6, 7, 8] (-7), UsbStep.usleep 250000,
           UsbStep.transfer 0x01 [1, 2, 3, 4, 5, 6, 7, 8] (-7), UsbStep.usleep 250000,
           UsbStep.transfer 0x01 [1, 2, 3, 4, 5, 6, 7, 8] (-7),
           UsbStep.unlock]
      ∧ (usb_send dead_device [1, 2, 3, 4, 5, 6, 7, 8] false 0).err = -7 := by
  decide

/-! ## Claims C14 and C15: SET CLOCK -/

theorem handle_input_SET_line (env : Env) (rest : CStr) (socket_handle : Int) (tick : Nat) :
    handle_input env (cstr "SET " ++ rest) socket_handle tick
      = handle_input_SET env rest socket_handle tick := by
  have h : cstr "SET " = [83, 69, 84, 32] := by decide
  have c1 : ¬ (cmdcompare [83, 69, 84] (cstr "H") = 0
      ∨ cmdcompare [83, 69, 84] (cstr "?") = 0) := by decide
  have c2 : ¬ cmdcompare [83, 69, 84] (cstr "FS20") = 0 := by decide
  have c3 : ¬ cmdcompare [83, 69, 84] (cstr "UNI") = 0 := by decide
  have c4 : ¬ (cmdcompare [83, 69, 84] (cstr "IT") = 0
      ∨ cmdcompare [83, 69, 84] (cstr "InterTechno") = 0) := by decide
  have c5 : ¬ cmdcompare [83, 69, 84] (cstr "SCENE") = 0 := by decide
  have c6 : ¬ cmdcompare [83, 69, 84] (cstr "GET") = 0 := by decide
  have c7 : cmdcompare [83, 69, 84] (cstr "SET") = 0 := by decide
  rw [h]
  simp [handle_input, strtok, delimiter, input_after_strtok, c1, c2, c3, c4, c5, c6, c7]

theorem sent_frames_append (a b : List Event) :
    sent_frames (a ++ b) = sent_frames a ++ sent_frames b := by
  induction a with
  | nil => rfl
  | cons e es ih =>
    cases e <;> simp [sent_frames, ih]

theorem sent_frames_send_and_reply (env : Env) (usbcmd : List Nat) (socket_handle : Int)
    (tick : Nat) (before : List Event) :
    sent_frames (send_and_reply env usbcmd socket_handle tick before).events
      = sent_frames before ++ [usbcmd] := by
  unfold send_and_reply
  simp only [sent_frames_append]
  by_cases h : (usb_send env.dev usbcmd false tick).err = 0 <;> simp [h, sent_frames]

theorem bcd_byte (b : Nat) (h : b < 128) :
    toByte (Int.tdiv (b : Int) 10 * 0x10 + Int.tmod (b : Int) 10) = b / 10 * 16 + b % 10 := by
  rw [Int.tdiv_eq_ediv (by omega) (by decide), Int.tmod_eq_emod (by omega) (by decide)]
  unfold toByte
  omega

theorem usbcmd_SET_CLOCK (env : Env) (b1 b2 b3 b4 b5 b6 b7 : Nat) (h1 : b1 < 128)
    (h2 : b2 < 128) (h3 : b3 < 128) (h4 : b4 < 128) (h5 : b5 < 128) (h6 : b6 < 128)
    (h7 : b7 < 128) :
    [1, 2, 3, 4, 5, 6, 7].foldl (usbcmd_bcd env) [8, b1, b2, b3, b4, b5, b6, b7]
      = [8, b1 / 10 * 16 + b1 % 10, b2 / 10 * 16 + b2 % 10, b3 / 10 * 16 + b3 % 10,
          b4 / 10 * 16 + b4 % 10, b5 / 10 * 16 + b5 % 10, b6 / 10 * 16 + b6 % 10,
          b7 / 10 * 16 + b7 % 10] := by
  simp only [List.foldl_cons, List.foldl_nil, usbcmd_bcd, usbcmd_get, usbcmd_set, List.getD_cons_succ,
    List.getD_cons_zero, charVal_small _ _ h1, charVal_small _ _ h2, charVal_small _ _ h3,
    charVal_small _ _ h4, charVal_small _ _ h5, charVal_small _ _ h6, charVal_small _ _ h7,
    bcd_byte _ h1, bcd_byte _ h2, bcd_byte _ h3, bcd_byte _ h4, bcd_byte _ h5, bcd_byte _ h6,
    bcd_byte _ h7, List.set_cons_succ, List.set_cons_zero]

theorem usbcmd_set_chain_8 (v0 v1 v2 v3 v4 v5 v6 v7 : Int) :
    usbcmd_set (usbcmd_set (usbcmd_set (usbcmd_set (usbcmd_set (usbcmd_set (usbcmd_set
      (usbcmd_set usbcmd_clear 0 v0) 1 v1) 2 v2) 3 v3) 4 v4) 5 v5) 6 v6) 7 v7
      = [toByte v0, toByte v1, toByte v2, toByte v3, toByte v4, toByte v5, toByte v6,
          toByte v7] := by
  simp only [usbcmd_set, usbcmd_clear]
  rfl

theorem set_clock_frame_A (env : Env) (tm : Tm)
    (hsec : 0 ≤ tm.tm_sec ∧ tm.tm_sec ≤ 61) (hmin : 0 ≤ tm.tm_min ∧ tm.tm_min ≤ 59)
    (hhour : 0 ≤ tm.tm_hour ∧ tm.tm_hour ≤ 23) (hmday : 1 ≤ tm.tm_mday ∧ tm.tm_mday ≤ 31)
    (hmon : 0 ≤ tm.tm_mon ∧ tm.tm_mon ≤ 11) (hwday : 0 ≤ tm.tm_wday ∧ tm.tm_wday ≤ 6)
    (hyear : 100 ≤ tm.tm_year ∧ tm.tm_year ≤ 199) :
    [1, 2, 3, 4, 5, 6, 7].foldl (usbcmd_bcd env)
        (usbcmd_set (usbcmd_set (usbcmd_set (usbcmd_set (usbcmd_set (usbcmd_set (usbcmd_set
          (usbcmd_set usbcmd_clear 0 8) 1 tm.tm_sec) 2 tm.tm_min) 3 tm.tm_hour) 4 tm.tm_mday)
          5 (tm.tm_mon + 1)) 6 (if tm.tm_wday = 0 then 7 else tm.tm_wday)) 7 (tm.tm_year - 100))
      = 0x08 :: [tm.tm_sec, tm.tm_min, tm.tm_hour, tm.tm_mday, tm.tm_mon + 1,
          (if tm.tm_wday = 0 then 7 else tm.tm_wday), tm.tm_year - 100].map
            (fun v => (v / 10 * 0x10 + v % 10).toNat) := by
  obtain ⟨s, hs⟩ : ∃ n : Nat, tm.tm_sec = n := Int.eq_ofNat_of_zero_le hsec.1
  obtain ⟨m, hm⟩ : ∃ n : Nat, tm.tm_min = n := Int.eq_ofNat_of_zero_le hmin.1
  obtain ⟨h, hh⟩ : ∃ n : Nat, tm.tm_hour = n := Int.eq_ofNat_of_zero_le hhour.1
  obtain ⟨d, hd⟩ : ∃ n : Nat, tm.tm_mday = n := Int.eq_ofNat_of_zero_le (by omega)
  obtain ⟨o, ho⟩ : ∃ n : Nat, tm.tm_mon + 1 = n := Int.eq_ofNat_of_zero_le (by omega)
  obtain ⟨w, hw⟩ : ∃ n : Nat, (if tm.tm_wday = 0 then 7 else tm.tm_wday) = (n : Int) := by
    by_cases h0 : tm.tm_wday = 0
    · exact ⟨7, by rw [if_pos h0]; rfl⟩
    · rw [if_neg h0]
      exact Int.eq_ofNat_of_zero_le hwday.1
  obtain ⟨y, hy⟩ : ∃ n : Nat, tm.tm_year - 100 = n := Int.eq_ofNat_of_zero_le (by omega)
  have hw7 : w ≤ 7 := by
    by_cases h0 : tm.tm_wday = 0
    · rw [if_pos h0] at hw; omega
    · rw [if_neg h0] at hw; omega
  have bs : s ≤ 61 := by omega
  have bm : m ≤ 59 := by omega
  have bh : h ≤ 23 := by omega
  have bd : d ≤ 31 := by omega
  have bo : o ≤ 12 := by omega
  have bY : y ≤ 99 := by omega
  rw [hs, hm, hh, hd, ho, hw, hy]
  rw [usbcmd_set_chain_8, toByte_natCast s (by omega), toByte_natCast m (by omega),
    toByte_natCast h (by omega), toByte_natCast d (by omega), toByte_natCast o (by omega),
    toByte_natCast w (by omega), toByte_natCast y (by omega),
    show toByte 8 = 8 from by decide,
    usbcmd_SET_CLOCK env s m h d o w y (by omega) (by omega) (by omega) (by omega) (by omega)
      (by omega) (by omega)]
  simp only [List.map_cons, List.map_nil, List.cons.injEq, and_true, true_and]
  omega

theorem strtok_CLOCK_end : strtok delimiter (cstr "CLOCK") = some (cstr "CLOCK", []) := by
  decide

theorem strtok_CLOCK_sep (tok : CStr) :
    strtok delimiter (cstr "CLOCK " ++ tok) = some (cstr "CLOCK", tok) := by
  have h : cstr "CLOCK " = cstr "CLOCK" ++ [32] := by decide
  rw [h, List.append_assoc]
  exact strtok_token_sep (cstr "CLOCK") tok 32 (by decide) (by decide) (by decide)

/-- The SET CLOCK command once the time to send is known: three calls of
`usb_send`, then the reply for the third. -/
theorem handle_input_SET_CLOCK_time (env : Env) (line : CStr) (tm : Tm) (socket_handle : Int)
    (tick : Nat)
    (hline : (line = cstr "SET CLOCK" ∧ tm = env.localtime)
      ∨ ∃ tok fmt, (∀ c ∈ tok, c ∉ delimiter)
          ∧ (tok.length, fmt) ∈ [(8, cstr "%m%d%H%M"), (10, cstr "%m%d%H%M%y"),
              (11, cstr "%m%d%H%M.%S"), (12, cstr "%m%d%H%M%Y"), (13, cstr "%m%d%H%M%y.%S"),
              (15, cstr "%m%d%H%M%Y.%S")]
          ∧ line = cstr "SET CLOCK " ++ tok ∧ tm = env.strptime tok fmt env.localtime) :
    ∃ a b : UsbResult,
      handle_input env line socket_handle tick
        = send_and_reply env [0x06, 0x02, 0x01, 0x02, 0x00, 0x00, 0x00, 0x00] socket_handle
            b.tick
            [Event.usb
                ([1, 2, 3, 4, 5, 6, 7].foldl (usbcmd_bcd env)
                  (usbcmd_set (usbcmd_set (usbcmd_set (usbcmd_set (usbcmd_set (usbcmd_set
                    (usbcmd_set (usbcmd_set usbcmd_clear 0 8) 1 tm.tm_sec) 2 tm.tm_min)
                    3 tm.tm_hour) 4 tm.tm_mday) 5 (tm.tm_mon + 1))
                    6 (if tm.tm_wday = 0 then 7 else tm.tm_wday)) 7 (tm.tm_year - 100)))
                false a.steps a.err,
             Event.usb [0x00, 0x00, 0x0d, 0x00, 0x00, 0x00, 0x00, 0x00] false b.steps b.err] := by
  have hset : cstr "SET CLOCK" = cstr "SET " ++ cstr "CLOCK" := by decide
  have hset2 : cstr "SET CLOCK " = cstr "SET " ++ cstr "CLOCK " := by decide
  have hck : cmdcompare (cstr "CLOCK") (cstr "CLOCK") = 0 := by decide
  have hB : usbcmd_set usbcmd_clear 2 0x0d = [0x00, 0x00, 0x0d, 0x00, 0x00, 0x00, 0x00, 0x00] := by
    decide
  have hC : usbcmd_set (usbcmd_set (usbcmd_set (usbcmd_set usbcmd_clear 0 0x06) 1 0x02) 2 0x01)
      3 0x02 = [0x06, 0x02, 0x01, 0x02, 0x00, 0x00, 0x00, 0x00] := by decide
  rcases hline with ⟨rfl, rfl⟩ | ⟨tok, fmt, hdel, hmem, rfl, rfl⟩
  · rw [hset, handle_input_SET_line]
    unfold handle_input_SET
    rw [strtok_CLOCK_end]
    simp only [hck, true_or, if_true]
    have hnone : strtok delimiter [] = none := by decide
    rw [hnone]
    simp only [ne_eq, show ¬ ((8 : Int) = -1) by decide, not_false_eq_true, if_true, hB, hC,
      List.nil_append]
    exact ⟨_, _, rfl⟩
  · have hne : tok ≠ [] := by
      intro h
      subst h
      simp at hmem
    rw [hset2, List.append_assoc, handle_input_SET_line]
    unfold handle_input_SET
    rw [strtok_CLOCK_sep]
    simp only [hck, true_or, if_true]
    rw [strtok_token_end tok hne hdel]
    simp only [List.mem_cons, Prod.mk.injEq, List.mem_singleton, List.not_mem_nil,
      or_false] at hmem
    rcases hmem with ⟨hl, rfl⟩ | ⟨hl, rfl⟩ | ⟨hl, rfl⟩ | ⟨hl, rfl⟩ | ⟨hl, rfl⟩ | ⟨hl, rfl⟩ <;>
      · simp only [hl, ne_eq, show ¬ ((8 : Int) = -1) by decide, not_false_eq_true, if_true,
          hB, hC, List.nil_append, Nat.reduceEqDiff, if_false]
        exact ⟨_, _, rfl⟩

/-- C14: for every broken-down time with tm_year in 100..199 (the years 2000
to 2099), be it the local time of a `SET CLOCK` without time token or what
`strptime` made of a token of an accepted length, the command hands exactly
three frames to `usb_send`, in this order: `08` followed by the packed
decimals of tm_sec, tm_min, tm_hour, tm_mday, tm_mon+1, the weekday with
Sunday as 7 and tm_year-100, where a value v is packed as (v/10)*16 + v%10;
then `00 00 0d 00 00 00 00 00`; then `06 02 01 02 00 00 00 00`. -/
theorem handle_input_SET_CLOCK_frames (env : Env) (line : CStr) (tm : Tm)
    (socket_handle : Int) (tick : Nat)
    (hline : (line = cstr "SET CLOCK" ∧ tm = env.localtime)
      ∨ ∃ tok fmt, (∀ c ∈ tok, c ∉ delimiter)
          ∧ (tok.length, fmt) ∈ [(8, cstr "%m%d%H%M"), (10, cstr "%m%d%H%M%y"),
              (11, cstr "%m%d%H%M.%S"), (12, cstr "%m%d%H%M%Y"), (13, cstr "%m%d%H%M%y.%S"),
              (15, cstr "%m%d%H%M%Y.%S")]
          ∧ line = cstr "SET CLOCK " ++ tok ∧ tm = env.strptime tok fmt env.localtime)
    (hsec : 0 ≤ tm.tm_sec ∧ tm.tm_sec ≤ 61) (hmin : 0 ≤ tm.tm_min ∧ tm.tm_min ≤ 59)
    (hhour : 0 ≤ tm.tm_hour ∧ tm.tm_hour ≤ 23) (hmday : 1 ≤ tm.tm_mday ∧ tm.tm_mday ≤ 31)
    (hmon : 0 ≤ tm.tm_mon ∧ tm.tm_mon ≤ 11) (hwday : 0 ≤ tm.tm_wday ∧ tm.tm_wday ≤ 6)
    (hyear : 100 ≤ tm.tm_year ∧ tm.tm_year ≤ 199) :
    sent_frames (handle_input env line socket_handle tick).events
        = [0x08 :: [tm.tm_sec, tm.tm_min, tm.tm_hour, tm.tm_mday, tm.tm_mon + 1,
              (if tm.tm_wday = 0 then 7 else tm.tm_wday), tm.tm_year - 100].map
                (fun v => (v / 10 * 0x10 + v % 10).toNat),
           [0x00, 0x00, 0x0d, 0x00, 0x00, 0x00, 0x00, 0x00],
           [0x06, 0x02, 0x01, 0x02, 0x00, 0x00, 0x00, 0x00]]
      ∧ (handle_input env line socket_handle tick).rc = 0 := by
  obtain ⟨a, b, h⟩ := handle_input_SET_CLOCK_time env line tm socket_handle tick hline
  rw [h, sent_frames_send_and_reply,
    set_clock_frame_A env tm hsec hmin hhour hmday hmon hwday hyear]
  exact ⟨rfl, rfl⟩

/-- Witness of `handle_input_SET_CLOCK_frames`: `SET CLOCK` at the local time
of the sample environment, Friday 2026-10-30 14:37:05. -/
theorem handle_input_SET_CLOCK_frames_witness :
    sent_frames (handle_input (sample_env DataModel.LP64) (cstr "SET CLOCK") 0 0).events
        = [0x08 :: [(sample_env DataModel.LP64).localtime.tm_sec,
              (sample_env DataModel.LP64).localtime.tm_min,
              (sample_env DataModel.LP64).localtime.tm_hour,
              (sample_env DataModel.LP64).localtime.tm_mday,
              (sample_env DataModel.LP64).localtime.tm_mon + 1,
              (if (sample_env DataModel.LP64).localtime.tm_wday = 0 then 7
               else (sample_env DataModel.LP64).localtime.tm_wday),
              (sample_env DataModel.LP64).localtime.tm_year - 100].map
                (fun v => (v / 10 * 0x10 + v % 10).toNat),
           [0x00, 0x00, 0x0d, 0x00, 0x00, 0x00, 0x00, 0x00],
           [0x06, 0x02, 0x01, 0x02, 0x00, 0x00, 0x00, 0x00]]
      ∧ (handle_input (sample_env DataModel.LP64) (cstr "SET CLOCK") 0 0).rc = 0 :=
  handle_input_SET_CLOCK_frames (sample_env DataModel.LP64) (cstr "SET CLOCK")
    (sample_env DataModel.LP64).localtime 0 0 (Or.inl ⟨rfl, rfl⟩)
    (by decide) (by decide) (by decide) (by decide) (by decide) (by decide) (by decide)

/-- The frames of `SET CLOCK` at Friday 2026-10-30 14:37:05, spelled out
(supplement to claim C14). -/
theorem handle_input_SET_CLOCK_sample :
    sent_frames (handle_input (sample_env DataModel.LP64) (cstr "SET CLOCK") 0 0).events
      = [[0x08, 0x05, 0x37, 0x14, 0x30, 0x10, 0x05, 0x26],
         [0x00, 0x00, 0x0d, 0x00, 0x00, 0x00, 0x00, 0x00],
         [0x06, 0x02, 0x01, 0x02, 0x00, 0x00, 0x00, 0x00]] := by
  decide

/-- C15: a SET CLOCK command whose time token has a length other than 8, 10,
11, 12, 13 or 15 gets the wrong-time-format reply, makes no call of
`usb_send` and returns 0. -/
theorem handle_input_SET_CLOCK_wrong_length (env : Env) (tok : CStr) (socket_handle : Int)
    (tick : Nat) (hne : tok ≠ []) (hdel : ∀ c ∈ tok, c ∉ delimiter)
    (hlen : tok.length ∉ [8, 10, 11, 12, 13, 15]) :
    handle_input env (cstr "SET CLOCK " ++ tok) socket_handle tick
      = ⟨0, [Event.write socket_handle
          (cstr "SET CLOCK: wrong time format (use MMDDhhmm[[CC]YY][.ss])\r\n") []], tick⟩ := by
  have hset2 : cstr "SET CLOCK " = cstr "SET " ++ cstr "CLOCK " := by decide
  have hck : cmdcompare (cstr "CLOCK") (cstr "CLOCK") = 0 := by decide
  simp only [List.mem_cons, List.mem_singleton, List.not_mem_nil, or_false, not_or] at hlen
  rw [hset2, List.append_assoc, handle_input_SET_line]
  unfold handle_input_SET
  rw [strtok_CLOCK_sep]
  simp only [hck, true_or, if_true]
  rw [strtok_token_end tok hne hdel]
  simp only [hlen.1, hlen.2.1, hlen.2.2.1, hlen.2.2.2.1, hlen.2.2.2.2.1, hlen.2.2.2.2.2,
    if_false, ne_eq, not_true_eq_false]

/-- Witness of `handle_input_SET_CLOCK_wrong_length`: the nine-character
token `103014372`. -/
theorem handle_input_SET_CLOCK_wrong_length_witness :
    handle_input (sample_env DataModel.LP64) (cstr "SET CLOCK " ++ cstr "103014372") 0 0
      = ⟨0, [Event.write 0
          (cstr "SET CLOCK: wrong time format (use MMDDhhmm[[CC]YY][.ss])\r\n") []], 0⟩ :=
  handle_input_SET_CLOCK_wrong_length (sample_env DataModel.LP64) (cstr "103014372") 0 0
    (by decide) (by decide) (by decide)

/-! ## Claim C16: GET TEMP -/

theorem handle_input_GET_line (env : Env) (rest : CStr) (socket_handle : Int) (tick : Nat) :
    handle_input env (cstr "GET " ++ rest) socket_handle tick
      = handle_input_GET env rest socket_handle tick := by
  have h : cstr "GET " = [71, 69, 84, 32] := by decide
  have c1 : ¬ (cmdcompare [71, 69, 84] (cstr "H") = 0
      ∨ cmdcompare [71, 69, 84] (cstr "?") = 0) := by decide
  have c2 : ¬ cmdcompare [71, 69, 84] (cstr "FS20") = 0 := by decide
  have c3 : ¬ cmdcompare [71, 69, 84] (cstr "UNI") = 0 := by decide
  have c4 : ¬ (cmdcompare [71, 69, 84] (cstr "IT") = 0
      ∨ cmdcompare [71, 69, 84] (cstr "InterTechno") = 0) := by decide
  have c5 : ¬ cmdcompare [71, 69, 84] (cstr "SCENE") = 0 := by decide
  have c6 : cmdcompare [71, 69, 84] (cstr "GET") = 0 := by decide
  rw [h]
  simp [handle_input, strtok, delimiter, input_after_strtok, c1, c2, c3, c4, c5, c6]

/-- The line `GET TEMP`: one call of `usb_send` that expects a response, then
the reply chosen from the returned value and the response. -/
theorem handle_input_GET_TEMP (env : Env) (socket_handle : Int) (tick : Nat) :
    handle_input env (cstr "GET TEMP") socket_handle tick
      = ⟨0, [Event.usb [0x0c, 0, 0, 0, 0, 0, 0, 0] true
              (usb_send env.dev [0x0c, 0, 0, 0, 0, 0, 0, 0] true tick).steps
              (usb_send env.dev [0x0c, 0, 0, 0, 0, 0, 0, 0] true tick).err]
            ++ (if (usb_send env.dev [0x0c, 0, 0, 0, 0, 0, 0, 0] true tick).err ≠ 0 then
                  [Event.write socket_handle (cstr "USB communication error\r\n") []]
                else if usbcmd_get env
                    (usb_send env.dev [0x0c, 0, 0, 0, 0, 0, 0, 0] true tick).data 0 = 0xfd then
                  [Event.write socket_handle (cstr "%.1f degree Celsius\r\n")
                    [Arg.fdiv (usbcmd_get env
                      (usb_send env.dev [0x0c, 0, 0, 0, 0, 0, 0, 0] true tick).data 1) 2]]
                else []),
          (usb_send env.dev [0x0c, 0, 0, 0, 0, 0, 0, 0] true tick).tick⟩ := by
  have h : cstr "GET TEMP" = cstr "GET " ++ cstr "TEMP" := by decide
  have hs : strtok delimiter (cstr "TEMP") = some (cstr "TEMP", []) := by decide
  have k1 : ¬ (cmdcompare (cstr "TEMP") (cstr "CLOCK") = 0
      ∨ cmdcompare (cstr "TEMP") (cstr "TIME") = 0) := by decide
  have k2 : cmdcompare (cstr "TEMP") (cstr "TEMP") = 0 := by decide
  have hf : usbcmd_set usbcmd_clear 0 0x0c = [0x0c, 0, 0, 0, 0, 0, 0, 0] := by decide
  rw [h, handle_input_GET_line]
  unfold handle_input_GET
  rw [hs]
  simp only [k1, k2, if_false, if_true, hf]

theorem charVal_signed_lt (b : Nat) : charVal true b < 128 := by
  by_cases h : 128 ≤ b % 256
  · simp only [charVal, h, and_self, if_true]
    omega
  · simp only [charVal, h, and_false, if_false]
    omega

/-- C16: on a build whose `char` is signed, `GET TEMP` writes nothing after a
successful transfer, whatever the response is, also when its first byte is
0xfd: the cell `usbcmd[0]` then reads as -3, which never equals 0xfd; the
claim says the temperature is replied. -/
theorem handle_input_GET_TEMP_signed_char (env : Env) (socket_handle : Int) (tick : Nat)
    (hsigned : env.charSigned = true)
    (hok : (usb_send env.dev [0x0c, 0, 0, 0, 0, 0, 0, 0] true tick).err = 0) :
    handle_input env (cstr "GET TEMP") socket_handle tick
      = ⟨0, [Event.usb [0x0c, 0, 0, 0, 0, 0, 0, 0] true
              (usb_send env.dev [0x0c, 0, 0, 0, 0, 0, 0, 0] true tick).steps 0],
          (usb_send env.dev [0x0c, 0, 0, 0, 0, 0, 0, 0] true tick).tick⟩ := by
  have hne : ¬ usbcmd_get env
      (usb_send env.dev [0x0c, 0, 0, 0, 0, 0, 0, 0] true tick).data 0 = 0xfd := by
    unfold usbcmd_get
    rw [hsigned]
    have := charVal_signed_lt
      ((usb_send env.dev [0x0c, 0, 0, 0, 0, 0, 0, 0] true tick).data.getD 0 0)
    omega
  rw [handle_input_GET_TEMP, hok, if_neg (by simp), if_neg hne]
  rfl

/-- Witness of `handle_input_GET_TEMP_signed_char`: the sample environment
has a signed `char`, and its device answers `fd 2b 00 00 00 00 00 00`. -/
theorem handle_input_GET_TEMP_signed_char_witness :
    handle_input (sample_env DataModel.LP64) (cstr "GET TEMP") 0 0
      = ⟨0, [Event.usb [0x0c, 0, 0, 0, 0, 0, 0, 0] true
              (usb_send (sample_env DataModel.LP64).dev [0x0c, 0, 0, 0, 0, 0, 0, 0] true 0).steps
              0],
          (usb_send (sample_env DataModel.LP64).dev [0x0c, 0, 0, 0, 0, 0, 0, 0] true 0).tick⟩ :=
  handle_input_GET_TEMP_signed_char (sample_env DataModel.LP64) 0 0 rfl (by decide)

/-- GET TEMP with an unsigned `char` (supplement to claim C16): after a
successful transfer with a response of bytes r, the temperature r[1]/2 is
replied if r[0] is 0xfd, and nothing is written otherwise. -/
theorem handle_input_GET_TEMP_unsigned_char (env : Env) (socket_handle : Int) (tick : Nat)
    (hunsigned : env.charSigned = false)
    (hok : (usb_send env.dev [0x0c, 0, 0, 0, 0, 0, 0, 0] true tick).err = 0)
    (hbytes : ∀ b ∈ (usb_send env.dev [0x0c, 0, 0, 0, 0, 0, 0, 0] true tick).data, b < 256) :
    handle_input env (cstr "GET TEMP") socket_handle tick
      = ⟨0, [Event.usb [0x0c, 0, 0, 0, 0, 0, 0, 0] true
              (usb_send env.dev [0x0c, 0, 0, 0, 0, 0, 0, 0] true tick).steps 0]
            ++ (if (usb_send env.dev [0x0c, 0, 0, 0, 0, 0, 0, 0] true tick).data.getD 0 0
                  = 0xfd then
                  [Event.write socket_handle (cstr "%.1f degree Celsius\r\n")
                    [Arg.fdiv (((usb_send env.dev [0x0c, 0, 0, 0, 0, 0, 0, 0] true tick).data.getD
                      1 0 : Nat) : Int) 2]]
                else []),
          (usb_send env.dev [0x0c, 0, 0, 0, 0, 0, 0, 0] true tick).tick⟩ := by
  have hget : ∀ i, usbcmd_get env
      (usb_send env.dev [0x0c, 0, 0, 0, 0, 0, 0, 0] true tick).data i
      = (((usb_send env.dev [0x0c, 0, 0, 0, 0, 0, 0, 0] true tick).data.getD i 0 : Nat) : Int) := by
    intro i
    have hb : (usb_send env.dev [0x0c, 0, 0, 0, 0, 0, 0, 0] true tick).data.getD i 0 < 256 := by
      rw [List.getD_eq_getElem?_getD]
      cases hget : (usb_send env.dev [0x0c, 0, 0, 0, 0, 0, 0, 0] true tick).data[i]? with
      | none => simp
      | some b => exact hbytes b (List.getElem?_mem hget)
    unfold usbcmd_get charVal
    rw [hunsigned, if_neg (by simp), Nat.mod_eq_of_lt hb]
  rw [handle_input_GET_TEMP, hok, if_neg (by simp), hget 0, hget 1]
  congr 2
  by_cases h : (usb_send env.dev [0x0c, 0, 0, 0, 0, 0, 0, 0] true tick).data.getD 0 0 = 0xfd
  · rw [if_pos h, if_pos (by rw [h]; rfl)]
  · rw [if_neg h, if_neg (by omega)]

/-! ## Claim C17: keyword comparison -/

theorem toupper_ascii (c : Nat) (h : 1 ≤ c ∧ c ≤ 127) : 1 ≤ toupper c ∧ toupper c ≤ 127 := by
  unfold toupper
  split <;> omega

theorem wrap8_small (x : Int) (hlo : -128 ≤ x) (hhi : x ≤ 127) : wrap8 x = x := by
  unfold wrap8
  omega

/-- C17: for ASCII strings cs and ct, `cmdcompare(cs, ct)` returns 0 if and
only if cs has at least strlen(ct) characters and its first strlen(ct)
characters equal those of ct once both are put in upper case. -/
theorem cmdcompare_eq_zero_iff (cs ct : CStr) (hcs : ∀ c ∈ cs, 1 ≤ c ∧ c ≤ 127)
    (hct : ∀ c ∈ ct, 1 ≤ c ∧ c ≤ 127) :
    cmdcompare cs ct = 0
      ↔ ct.length ≤ cs.length ∧ (cs.take ct.length).map toupper = ct.map toupper := by
  induction ct generalizing cs with
  | nil => simp [cmdcompare, strnicmp]
  | cons k ks ih =>
    have hk := toupper_ascii k (hct k (by simp))
    have hks : ∀ c ∈ ks, 1 ≤ c ∧ c ≤ 127 := fun c hc => hct c (by simp [hc])
    cases cs with
    | nil =>
      have hres : wrap8 ((toupper 0 : Int) - (toupper k : Int)) ≠ 0 := by
        have h0 : toupper 0 = 0 := by decide
        rw [h0, wrap8_small _ (by omega) (by omega)]
        omega
      simp only [cmdcompare, List.length_cons, strnicmp, deref, List.headD_nil,
        List.headD_cons]
      rw [if_pos (Or.inl hres)]
      simp [hres]
    | cons c t =>
      have hc := toupper_ascii c (hcs c (by simp))
      have hc0 : c ≠ 0 := by
        have := hcs c (by simp)
        omega
      have ht : ∀ x ∈ t, 1 ≤ x ∧ x ≤ 127 := fun x hx => hcs x (by simp [hx])
      have hw : wrap8 ((toupper c : Int) - (toupper k : Int))
          = (toupper c : Int) - (toupper k : Int) :=
        wrap8_small _ (by omega) (by omega)
      simp only [cmdcompare, List.length_cons, strnicmp, deref, List.headD_cons, hw,
        List.tail_cons]
      by_cases heq : toupper c = toupper k
      · have hz : ¬ ((toupper c : Int) - (toupper k : Int) ≠ 0 ∨ c = 0) := by
          rw [heq]
          simp [hc0]
        rw [if_neg hz]
        have := ih t ht hks
        simp only [cmdcompare] at this
        rw [this]
        simp [heq]
      · have hnz : (toupper c : Int) - (toupper k : Int) ≠ 0 := by omega
        rw [if_pos (Or.inl hnz)]
        simp [hnz, heq]

/-- Witness of `cmdcompare_eq_zero_iff`: `uniroll 5 up` against `UNI`. -/
theorem cmdcompare_eq_zero_iff_witness :
    cmdcompare (cstr "uniroll 5 up") (cstr "UNI") = 0
      ↔ (cstr "UNI").length ≤ (cstr "uniroll 5 up").length
        ∧ ((cstr "uniroll 5 up").take (cstr "UNI").length).map toupper
            = (cstr "UNI").map toupper :=
  cmdcompare_eq_zero_iff (cstr "uniroll 5 up") (cstr "UNI") (by decide) (by decide)

/-! ## Claim C18: the value returned by `handle_input` -/

theorem ite_rc (c : Prop) [Decidable c] (a b : Result) (ha : a.rc = 0) (hb : b.rc = 0) :
    (if c then a else b).rc = 0 := by
  split <;> assumption

theorem handle_input_FS20_cmd_rc (env : Env) (addr : Int) (ptr : CStr) (socket_handle : Int)
    (tick : Nat) : (handle_input_FS20_cmd env addr ptr socket_handle tick).rc = 0 := by
  unfold handle_input_FS20_cmd
  exact ite_rc _ _ _ rfl (ite_rc _ _ _ rfl rfl)

theorem handle_input_FS20_rc (env : Env) (rest : CStr) (socket_handle : Int) (tick : Nat) :
    (handle_input_FS20 env rest socket_handle tick).rc = 0 := by
  unfold handle_input_FS20
  rcases strtok delimiter rest with _ | ⟨ptr, rest1⟩
  · rfl
  · refine ite_rc _ _ _ ?_ rfl
    rcases strtok delimiter rest1 with _ | ⟨ptr2, rest2⟩
    · rfl
    · exact handle_input_FS20_cmd_rc _ _ _ _ _

theorem handle_input_UNI_rc (env : Env) (rest : CStr) (socket_handle : Int) (tick : Nat) :
    (handle_input_UNI env rest socket_handle tick).rc = 0 := by
  unfold handle_input_UNI
  rcases strtok delimiter rest with _ | ⟨ptr, rest1⟩
  · rfl
  · refine ite_rc _ _ _ ?_ rfl
    rcases strtok delimiter rest1 with _ | ⟨ptr2, rest2⟩
    · rfl
    · unfold handle_input_UNI_cmd
      exact ite_rc _ _ _ rfl rfl

theorem handle_input_IT_rc (env : Env) (rest : CStr) (socket_handle : Int) (tick : Nat) :
    (handle_input_IT env rest socket_handle tick).rc = 0 := by
  unfold handle_input_IT
  rcases strtok delimiter rest with _ | ⟨ptr, rest1⟩
  · rfl
  · refine ite_rc _ _ _ ?_ rfl
    rcases strtok delimiter rest1 with _ | ⟨ptr2, rest2⟩
    · rfl
    · refine ite_rc _ _ _ ?_ rfl
      rcases strtok delimiter rest2 with _ | ⟨ptr3, rest3⟩
      · rfl
      · unfold handle_input_IT_cmd
        exact ite_rc _ _ _ rfl rfl

theorem handle_input_SCENE_rc (env : Env) (rest : CStr) (socket_handle : Int) (tick : Nat) :
    (handle_input_SCENE env rest socket_handle tick).rc = 0 := by
  unfold handle_input_SCENE
  rcases strtok delimiter rest with _ | ⟨ptr, rest1⟩
  · rfl
  · exact ite_rc _ _ _ rfl rfl

theorem handle_input_GET_rc (env : Env) (rest : CStr) (socket_handle : Int) (tick : Nat) :
    (handle_input_GET env rest socket_handle tick).rc = 0 := by
  unfold handle_input_GET
  rcases strtok delimiter rest with _ | ⟨ptr, rest1⟩
  · rfl
  · exact ite_rc _ _ _ rfl (ite_rc _ _ _ rfl rfl)

theorem handle_input_SET_rc (env : Env) (rest : CStr) (socket_handle : Int) (tick : Nat) :
    (handle_input_SET env rest socket_handle tick).rc = 0 := by
  unfold handle_input_SET
  rcases strtok delimiter rest with _ | ⟨ptr, rest1⟩
  · rfl
  · refine ite_rc _ _ _ ?_ rfl
    exact ite_rc _ _ _ rfl rfl

theorem handle_input_WAIT_rc (env : Env) (rest : CStr) (socket_handle : Int) (tick : Nat) :
    (handle_input_WAIT env rest socket_handle tick).rc = 0 := by
  unfold handle_input_WAIT
  rcases strtok delimiter rest with _ | ⟨ptr, rest1⟩ <;> rfl

theorem toupper_lt (c : Nat) (h : c < 256) : toupper c < 256 := by
  unfold toupper
  split <;> omega

theorem cmdcompare_zero_head (inp : CStr) (k : Nat) (ks : CStr) (hd : deref inp < 256)
    (hk : k < 256) (h : cmdcompare inp (k :: ks) = 0) : toupper (deref inp) = toupper k := by
  by_contra hne
  have h1 := toupper_lt _ hd
  have h2 := toupper_lt _ hk
  have hx : wrap8 ((toupper (deref inp) : Int) - (toupper k : Int)) ≠ 0 :=
    wrap8_ne_zero _ (by omega) (by omega) (by omega)
  have hdk : deref (k :: ks) = k := rfl
  simp only [cmdcompare, List.length_cons, strnicmp, hdk] at h
  rw [if_pos (Or.inl hx)] at h
  exact hx h

theorem cmdcompare_single (inp : CStr) (k : Nat) (hd : deref inp < 256) (hk : k < 256) :
    cmdcompare inp [k] = 0 ↔ toupper (deref inp) = toupper k := by
  constructor
  · exact cmdcompare_zero_head inp k [] hd hk
  · intro h
    have hz : wrap8 ((toupper (deref inp) : Int) - (toupper k : Int)) = 0 := by
      rw [h]
      simp [wrap8]
    have hdk : deref [k] = k := rfl
    simp only [cmdcompare, List.length_singleton, strnicmp, hdk]
    split
    · exact hz
    · rfl

/-- The first character seen by the keyword comparisons, against the first
character of the line. -/
theorem head_after_strtok (input ptr rest : CStr) (hbytes : ∀ c ∈ input, c < 256)
    (hs : strtok delimiter input = some (ptr, rest)) :
    deref (input_after_strtok input ptr) < 256
      ∧ (toupper (deref (input_after_strtok input ptr)) = 81
          ↔ input.head? = some 81 ∨ input.head? = some 113)
      ∧ (toupper (deref (input_after_strtok input ptr)) = 69
          ↔ input.head? = some 69 ∨ input.head? = some 101) := by
  cases input with
  | nil => simp [strtok] at hs
  | cons c t =>
    have hc : c < 256 := hbytes c (by simp)
    by_cases hdel : c ∈ delimiter
    · have hcd : delimiter.contains c = true := by simpa using hdel
      have hd : deref (input_after_strtok (c :: t) ptr) = c := by
        unfold input_after_strtok
        rw [List.takeWhile_cons_of_pos hcd]
        rfl
      have hup : toupper c = c := by
        simp only [delimiter, List.mem_cons, List.mem_singleton, List.not_mem_nil,
          or_false] at hdel
        unfold toupper
        rw [if_neg (by omega)]
      simp only [delimiter, List.mem_cons, List.mem_singleton, List.not_mem_nil,
        or_false] at hdel
      rw [hd, hup]
      simp only [List.head?_cons, Option.some.injEq]
      omega
    · have hcd : delimiter.contains c = false := by simpa using hdel
      have hptr : ∃ t2, ptr = c :: t2 := by
        unfold strtok at hs
        rw [List.dropWhile_cons_of_neg (by simpa using hdel)] at hs
        simp only [Option.some.injEq, Prod.mk.injEq] at hs
        rw [List.takeWhile_cons_of_pos (by simpa using hdel)] at hs
        exact ⟨_, hs.1.symm⟩
      obtain ⟨t2, rfl⟩ := hptr
      have hd : deref (input_after_strtok (c :: t) (c :: t2)) = c := by
        unfold input_after_strtok
        rw [List.takeWhile_cons_of_neg (by simpa using hdel)]
        rfl
      rw [hd]
      simp only [List.head?_cons, Option.some.injEq]
      unfold toupper
      split <;> omega

theorem head_of_no_token (input : CStr) (hs : strtok delimiter input = none) :
    ¬ (input.head? = some 81 ∨ input.head? = some 113)
      ∧ ¬ (input.head? = some 69 ∨ input.head? = some 101) := by
  cases input with
  | nil => simp
  | cons c t =>
    by_cases hdel : c ∈ delimiter
    · simp only [delimiter, List.mem_cons, List.mem_singleton, List.not_mem_nil,
        or_false] at hdel
      simp only [List.head?_cons, Option.some.injEq]
      omega
    · have hcd : delimiter.contains c = false := by simpa using hdel
      unfold strtok at hs
      rw [List.dropWhile_cons_of_neg (by simpa using hdel)] at hs
      simp at hs

theorem handle_input_rc_of_token (env : Env) (input ptr rest : CStr) (socket_handle : Int)
    (tick : Nat) (hs : strtok delimiter input = some (ptr, rest))
    (hd : deref (input_after_strtok input ptr) < 256) :
    ((handle_input env input socket_handle tick).rc = -1
        ↔ toupper (deref (input_after_strtok input ptr)) = 81)
      ∧ ((handle_input env input socket_handle tick).rc = -2
        ↔ toupper (deref (input_after_strtok input ptr)) = 69)
      ∧ ((handle_input env input socket_handle tick).rc = -1
          ∨ (handle_input env input socket_handle tick).rc = -2
          ∨ (handle_input env input socket_handle tick).rc = 0)
      ∧ ((handle_input env input socket_handle tick).rc ≠ 0
          → (handle_input env input socket_handle tick).events = []
            ∧ (handle_input env input socket_handle tick).tick = tick) := by
  generalize hinp : input_after_strtok input ptr = inp at hd
  have hH : cmdcompare inp (cstr "H") = 0 → toupper (deref inp) = 72 :=
    cmdcompare_zero_head inp 72 [] hd (by decide)
  have hq : cmdcompare inp (cstr "?") = 0 → toupper (deref inp) = 63 :=
    cmdcompare_zero_head inp 63 [] hd (by decide)
  have hF : cmdcompare inp (cstr "FS20") = 0 → toupper (deref inp) = 70 :=
    cmdcompare_zero_head inp 70 [83, 50, 48] hd (by decide)
  have hU : cmdcompare inp (cstr "UNI") = 0 → toupper (deref inp) = 85 :=
    cmdcompare_zero_head inp 85 [78, 73] hd (by decide)
  have hI : cmdcompare inp (cstr "IT") = 0 → toupper (deref inp) = 73 :=
    cmdcompare_zero_head inp 73 [84] hd (by decide)
  have hI2 : cmdcompare inp (cstr "InterTechno") = 0 → toupper (deref inp) = 73 :=
    cmdcompare_zero_head inp 73 (cstr "nterTechno") hd (by decide)
  have hS : cmdcompare inp (cstr "SCENE") = 0 → toupper (deref inp) = 83 :=
    cmdcompare_zero_head inp 83 (cstr "CENE") hd (by decide)
  have hG : cmdcompare inp (cstr "GET") = 0 → toupper (deref inp) = 71 :=
    cmdcompare_zero_head inp 71 (cstr "ET") hd (by decide)
  have hSe : cmdcompare inp (cstr "SET") = 0 → toupper (deref inp) = 83 :=
    cmdcompare_zero_head inp 83 (cstr "ET") hd (by decide)
  have hW : cmdcompare inp (cstr "WAIT") = 0 → toupper (deref inp) = 87 :=
    cmdcompare_zero_head inp 87 (cstr "AIT") hd (by decide)
  have hQU : cmdcompare inp (cstr "QUIT") = 0 → toupper (deref inp) = 81 :=
    cmdcompare_zero_head inp 81 (cstr "UIT") hd (by decide)
  have hQ : cmdcompare inp (cstr "Q") = 0 ↔ toupper (deref inp) = 81 :=
    cmdcompare_single inp 81 hd (by decide)
  have hEX : cmdcompare inp (cstr "EXIT") = 0 → toupper (deref inp) = 69 :=
    cmdcompare_zero_head inp 69 (cstr "XIT") hd (by decide)
  have hE : cmdcompare inp (cstr "E") = 0 ↔ toupper (deref inp) = 69 :=
    cmdcompare_single inp 69 hd (by decide)
  generalize toupper (deref inp) = u at *
  have zero : ∀ r : Result, r.rc = 0 → u ≠ 81 → u ≠ 69 →
      (r.rc = -1 ↔ u = 81) ∧ (r.rc = -2 ↔ u = 69) ∧ (r.rc = -1 ∨ r.rc = -2 ∨ r.rc = 0)
        ∧ (r.rc ≠ 0 → r.events = [] ∧ r.tick = tick) := by
    intro r h0 n81 n69
    rw [h0]
    exact ⟨⟨fun h => by simp at h, fun h => absurd h n81⟩,
      ⟨fun h => by simp at h, fun h => absurd h n69⟩, Or.inr (Or.inr rfl),
      fun h => absurd rfl h⟩
  generalize hr : handle_input env input socket_handle tick = r
  unfold handle_input at hr
  rw [hs] at hr
  simp only [hinp] at hr
  by_cases c1 : cmdcompare inp (cstr "H") = 0 ∨ cmdcompare inp (cstr "?") = 0
  · rw [if_pos c1] at hr
    have : u = 72 ∨ u = 63 := c1.elim (fun h => Or.inl (hH h)) (fun h => Or.inr (hq h))
    exact zero r (by rw [← hr]) (by omega) (by omega)
  rw [if_neg c1] at hr
  by_cases c2 : cmdcompare inp (cstr "FS20") = 0
  · rw [if_pos c2] at hr
    have := hF c2
    exact zero r (by rw [← hr]; exact handle_input_FS20_rc _ _ _ _) (by omega) (by omega)
  rw [if_neg c2] at hr
  by_cases c3 : cmdcompare inp (cstr "UNI") = 0
  · rw [if_pos c3] at hr
    have := hU c3
    exact zero r (by rw [← hr]; exact handle_input_UNI_rc _ _ _ _) (by omega) (by omega)
  rw [if_neg c3] at hr
  by_cases c4 : cmdcompare inp (cstr "IT") = 0 ∨ cmdcompare inp (cstr "InterTechno") = 0
  · rw [if_pos c4] at hr
    have : u = 73 := c4.elim hI hI2
    exact zero r (by rw [← hr]; exact handle_input_IT_rc _ _ _ _) (by omega) (by omega)
  rw [if_neg c4] at hr
  by_cases c5 : cmdcompare inp (cstr "SCENE") = 0
  · rw [if_pos c5] at hr
    have := hS c5
    exact zero r (by rw [← hr]; exact handle_input_SCENE_rc _ _ _ _) (by omega) (by omega)
  rw [if_neg c5] at hr
  by_cases c6 : cmdcompare inp (cstr "GET") = 0
  · rw [if_pos c6] at hr
    have := hG c6
    exact zero r (by rw [← hr]; exact handle_input_GET_rc _ _ _ _) (by omega) (by omega)
  rw [if_neg c6] at hr
  by_cases c7 : cmdcompare inp (cstr "SET") = 0
  · rw [if_pos c7] at hr
    have := hSe c7
    exact zero r (by rw [← hr]; exact handle_input_SET_rc _ _ _ _) (by omega) (by omega)
  rw [if_neg c7] at hr
  by_cases c8 : cmdcompare inp (cstr "WAIT") = 0
  · rw [if_pos c8] at hr
    have := hW c8
    exact zero r (by rw [← hr]; exact handle_input_WAIT_rc _ _ _ _) (by omega) (by omega)
  rw [if_neg c8] at hr
  by_cases c9 : cmdcompare inp (cstr "QUIT") = 0 ∨ cmdcompare inp (cstr "Q") = 0
  · rw [if_pos c9] at hr
    have h81 : u = 81 := c9.elim hQU hQ.mp
    subst hr
    exact ⟨⟨fun _ => h81, fun _ => rfl⟩, ⟨fun h => by simp at h, fun h => by omega⟩,
      Or.inl rfl, fun _ => ⟨rfl, rfl⟩⟩
  rw [if_neg c9] at hr
  have n81 : u ≠ 81 := fun h => c9 (Or.inr (hQ.mpr h))
  by_cases c10 : cmdcompare inp (cstr "EXIT") = 0 ∨ cmdcompare inp (cstr "E") = 0
  · rw [if_pos c10] at hr
    have h69 : u = 69 := c10.elim hEX hE.mp
    subst hr
    exact ⟨⟨fun h => by simp at h, fun h => by omega⟩, ⟨fun _ => h69, fun _ => rfl⟩,
      Or.inr (Or.inl rfl), fun _ => ⟨rfl, rfl⟩⟩
  rw [if_neg c10] at hr
  have n69 : u ≠ 69 := fun h => c10 (Or.inr (hE.mpr h))
  exact zero r (by rw [← hr]) n81 n69

/-- C18: for a line of bytes, `handle_input` returns -1 exactly when the first
character of the line is Q or q, -2 exactly when it is E or e, and 0 for
every other line; when it returns -1 or -2 it has made no call of `usb_send`
and has written nothing. -/
theorem handle_input_return_value (env : Env) (input : CStr) (socket_handle : Int) (tick : Nat)
    (hbytes : ∀ c ∈ input, c < 256) :
    ((handle_input env input socket_handle tick).rc = -1
        ↔ input.head? = some 81 ∨ input.head? = some 113)
      ∧ ((handle_input env input socket_handle tick).rc = -2
        ↔ input.head? = some 69 ∨ input.head? = some 101)
      ∧ ((handle_input env input socket_handle tick).rc = -1
          ∨ (handle_input env input socket_handle tick).rc = -2
          ∨ (handle_input env input socket_handle tick).rc = 0)
      ∧ ((handle_input env input socket_handle tick).rc ≠ 0
          → (handle_input env input socket_handle tick).events = []
            ∧ (handle_input env input socket_handle tick).tick = tick) := by
  rcases hs : strtok delimiter input with _ | ⟨ptr, rest⟩
  · have hno := head_of_no_token input hs
    have hr : handle_input env input socket_handle tick = ⟨0, [], tick⟩ := by
      unfold handle_input
      rw [hs]
    rw [hr]
    refine ⟨⟨fun h => by simp at h, fun h => absurd h hno.1⟩,
      ⟨fun h => by simp at h, fun h => absurd h hno.2⟩, Or.inr (Or.inr rfl),
      fun _ => ⟨rfl, rfl⟩⟩
  · obtain ⟨hd, h81, h69⟩ := head_after_strtok input ptr rest hbytes hs
    have h := handle_input_rc_of_token env input ptr rest socket_handle tick hs hd
    rw [h81, h69] at h
    exact h

/-- Witness of `handle_input_return_value`: the line `quit`. -/
theorem handle_input_return_value_witness :
    ((handle_input (sample_env DataModel.LP64) (cstr "quit") 0 0).rc = -1
        ↔ (cstr "quit").head? = some 81 ∨ (cstr "quit").head? = some 113)
      ∧ ((handle_input (sample_env DataModel.LP64) (cstr "quit") 0 0).rc = -2
        ↔ (cstr "quit").head? = some 69 ∨ (cstr "quit").head? = some 101)
      ∧ ((handle_input (sample_env DataModel.LP64) (cstr "quit") 0 0).rc = -1
          ∨ (handle_input (sample_env DataModel.LP64) (cstr "quit") 0 0).rc = -2
          ∨ (handle_input (sample_env DataModel.LP64) (cstr "quit") 0 0).rc = 0)
      ∧ ((handle_input (sample_env DataModel.LP64) (cstr "quit") 0 0).rc ≠ 0
          → (handle_input (sample_env DataModel.LP64) (cstr "quit") 0 0).events = []
            ∧ (handle_input (sample_env DataModel.LP64) (cstr "quit") 0 0).tick = 0) :=
  handle_input_return_value (sample_env DataModel.LP64) (cstr "quit") 0 0 (by decide)

/-- Some return values spelled out (supplement to claim C18): a line that
only starts with Q or E ends the session too, and QUIT after a delimiter
does not. -/
theorem handle_input_return_value_samples :
    (handle_input (sample_env DataModel.LP64) (cstr "QUIT") 0 0).rc = -1
      ∧ (handle_input (sample_env DataModel.LP64) (cstr "query") 0 0).rc = -1
      ∧ (handle_input (sample_env DataModel.LP64) (cstr "EXIT") 0 0).rc = -2
      ∧ (handle_input (sample_env DataModel.LP64) (cstr "echo") 0 0).rc = -2
      ∧ (handle_input (sample_env DataModel.LP64) (cstr ";QUIT") 0 0).rc = 0
      ∧ (handle_input (sample_env DataModel.LP64) (cstr "FS20 1111 ON") 0 0).rc = 0 := by
  decide

/-! ## Claim C19: replies after a failed transfer -/

/-- The line `GET CLOCK`: one call of `usb_send` that expects a response, the
communication error if the call failed, and in either case the clock text
made from the content of `usbcmd`. -/
theorem handle_input_GET_CLOCK (env : Env) (socket_handle : Int) (tick : Nat) :
    handle_input env (cstr "GET CLOCK") socket_handle tick
      = ⟨0, [Event.usb [0x09, 0, 0, 0, 0, 0, 0, 0] true
              (usb_send env.dev [0x09, 0, 0, 0, 0, 0, 0, 0] true tick).steps
              (usb_send env.dev [0x09, 0, 0, 0, 0, 0, 0, 0] true tick).err]
            ++ (if (usb_send env.dev [0x09, 0, 0, 0, 0, 0, 0, 0] true tick).err ≠ 0 then
                  [Event.write socket_handle (cstr "USB communication error\r\n") []]
                else [])
            ++ [Event.write socket_handle (cstr "%s\r")
                  [Arg.str (env.mktime_asctime
                    (usbcmd_get env (usb_send env.dev [0x09, 0, 0, 0, 0, 0, 0, 0] true tick).data 0)
                    (usbcmd_get env (usb_send env.dev [0x09, 0, 0, 0, 0, 0, 0, 0] true tick).data 1)
                    (usbcmd_get env (usb_send env.dev [0x09, 0, 0, 0, 0, 0, 0, 0] true tick).data 2)
                    (usbcmd_get env (usb_send env.dev [0x09, 0, 0, 0, 0, 0, 0, 0] true tick).data 3)
                    (usbcmd_get env (usb_send env.dev [0x09, 0, 0, 0, 0, 0, 0, 0] true tick).data 4
                      - 1)
                    (usbcmd_get env (usb_send env.dev [0x09, 0, 0, 0, 0, 0, 0, 0] true tick).data 6
                      + 100))]],
          (usb_send env.dev [0x09, 0, 0, 0, 0, 0, 0, 0] true tick).tick⟩ := by
  have h : cstr "GET CLOCK" = cstr "GET " ++ cstr "CLOCK" := by decide
  have k1 : cmdcompare (cstr "CLOCK") (cstr "CLOCK") = 0 := by decide
  have hf : usbcmd_set usbcmd_clear 0 0x09 = [0x09, 0, 0, 0, 0, 0, 0, 0] := by decide
  rw [h, handle_input_GET_line]
  unfold handle_input_GET
  rw [strtok_CLOCK_end]
  simp only [k1, true_or, if_true, hf]

/-- C19: when the call of `usb_send` of `GET CLOCK` fails after all retries,
the communication error is written and then, all the same, a clock text made
from whatever the buffer holds; the claim says the error line is the only
reply and no clock value is given. -/
theorem handle_input_GET_CLOCK_after_error (env : Env) (socket_handle : Int) (tick : Nat)
    (herr : (usb_send env.dev [0x09, 0, 0, 0, 0, 0, 0, 0] true tick).err ≠ 0) :
    written_formats (handle_input env (cstr "GET CLOCK") socket_handle tick).events
        = [cstr "USB communication error\r\n", cstr "%s\r"]
      ∧ (handle_input env (cstr "GET CLOCK") socket_handle tick).rc = 0 := by
  rw [handle_input_GET_CLOCK, if_pos herr]
  exact ⟨rfl, rfl⟩

/-- Witness of `handle_input_GET_CLOCK_after_error`: the dead device. -/
theorem handle_input_GET_CLOCK_after_error_witness :
    written_formats (handle_input (dead_env DataModel.LP64) (cstr "GET CLOCK") 0 0).events
        = [cstr "USB communication error\r\n", cstr "%s\r"]
      ∧ (handle_input (dead_env DataModel.LP64) (cstr "GET CLOCK") 0 0).rc = 0 :=
  handle_input_GET_CLOCK_after_error (dead_env DataModel.LP64) 0 0 (by decide)

/-- SET CLOCK after a failed first frame (supplement to claim C19): on the
flaky device the first call of `usb_send` fails after five transfers, the
second and third succeed, and the reply is `OK`. -/
theorem handle_input_SET_CLOCK_first_frame_lost :
    usb_errors (handle_input (flaky_env DataModel.LP64) (cstr "SET CLOCK") 0 0).events
        = [-7, 0, 0]
      ∧ written_formats (handle_input (flaky_env DataModel.LP64) (cstr "SET CLOCK") 0 0).events
        = [cstr "OK\r\n"] := by
  decide

/-- The commands that end in `send_and_reply`, and GET TEMP (supplement to
claim C19): when `usb_send` returns a non-zero value the only thing written
is the communication error. -/
theorem written_after_failed_transfer (env : Env) (usbcmd : List Nat) (socket_handle : Int)
    (tick : Nat) :
    ((usb_send env.dev usbcmd false tick).err ≠ 0 →
        written_formats (send_and_reply env usbcmd socket_handle tick []).events
          = [cstr "USB communication error\r\n"])
      ∧ ((usb_send env.dev [0x0c, 0, 0, 0, 0, 0, 0, 0] true tick).err ≠ 0 →
        written_formats (handle_input env (cstr "GET TEMP") socket_handle tick).events
          = [cstr "USB communication error\r\n"]) := by
  constructor
  · intro h
    unfold send_and_reply
    simp only [List.nil_append, written_formats, h, ne_eq, not_false_eq_true, if_true]
  · intro h
    rw [handle_input_GET_TEMP, if_pos h]
    rfl

/-! ## Claim C20: the thread of a client -/

/-- A session spelled out (supplement to claim C20): a client that sends
`SCENE 3` and then `exit`, each ended by CR LF, with a device release that
succeeds. -/
theorem tcp_server_handle_client_session :
    (tcp_server_handle_client (sample_env DataModel.LP64) 0 7
        [cstr "SCENE 3\r\n", cstr "exit\r\n"] 0).steps
        = [ServerStep.event (Event.write 7 (cstr "Welcome to %s (%s)\r\n>")
              [Arg.str PROGNAME, Arg.str VERSION]),
           ServerStep.event (Event.usb [0x0f, 0x03, 0, 0, 0, 0, 0, 0] false
              [UsbStep.lock, UsbStep.transfer 0x01 [0x0f, 0x03, 0, 0, 0, 0, 0, 0] 0,
                UsbStep.unlock] 0),
           ServerStep.event (Event.write 7 (cstr "OK\r\n") []),
           ServerStep.event (Event.write 7 (cstr ">") []),
           ServerStep.event (Event.write 7 (cstr "bye\r\n") []),
           ServerStep.fd_clr 7, ServerStep.close 7,
           ServerStep.usb_release [ReleaseStep.lock, ReleaseStep.release_interface 0,
              ReleaseStep.close, ReleaseStep.exit_context, ReleaseStep.unlock] 0,
           ServerStep.exit 0]
      ∧ (tcp_server_handle_client (sample_env DataModel.LP64) 0 7
          [cstr "SCENE 3\r\n", cstr "exit\r\n"] 0).ending = ThreadEnd.process_exit 0 := by
  decide

/-! ## Lemmas on the loops of `usb_send` -/

theorem transfer_rets_append (e : Nat) (a b : List UsbStep) :
    transfer_rets e (a ++ b) = transfer_rets e a ++ transfer_rets e b := by
  induction a with
  | nil => rfl
  | cons s more ih =>
    cases s with
    | transfer e2 d r =>
      by_cases h : e2 = e <;> simp [transfer_rets, h, ih]
    | lock => simpa [transfer_rets] using ih
    | usleep u => simpa [transfer_rets] using ih
    | unlock => simpa [transfer_rets] using ih

theorem transfer_endpoints_append (a b : List UsbStep) :
    transfer_endpoints (a ++ b) = transfer_endpoints a ++ transfer_endpoints b := by
  induction a with
  | nil => rfl
  | cons s more ih =>
    cases s <;> simp [transfer_endpoints, ih]

/-- The first loop of `usb_send`: it makes at most `retry` transfers, all on
endpoint 0x01, at least one when it is entered with `ret` other than 0 and
`retry` above 0, and it ends exhausted exactly when no transfer returned 0. -/
theorem usb_send_out_spec (dev : Device) (data : List Nat) (retry : Nat) (ret : Int)
    (tick : Nat) :
    transfer_endpoints (usb_send_out dev data retry ret tick).steps
        = List.replicate (transfer_rets 0x01 (usb_send_out dev data retry ret tick).steps).length
            0x01
      ∧ transfer_rets 0x82 (usb_send_out dev data retry ret tick).steps = []
      ∧ (transfer_rets 0x01 (usb_send_out dev data retry ret tick).steps).length ≤ retry
      ∧ (usb_send_out dev data retry ret tick).data = data
      ∧ (ret ≠ 0 → 0 < retry →
          0 < (transfer_rets 0x01 (usb_send_out dev data retry ret tick).steps).length
          ∧ (((usb_send_out dev data retry ret tick).ret ≠ 0
                ∧ (usb_send_out dev data retry ret tick).retry = 0)
              ↔ (0 : Int) ∉ transfer_rets 0x01 (usb_send_out dev data retry ret tick).steps)) := by
  induction retry generalizing ret tick with
  | zero =>
    refine ⟨rfl, rfl, Nat.le_refl _, rfl, ?_⟩
    intro _ h
    exact absurd h (Nat.lt_irrefl 0)
  | succ n ih =>
    by_cases hret : ret = 0
    · subst hret
      refine ⟨rfl, rfl, Nat.zero_le _, rfl, ?_⟩
      intro h
      exact absurd rfl h
    · obtain ⟨i1, i2, i3, i4, i5⟩ := ih (dev.xferOut tick data) (tick + 1)
      have hstep : (usb_send_out dev data (n + 1) ret tick).steps
          = UsbStep.transfer 0x01 data (dev.xferOut tick data)
              :: ((if dev.xferOut tick data ≠ 0 ∧ n > 0
                    then [UsbStep.usleep (USB_WAIT_ON_ERROR * 1000)] else [])
                  ++ (usb_send_out dev data n (dev.xferOut tick data) (tick + 1)).steps) := by
        rw [usb_send_out, if_pos hret]
        rfl
      have hretv : (usb_send_out dev data (n + 1) ret tick).ret
          = (usb_send_out dev data n (dev.xferOut tick data) (tick + 1)).ret := by
        rw [usb_send_out, if_pos hret]
      have hretry : (usb_send_out dev data (n + 1) ret tick).retry
          = (usb_send_out dev data n (dev.xferOut tick data) (tick + 1)).retry := by
        rw [usb_send_out, if_pos hret]
      have hdata : (usb_send_out dev data (n + 1) ret tick).data
          = (usb_send_out dev data n (dev.xferOut tick data) (tick + 1)).data := by
        rw [usb_send_out, if_pos hret]
      have hp1 : ∀ l : List UsbStep, transfer_rets 0x01
          ((if dev.xferOut tick data ≠ 0 ∧ n > 0
              then [UsbStep.usleep (USB_WAIT_ON_ERROR * 1000)] else []) ++ l)
            = transfer_rets 0x01 l := by
        intro l
        split <;> rfl
      have hp2 : ∀ l : List UsbStep, transfer_rets 0x82
          ((if dev.xferOut tick data ≠ 0 ∧ n > 0
              then [UsbStep.usleep (USB_WAIT_ON_ERROR * 1000)] else []) ++ l)
            = transfer_rets 0x82 l := by
        intro l
        split <;> rfl
      have hp3 : ∀ l : List UsbStep, transfer_endpoints
          ((if dev.xferOut tick data ≠ 0 ∧ n > 0
              then [UsbStep.usleep (USB_WAIT_ON_ERROR * 1000)] else []) ++ l)
            = transfer_endpoints l := by
        intro l
        split <;> rfl
      have r1 : transfer_rets 0x01 (usb_send_out dev data (n + 1) ret tick).steps
          = dev.xferOut tick data
              :: transfer_rets 0x01
                  (usb_send_out dev data n (dev.xferOut tick data) (tick + 1)).steps := by
        rw [hstep, transfer_rets, if_pos rfl, hp1]
      have r2 : transfer_rets 0x82 (usb_send_out dev data (n + 1) ret tick).steps
          = transfer_rets 0x82
              (usb_send_out dev data n (dev.xferOut tick data) (tick + 1)).steps := by
        rw [hstep, transfer_rets, if_neg (by decide), hp2]
      have r3 : transfer_endpoints (usb_send_out dev data (n + 1) ret tick).steps
          = 0x01 :: transfer_endpoints
              (usb_send_out dev data n (dev.xferOut tick data) (tick + 1)).steps := by
        rw [hstep, transfer_endpoints, hp3]
      rw [r1, r2, r3, hretv, hretry, hdata]
      refine ⟨?_, i2, ?_, i4, ?_⟩
      · rw [i1]
        rfl
      · simp only [List.length_cons]
        omega
      · intro _ _
        refine ⟨by simp, ?_⟩
        by_cases h1 : dev.xferOut tick data = 0
        · have hz : (usb_send_out dev data n (dev.xferOut tick data) (tick + 1)).ret = 0 := by
            rw [h1]
            cases n with
            | zero => rfl
            | succ m => rw [usb_send_out, if_neg (by simp)]
          rw [hz, h1]
          simp
        · have h1s : ¬ (0 : Int) = dev.xferOut tick data := fun h => h1 h.symm
          cases n with
          | zero =>
            simp only [usb_send_out, transfer_rets]
            simp [h1, h1s]
          | succ m =>
            have h5 := (i5 h1 (Nat.succ_pos m)).2
            rw [h5]
            simp [h1s]

/-- The second loop of `usb_send`: it makes at most `retry` transfers, all on
endpoint 0x82, at least one when it is entered with `ret` other than 0 and
`retry` above 0, and it ends exhausted exactly when no transfer returned 0. -/
theorem usb_send_in_spec (dev : Device) (retry : Nat) (ret : Int) (data : List Nat)
    (tick : Nat) :
    transfer_endpoints (usb_send_in dev retry ret data tick).steps
        = List.replicate (transfer_rets 0x82 (usb_send_in dev retry ret data tick).steps).length
            0x82
      ∧ transfer_rets 0x01 (usb_send_in dev retry ret data tick).steps = []
      ∧ (transfer_rets 0x82 (usb_send_in dev retry ret data tick).steps).length ≤ retry
      ∧ (ret ≠ 0 → 0 < retry →
          0 < (transfer_rets 0x82 (usb_send_in dev retry ret data tick).steps).length
          ∧ (((usb_send_in dev retry ret data tick).ret ≠ 0
                ∧ (usb_send_in dev retry ret data tick).retry = 0)
              ↔ (0 : Int) ∉ transfer_rets 0x82 (usb_send_in dev retry ret data tick).steps)) := by
  induction retry generalizing ret data tick with
  | zero =>
    refine ⟨rfl, rfl, Nat.le_refl _, ?_⟩
    intro _ h
    exact absurd h (Nat.lt_irrefl 0)
  | succ n ih =>
    by_cases hret : ret = 0
    · subst hret
      refine ⟨rfl, rfl, Nat.zero_le _, ?_⟩
      intro h
      exact absurd rfl h
    · obtain ⟨i1, i2, i3, i5⟩ := ih (dev.xferIn tick data).1 (dev.xferIn tick data).2 (tick + 1)
      have hstep : (usb_send_in dev (n + 1) ret data tick).steps
          = UsbStep.transfer 0x82 (dev.xferIn tick data).2 (dev.xferIn tick data).1
              :: ((if (dev.xferIn tick data).1 ≠ 0 ∧ n > 0
                    then [UsbStep.usleep (USB_WAIT_ON_ERROR * 1000)] else [])
                  ++ (usb_send_in dev n (dev.xferIn tick data).1 (dev.xferIn tick data).2
                        (tick + 1)).steps) := by
        rw [usb_send_in, if_pos hret]
        rfl
      have hretv : (usb_send_in dev (n + 1) ret data tick).ret
          = (usb_send_in dev n (dev.xferIn tick data).1 (dev.xferIn tick data).2
              (tick + 1)).ret := by
        rw [usb_send_in, if_pos hret]
      have hretry : (usb_send_in dev (n + 1) ret data tick).retry
          = (usb_send_in dev n (dev.xferIn tick data).1 (dev.xferIn tick data).2
              (tick + 1)).retry := by
        rw [usb_send_in, if_pos hret]
      generalize dev.xferIn tick data = x at *
      have hp1 : ∀ l : List UsbStep, transfer_rets 0x01
          ((if x.1 ≠ 0 ∧ n > 0 then [UsbStep.usleep (USB_WAIT_ON_ERROR * 1000)] else []) ++ l)
            = transfer_rets 0x01 l := by
        intro l
        split <;> rfl
      have hp2 : ∀ l : List UsbStep, transfer_rets 0x82
          ((if x.1 ≠ 0 ∧ n > 0 then [UsbStep.usleep (USB_WAIT_ON_ERROR * 1000)] else []) ++ l)
            = transfer_rets 0x82 l := by
        intro l
        split <;> rfl
      have hp3 : ∀ l : List UsbStep, transfer_endpoints
          ((if x.1 ≠ 0 ∧ n > 0 then [UsbStep.usleep (USB_WAIT_ON_ERROR * 1000)] else []) ++ l)
            = transfer_endpoints l := by
        intro l
        split <;> rfl
      have r1 : transfer_rets 0x82 (usb_send_in dev (n + 1) ret data tick).steps
          = x.1 :: transfer_rets 0x82 (usb_send_in dev n x.1 x.2 (tick + 1)).steps := by
        rw [hstep, transfer_rets, if_pos rfl, hp2]
      have r2 : transfer_rets 0x01 (usb_send_in dev (n + 1) ret data tick).steps
          = transfer_rets 0x01 (usb_send_in dev n x.1 x.2 (tick + 1)).steps := by
        rw [hstep, transfer_rets, if_neg (by decide), hp1]
      have r3 : transfer_endpoints (usb_send_in dev (n + 1) ret data tick).steps
          = 0x82 :: transfer_endpoints (usb_send_in dev n x.1 x.2 (tick + 1)).steps := by
        rw [hstep, transfer_endpoints, hp3]
      rw [r1, r2, r3, hretv, hretry]
      refine ⟨?_, i2, ?_, ?_⟩
      · rw [i1]
        rfl
      · simp only [List.length_cons]
        omega
      · intro _ _
        refine ⟨by simp, ?_⟩
        by_cases h1 : x.1 = 0
        · have hz : (usb_send_in dev n x.1 x.2 (tick + 1)).ret = 0 := by
            rw [h1]
            cases n with
            | zero => rfl
            | succ m => rw [usb_send_in, if_neg (by simp)]
          rw [hz, h1]
          simp
        · have h1s : ¬ (0 : Int) = x.1 := fun h => h1 h.symm
          cases n with
          | zero =>
            simp only [usb_send_in, transfer_rets]
            simp [h1, h1s]
          | succ m =>
            have h5 := (i5 h1 (Nat.succ_pos m)).2
            rw [h5]
            simp [h1s]

theorem usb_send_steps_false (dev : Device) (device_data : List Nat) (tick : Nat) :
    (usb_send dev device_data false tick).steps
        = [UsbStep.lock] ++ (usb_send_out dev device_data USB_MAX_RETRY (-1) tick).steps
            ++ [UsbStep.unlock]
      ∧ (usb_send dev device_data false tick).err
        = (if (usb_send_out dev device_data USB_MAX_RETRY (-1) tick).ret ≠ 0
              ∧ (usb_send_out dev device_data USB_MAX_RETRY (-1) tick).retry = 0
            then (usb_send_out dev device_data USB_MAX_RETRY (-1) tick).ret else 0) := by
  simp [usb_send]

theorem usb_send_steps_true (dev : Device) (device_data : List Nat) (tick : Nat) :
    (usb_send dev device_data true tick).steps
        = [UsbStep.lock] ++ (usb_send_out dev device_data USB_MAX_RETRY (-1) tick).steps
            ++ (usb_send_in dev USB_MAX_RETRY (-1) device_data
                  (usb_send_out dev device_data USB_MAX_RETRY (-1) tick).tick).steps
            ++ [UsbStep.unlock]
      ∧ (usb_send dev device_data true tick).err
        = (if (usb_send_in dev USB_MAX_RETRY (-1) device_data
                  (usb_send_out dev device_data USB_MAX_RETRY (-1) tick).tick).ret ≠ 0
              ∧ (usb_send_in dev USB_MAX_RETRY (-1) device_data
                  (usb_send_out dev device_data USB_MAX_RETRY (-1) tick).tick).retry = 0
            then (usb_send_in dev USB_MAX_RETRY (-1) device_data
                  (usb_send_out dev device_data USB_MAX_RETRY (-1) tick).tick).ret
            else if (usb_send_out dev device_data USB_MAX_RETRY (-1) tick).ret ≠ 0
              ∧ (usb_send_out dev device_data USB_MAX_RETRY (-1) tick).retry = 0
            then (usb_send_out dev device_data USB_MAX_RETRY (-1) tick).ret else 0) := by
  have hd := (usb_send_out_spec dev device_data USB_MAX_RETRY (-1) tick).2.2.2.1
  simp [usb_send, hd]

theorem usb_send_eq_false (dev : Device) (device_data : List Nat) (tick : Nat) :
    usb_send dev device_data false tick
      = ⟨if (usb_send_out dev device_data USB_MAX_RETRY (-1) tick).ret ≠ 0
            ∧ (usb_send_out dev device_data USB_MAX_RETRY (-1) tick).retry = 0
          then (usb_send_out dev device_data USB_MAX_RETRY (-1) tick).ret else 0,
         (usb_send_out dev device_data USB_MAX_RETRY (-1) tick).data,
         (usb_send_out dev device_data USB_MAX_RETRY (-1) tick).tick,
         [UsbStep.lock] ++ (usb_send_out dev device_data USB_MAX_RETRY (-1) tick).steps
           ++ [UsbStep.unlock]⟩ := by
  unfold usb_send
  simp only [Bool.false_eq_true, if_false]

theorem usb_send_eq_true (dev : Device) (device_data : List Nat) (tick : Nat) :
    usb_send dev device_data true tick
      = ⟨if (usb_send_in dev USB_MAX_RETRY (-1)
                (usb_send_out dev device_data USB_MAX_RETRY (-1) tick).data
                (usb_send_out dev device_data USB_MAX_RETRY (-1) tick).tick).ret ≠ 0
            ∧ (usb_send_in dev USB_MAX_RETRY (-1)
                (usb_send_out dev device_data USB_MAX_RETRY (-1) tick).data
                (usb_send_out dev device_data USB_MAX_RETRY (-1) tick).tick).retry = 0
          then (usb_send_in dev USB_MAX_RETRY (-1)
                (usb_send_out dev device_data USB_MAX_RETRY (-1) tick).data
                (usb_send_out dev device_data USB_MAX_RETRY (-1) tick).tick).ret
          else if (usb_send_out dev device_data USB_MAX_RETRY (-1) tick).ret ≠ 0
            ∧ (usb_send_out dev device_data USB_MAX_RETRY (-1) tick).retry = 0
          then (usb_send_out dev device_data USB_MAX_RETRY (-1) tick).ret else 0,
         (usb_send_in dev USB_MAX_RETRY (-1)
            (usb_send_out dev device_data USB_MAX_RETRY (-1) tick).data
            (usb_send_out dev device_data USB_MAX_RETRY (-1) tick).tick).data,
         (usb_send_in dev USB_MAX_RETRY (-1)
            (usb_send_out dev device_data USB_MAX_RETRY (-1) tick).data
            (usb_send_out dev device_data USB_MAX_RETRY (-1) tick).tick).tick,
         [UsbStep.lock] ++ (usb_send_out dev device_data USB_MAX_RETRY (-1) tick).steps
           ++ (usb_send_in dev USB_MAX_RETRY (-1)
                (usb_send_out dev device_data USB_MAX_RETRY (-1) tick).data
                (usb_send_out dev device_data USB_MAX_RETRY (-1) tick).tick).steps
           ++ [UsbStep.unlock]⟩ := by
  unfold usb_send
  simp only [if_true]

/-! ## Claim C21: the batch mode -/

theorem written_sockets_append (a b : List Event) :
    written_sockets (a ++ b) = written_sockets a ++ written_sockets b := by
  induction a with
  | nil => rfl
  | cons e es ih => cases e <;> simp [written_sockets, ih]

theorem written_sockets_ite (c : Prop) [Decidable c] (a b : Result) (sock : Int)
    (ha : ∀ s ∈ written_sockets a.events, s = sock)
    (hb : ∀ s ∈ written_sockets b.events, s = sock) :
    ∀ s ∈ written_sockets (if c then a else b).events, s = sock := by
  split <;> assumption

theorem written_sockets_ite_snd (c : Prop) [Decidable c] (a b : Int × List Event) (sock : Int)
    (ha : ∀ s ∈ written_sockets a.2, s = sock) (hb : ∀ s ∈ written_sockets b.2, s = sock) :
    ∀ s ∈ written_sockets (if c then a else b).2, s = sock := by
  split <;> assumption

theorem written_sockets_ite_list (c : Prop) [Decidable c] (a b : List Event) (sock : Int)
    (ha : ∀ s ∈ written_sockets a, s = sock) (hb : ∀ s ∈ written_sockets b, s = sock) :
    ∀ s ∈ written_sockets (if c then a else b), s = sock := by
  split <;> assumption

theorem written_sockets_append_all (a b : List Event) (sock : Int)
    (ha : ∀ s ∈ written_sockets a, s = sock) (hb : ∀ s ∈ written_sockets b, s = sock) :
    ∀ s ∈ written_sockets (a ++ b), s = sock := by
  intro s hs
  rw [written_sockets_append, List.mem_append] at hs
  rcases hs with hs | hs
  · exact ha s hs
  · exact hb s hs

theorem send_and_reply_written_sockets (env : Env) (usbcmd : List Nat) (socket_handle : Int)
    (tick : Nat) (before : List Event) (h : ∀ s ∈ written_sockets before, s = socket_handle) :
    ∀ s ∈ written_sockets (send_and_reply env usbcmd socket_handle tick before).events,
      s = socket_handle := by
  unfold send_and_reply
  intro s hs
  simp only [written_sockets_append, List.mem_append] at hs
  rcases hs with hs | hs
  · exact h s hs
  · by_cases he : (usb_send env.dev usbcmd false tick).err ≠ 0
    · simp only [if_pos he, written_sockets, List.mem_singleton] at hs
      exact hs
    · simp only [if_neg he, written_sockets, List.mem_singleton] at hs
      exact hs

theorem handle_input_FS20_cmd_written_sockets (env : Env) (addr : Int) (ptr : CStr)
    (socket_handle : Int) (tick : Nat) :
    ∀ s ∈ written_sockets (handle_input_FS20_cmd env addr ptr socket_handle tick).events,
      s = socket_handle := by
  unfold handle_input_FS20_cmd
  have hc : ∀ s ∈ written_sockets
      (if cmdcompare ptr (cstr "ON") = 0 then ((0x11 : Int), ([] : List Event))
      else if cmdcompare ptr (cstr "OFF") = 0 then (0x00, [])
      else if cmdcompare ptr (cstr "TOGGLE") = 0 then (0x12, [])
      else if cmdcompare ptr (cstr "UP") = 0 ∨ cmdcompare ptr (cstr "+") = 0 then (0x13, [])
      else if cmdcompare ptr (cstr "DOWN") = 0 ∨ cmdcompare ptr (cstr "-") = 0 then (0x14, [])
      else
        let r := strtol env.dataModel ptr
        let dim_value : Int := wrap32 r.1
        let dim_value : Int :=
          if ptr.getLast? = some 37 then Int.tdiv (wrap32 (16 * dim_value)) 100
          else dim_value
        if r.2 ∨ dim_value < 0 ∨ dim_value > 16 then
          (-2, [Event.write socket_handle
            (cstr "FS20: Wrong dim level (must be within 0-16 or 0%-100%)\r\n") []])
        else (0x01 * dim_value, [])).2, s = socket_handle := by
    repeat' split
    all_goals first
      | exact written_sockets_ite_snd _ _ _ _ (by simp [written_sockets])
          (by simp [written_sockets])
      | simp [written_sockets]
  generalize (if cmdcompare ptr (cstr "ON") = 0 then ((0x11 : Int), ([] : List Event))
      else if cmdcompare ptr (cstr "OFF") = 0 then (0x00, [])
      else if cmdcompare ptr (cstr "TOGGLE") = 0 then (0x12, [])
      else if cmdcompare ptr (cstr "UP") = 0 ∨ cmdcompare ptr (cstr "+") = 0 then (0x13, [])
      else if cmdcompare ptr (cstr "DOWN") = 0 ∨ cmdcompare ptr (cstr "-") = 0 then (0x14, [])
      else
        let r := strtol env.dataModel ptr
        let dim_value : Int := wrap32 r.1
        let dim_value : Int :=
          if ptr.getLast? = some 37 then Int.tdiv (wrap32 (16 * dim_value)) 100
          else dim_value
        if r.2 ∨ dim_value < 0 ∨ dim_value > 16 then
          (-2, [Event.write socket_handle
            (cstr "FS20: Wrong dim level (must be within 0-16 or 0%-100%)\r\n") []])
        else (0x01 * dim_value, [])) = c at hc ⊢
  simp only
  refine written_sockets_ite _ _ _ _ (send_and_reply_written_sockets _ _ _ _ _ hc)
    (written_sockets_ite _ _ _ _ ?_ hc)
  intro s hs
  simp only [written_sockets_append, List.mem_append, written_sockets, List.mem_singleton] at hs
  rcases hs with hs | hs
  · exact hc s hs
  · exact hs

theorem handle_input_FS20_written_sockets (env : Env) (rest : CStr) (socket_handle : Int)
    (tick : Nat) :
    ∀ s ∈ written_sockets (handle_input_FS20 env rest socket_handle tick).events,
      s = socket_handle := by
  unfold handle_input_FS20
  rcases strtok delimiter rest with _ | ⟨ptr, rest1⟩
  · simp [written_sockets]
  · simp only
    refine written_sockets_ite _ _ _ _ ?_ (by simp [written_sockets])
    rcases strtok delimiter rest1 with _ | ⟨ptr2, rest2⟩
    · simp [written_sockets]
    · exact handle_input_FS20_cmd_written_sockets _ _ _ _ _

theorem handle_input_UNI_written_sockets (env : Env) (rest : CStr) (socket_handle : Int)
    (tick : Nat) :
    ∀ s ∈ written_sockets (handle_input_UNI env rest socket_handle tick).events,
      s = socket_handle := by
  unfold handle_input_UNI
  rcases strtok delimiter rest with _ | ⟨ptr, rest1⟩
  · simp [written_sockets]
  · simp only
    refine written_sockets_ite _ _ _ _ ?_ (by simp [written_sockets])
    rcases strtok delimiter rest1 with _ | ⟨ptr2, rest2⟩
    · simp [written_sockets]
    · simp only
      unfold handle_input_UNI_cmd
      exact written_sockets_ite _ _ _ _
        (send_and_reply_written_sockets _ _ _ _ _ (by simp [written_sockets]))
        (by simp [written_sockets])

theorem handle_input_IT_written_sockets (env : Env) (rest : CStr) (socket_handle : Int)
    (tick : Nat) :
    ∀ s ∈ written_sockets (handle_input_IT env rest socket_handle tick).events,
      s = socket_handle := by
  unfold handle_input_IT
  rcases strtok delimiter rest with _ | ⟨ptr, rest1⟩
  · simp [written_sockets]
  · simp only
    refine written_sockets_ite _ _ _ _ ?_ (by simp [written_sockets])
    rcases strtok delimiter rest1 with _ | ⟨ptr2, rest2⟩
    · simp [written_sockets]
    · simp only
      refine written_sockets_ite _ _ _ _ ?_ (by simp [written_sockets])
      rcases strtok delimiter rest2 with _ | ⟨ptr3, rest3⟩
      · simp [written_sockets]
      · simp only
        unfold handle_input_IT_cmd
        exact written_sockets_ite _ _ _ _
          (send_and_reply_written_sockets _ _ _ _ _ (by simp [written_sockets]))
          (by simp [written_sockets])

theorem handle_input_SCENE_written_sockets (env : Env) (rest : CStr) (socket_handle : Int)
    (tick : Nat) :
    ∀ s ∈ written_sockets (handle_input_SCENE env rest socket_handle tick).events,
      s = socket_handle := by
  unfold handle_input_SCENE
  rcases strtok delimiter rest with _ | ⟨ptr, rest1⟩
  · simp [written_sockets]
  · simp only
    exact written_sockets_ite _ _ _ _
      (send_and_reply_written_sockets _ _ _ _ _ (by simp [written_sockets]))
      (by simp [written_sockets])

theorem handle_input_GET_written_sockets (env : Env) (rest : CStr) (socket_handle : Int)
    (tick : Nat) :
    ∀ s ∈ written_sockets (handle_input_GET env rest socket_handle tick).events,
      s = socket_handle := by
  unfold handle_input_GET
  rcases strtok delimiter rest with _ | ⟨ptr, rest1⟩
  · simp [written_sockets]
  · simp only
    refine written_sockets_ite _ _ _ _ ?_
      (written_sockets_ite _ _ _ _ ?_ (by simp [written_sockets]))
    · exact written_sockets_append_all _ _ _
        (written_sockets_append_all _ _ _ (by simp [written_sockets])
          (written_sockets_ite_list _ _ _ _ (by simp [written_sockets])
            (by simp [written_sockets])))
        (by simp [written_sockets])
    · exact written_sockets_append_all _ _ _ (by simp [written_sockets])
        (written_sockets_ite_list _ _ _ _ (by simp [written_sockets])
          (written_sockets_ite_list _ _ _ _ (by simp [written_sockets])
            (by simp [written_sockets])))

theorem handle_input_SET_written_sockets (env : Env) (rest : CStr) (socket_handle : Int)
    (tick : Nat) :
    ∀ s ∈ written_sockets (handle_input_SET env rest socket_handle tick).events,
      s = socket_handle := by
  unfold handle_input_SET
  rcases strtok delimiter rest with _ | ⟨ptr, rest1⟩
  · simp [written_sockets]
  · simp only
    refine written_sockets_ite _ _ _ _ ?_ (by simp [written_sockets])
    rcases strtok delimiter rest1 with _ | ⟨ptr2, rest2⟩
    · simp only
      exact written_sockets_ite _ _ _ _
        (send_and_reply_written_sockets _ _ _ _ _ (by simp [written_sockets]))
        (by simp [written_sockets])
    · simp only
      have ht : ∀ s ∈ written_sockets
          (if ptr2.length = 8 then
            ((8 : Int), env.strptime ptr2 (cstr "%m%d%H%M") env.localtime, ([] : List Event))
          else if ptr2.length = 10 then
            (8, env.strptime ptr2 (cstr "%m%d%H%M%y") env.localtime, [])
          else if ptr2.length = 11 then
            (8, env.strptime ptr2 (cstr "%m%d%H%M.%S") env.localtime, [])
          else if ptr2.length = 12 then
            (8, env.strptime ptr2 (cstr "%m%d%H%M%Y") env.localtime, [])
          else if ptr2.length = 13 then
            (8, env.strptime ptr2 (cstr "%m%d%H%M%y.%S") env.localtime, [])
          else if ptr2.length = 15 then
            (8, env.strptime ptr2 (cstr "%m%d%H%M%Y.%S") env.localtime, [])
          else
            (-1, env.localtime, [Event.write socket_handle
              (cstr "SET CLOCK: wrong time format (use MMDDhhmm[[CC]YY][.ss])\r\n") []])).2.2,
          s = socket_handle := by
        repeat' split
        all_goals simp [written_sockets]
      generalize (if ptr2.length = 8 then
            ((8 : Int), env.strptime ptr2 (cstr "%m%d%H%M") env.localtime, ([] : List Event))
          else if ptr2.length = 10 then
            (8, env.strptime ptr2 (cstr "%m%d%H%M%y") env.localtime, [])
          else if ptr2.length = 11 then
            (8, env.strptime ptr2 (cstr "%m%d%H%M.%S") env.localtime, [])
          else if ptr2.length = 12 then
            (8, env.strptime ptr2 (cstr "%m%d%H%M%Y") env.localtime, [])
          else if ptr2.length = 13 then
            (8, env.strptime ptr2 (cstr "%m%d%H%M%y.%S") env.localtime, [])
          else if ptr2.length = 15 then
            (8, env.strptime ptr2 (cstr "%m%d%H%M%Y.%S") env.localtime, [])
          else
            (-1, env.localtime, [Event.write socket_handle
              (cstr "SET CLOCK: wrong time format (use MMDDhhmm[[CC]YY][.ss])\r\n") []])) = t
        at ht ⊢
      refine written_sockets_ite _ _ _ _ (send_and_reply_written_sockets _ _ _ _ _ ?_) ht
      exact written_sockets_append_all _ _ _ ht (by simp [written_sockets])

theorem handle_input_WAIT_written_sockets (env : Env) (rest : CStr) (socket_handle : Int)
    (tick : Nat) :
    ∀ s ∈ written_sockets (handle_input_WAIT env rest socket_handle tick).events,
      s = socket_handle := by
  unfold handle_input_WAIT
  rcases strtok delimiter rest with _ | ⟨ptr, rest1⟩
  · simp [written_sockets]
  · simp [written_sockets]

/-- Whatever `handle_input` writes, it hands the `socket_handle` of its caller
to `write_to_client`. -/
theorem handle_input_written_sockets (env : Env) (input : CStr) (socket_handle : Int)
    (tick : Nat) :
    ∀ s ∈ written_sockets (handle_input env input socket_handle tick).events,
      s = socket_handle := by
  unfold handle_input
  rcases strtok delimiter input with _ | ⟨ptr, rest⟩
  · simp [written_sockets]
  · simp only
    exact written_sockets_ite _ _ _ _ (by simp [written_sockets, client_cmd_help])
      (written_sockets_ite _ _ _ _ (handle_input_FS20_written_sockets _ _ _ _)
      (written_sockets_ite _ _ _ _ (handle_input_UNI_written_sockets _ _ _ _)
      (written_sockets_ite _ _ _ _ (handle_input_IT_written_sockets _ _ _ _)
      (written_sockets_ite _ _ _ _ (handle_input_SCENE_written_sockets _ _ _ _)
      (written_sockets_ite _ _ _ _ (handle_input_GET_written_sockets _ _ _ _)
      (written_sockets_ite _ _ _ _ (handle_input_SET_written_sockets _ _ _ _)
      (written_sockets_ite _ _ _ _ (handle_input_WAIT_written_sockets _ _ _ _)
      (written_sockets_ite _ _ _ _ (by simp [written_sockets])
      (written_sockets_ite _ _ _ _ (by simp [written_sockets])
        (by simp [written_sockets]))))))))))

theorem batch_delimiter_contains (c : Nat) :
    batch_delimiter.contains c = (c == 44 || c == 59) := by
  by_cases h1 : c = 44 <;> by_cases h2 : c = 59 <;> simp [batch_delimiter, h1, h2]

/-- The pieces of a string of delimiters only are all empty. -/
theorem batch_commands_of_delimiters (s : CStr)
    (h : ∀ c ∈ s, (c == 44 || c == 59) = true) : batch_commands s = [] := by
  induction s with
  | nil => rfl
  | cons c cs ih =>
    have hc := h c (by simp)
    have ih2 := ih (fun x hx => h x (by simp [hx]))
    unfold batch_commands at ih2 ⊢
    rw [List.splitOnP_cons, if_pos hc, List.filter_cons_of_neg (by simp)]
    exact ih2

/-- Delimiters at the start of the string make empty pieces only. -/
theorem batch_commands_dropWhile (s : CStr) :
    batch_commands s = batch_commands (s.dropWhile (fun c => c == 44 || c == 59)) := by
  induction s with
  | nil => rfl
  | cons c cs ih =>
    by_cases hc : (c == 44 || c == 59) = true
    · rw [List.dropWhile_cons_of_pos (by simpa using hc), ← ih]
      unfold batch_commands
      rw [List.splitOnP_cons, if_pos hc, List.filter_cons_of_neg (by simp)]
    · rw [List.dropWhile_cons_of_neg (by simpa using hc)]

/-- A string that starts with a character other than a delimiter: its first
command runs up to the first delimiter, and the other commands are those of
what follows that delimiter. -/
theorem batch_commands_cons (c : Nat) (cs : CStr) (hc : ¬ (c == 44 || c == 59) = true) :
    batch_commands (c :: cs)
      = (c :: cs).takeWhile (fun x => !(x == 44 || x == 59))
        :: batch_commands (((c :: cs).dropWhile (fun x => !(x == 44 || x == 59))).drop 1) := by
  have hsplit := List.takeWhile_append_dropWhile (fun x => !(x == 44 || x == 59)) (c :: cs)
  have htok : ∀ x ∈ (c :: cs).takeWhile (fun x => !(x == 44 || x == 59)),
      ¬ (fun x => x == 44 || x == 59) x = true := by
    intro x hx
    have := List.mem_takeWhile_imp hx
    simpa using this
  have hne : (c :: cs).takeWhile (fun x => !(x == 44 || x == 59)) ≠ [] := by
    rw [List.takeWhile_cons_of_pos (by simpa using hc)]
    simp
  rcases hrem : (c :: cs).dropWhile (fun x => !(x == 44 || x == 59)) with _ | ⟨sep, more⟩
  · rw [hrem, List.append_nil] at hsplit
    rw [hsplit] at htok hne ⊢
    unfold batch_commands
    rw [List.splitOnP_eq_single _ _ htok]
    simp
  · have hsep : (fun x => x == 44 || x == 59) sep = true := by
      have h1 := List.head_dropWhile_not (fun x => !(x == 44 || x == 59)) (c :: cs)
        (by rw [hrem]; simp)
      simp only [hrem, List.head_cons] at h1
      have h1b : (!(sep == 44 || sep == 59)) = false := h1
      show (sep == 44 || sep == 59) = true
      cases hb : (sep == 44 || sep == 59)
      · rw [hb] at h1b
        exact absurd h1b (by decide)
      · rfl
    rw [hrem] at hsplit
    have e : batch_commands (c :: cs)
        = batch_commands ((c :: cs).takeWhile (fun x => !(x == 44 || x == 59)) ++ sep :: more) := by
      rw [hsplit]
    rw [e]
    unfold batch_commands
    rw [List.splitOnP_first _ _ htok sep hsep, List.filter_cons_of_pos (by simpa using hne)]
    rfl

/-- The tokens stored by the first loop of the batch branch are the commands
of the command string. -/
theorem main_tokens_eq_batch_commands (fuel : Nat) (s : CStr) (h : s.length < fuel) :
    main_tokens fuel s = batch_commands s := by
  induction fuel generalizing s with
  | zero => exact absurd h (Nat.not_lt_zero _)
  | succ n ih =>
    have hfun : (fun c => batch_delimiter.contains c) = (fun c => c == 44 || c == 59) :=
      funext batch_delimiter_contains
    have hfun2 : (fun c => !batch_delimiter.contains c) = (fun c => !(c == 44 || c == 59)) :=
      funext (fun c => by rw [batch_delimiter_contains])
    rw [main_tokens, batch_commands_dropWhile s]
    unfold strtok
    rw [hfun, hfun2]
    have hlen := (@List.dropWhile_sublist _ s (fun c => c == 44 || c == 59)).length_le
    rcases hd : s.dropWhile (fun c => c == 44 || c == 59) with _ | ⟨c, cs⟩
    · rfl
    · have hc : ¬ (c == 44 || c == 59) = true := by
        have h1 := List.head_dropWhile_not (fun c => c == 44 || c == 59) s (by rw [hd]; simp)
        simp only [hd, List.head_cons] at h1
        simpa using h1
      rw [hd] at hlen
      simp only
      rw [batch_commands_cons c cs hc, ih]
      have h2 := (@List.dropWhile_sublist _ (c :: cs) (fun x => !(x == 44 || x == 59))).length_le
      rw [List.length_drop]
      simp only [List.length_cons] at hlen h2
      omega

/-- The value `handle_input` returns does not depend on the number of
transfers the device has seen. -/
theorem handle_input_rc_tick (env : Env) (input : CStr) (socket_handle : Int) (t1 t2 : Nat) :
    (handle_input env input socket_handle t1).rc = (handle_input env input socket_handle t2).rc := by
  unfold handle_input
  rcases strtok delimiter input with _ | ⟨ptr, rest⟩
  · rfl
  · simp only
    generalize input_after_strtok input ptr = inp
    by_cases c1 : cmdcompare inp (cstr "H") = 0 ∨ cmdcompare inp (cstr "?") = 0
    · rw [if_pos c1, if_pos c1]
    rw [if_neg c1, if_neg c1]
    by_cases c2 : cmdcompare inp (cstr "FS20") = 0
    · rw [if_pos c2, if_pos c2, handle_input_FS20_rc, handle_input_FS20_rc]
    rw [if_neg c2, if_neg c2]
    by_cases c3 : cmdcompare inp (cstr "UNI") = 0
    · rw [if_pos c3, if_pos c3, handle_input_UNI_rc, handle_input_UNI_rc]
    rw [if_neg c3, if_neg c3]
    by_cases c4 : cmdcompare inp (cstr "IT") = 0 ∨ cmdcompare inp (cstr "InterTechno") = 0
    · rw [if_pos c4, if_pos c4, handle_input_IT_rc, handle_input_IT_rc]
    rw [if_neg c4, if_neg c4]
    by_cases c5 : cmdcompare inp (cstr "SCENE") = 0
    · rw [if_pos c5, if_pos c5, handle_input_SCENE_rc, handle_input_SCENE_rc]
    rw [if_neg c5, if_neg c5]
    by_cases c6 : cmdcompare inp (cstr "GET") = 0
    · rw [if_pos c6, if_pos c6, handle_input_GET_rc, handle_input_GET_rc]
    rw [if_neg c6, if_neg c6]
    by_cases c7 : cmdcompare inp (cstr "SET") = 0
    · rw [if_pos c7, if_pos c7, handle_input_SET_rc, handle_input_SET_rc]
    rw [if_neg c7, if_neg c7]
    by_cases c8 : cmdcompare inp (cstr "WAIT") = 0
    · rw [if_pos c8, if_pos c8, handle_input_WAIT_rc, handle_input_WAIT_rc]
    rw [if_neg c8, if_neg c8]
    by_cases c9 : cmdcompare inp (cstr "QUIT") = 0 ∨ cmdcompare inp (cstr "Q") = 0
    · rw [if_pos c9, if_pos c9]
    rw [if_neg c9, if_neg c9]
    by_cases c10 : cmdcompare inp (cstr "EXIT") = 0 ∨ cmdcompare inp (cstr "E") = 0
    · rw [if_pos c10, if_pos c10]
    rw [if_neg c10, if_neg c10]

/-- The second loop of the batch branch, entered with a negative `rc`, makes
no call. -/
theorem main_batch_loop_stopped (env : Env) (tokens : List CStr) (rc : Int) (tick : Nat)
    (h : rc < 0) :
    (main_batch_loop env tokens rc tick).calls = []
      ∧ (main_batch_loop env tokens rc tick).events = []
      ∧ (main_batch_loop env tokens rc tick).rc = rc
      ∧ (main_batch_loop env tokens rc tick).tick = tick := by
  cases tokens with
  | nil => exact ⟨rfl, rfl, rfl, rfl⟩
  | cons tok more =>
    rw [main_batch_loop, if_neg (by omega)]
    exact ⟨rfl, rfl, rfl, rfl⟩

/-- The calls of the second loop of the batch branch, entered with an `rc`
that is not negative. -/
theorem main_batch_loop_calls (env : Env) (tokens : List CStr) (rc : Int) (tick : Nat)
    (h : rc ≥ 0) :
    (main_batch_loop env tokens rc tick).calls = batch_calls env tokens := by
  induction tokens generalizing rc tick with
  | nil => rfl
  | cons tok more ih =>
    rw [main_batch_loop, if_pos h]
    simp only
    unfold batch_calls
    by_cases hok : (handle_input env (trim tok) 0 tick).rc ≥ 0
    · have hok0 : (handle_input env (trim tok) 0 0).rc ≥ 0 := by
        rw [handle_input_rc_tick env (trim tok) 0 0 tick]
        exact hok
      rw [ih _ _ hok, List.takeWhile_cons_of_pos (by simpa using hok0)]
      unfold batch_calls
      simp
    · have hok0 : ¬ (handle_input env (trim tok) 0 0).rc ≥ 0 := by
        rw [handle_input_rc_tick env (trim tok) 0 0 tick]
        exact hok
      rw [(main_batch_loop_stopped env more _ _ (by omega)).1,
        List.takeWhile_cons_of_neg (by simpa using hok0)]
      simp

theorem take_takeWhile_succ (p : CStr → Bool) (l : List CStr) :
    l.take ((l.takeWhile p).length + 1) = l.takeWhile p ++ (l.dropWhile p).take 1 := by
  induction l with
  | nil => rfl
  | cons a t ih =>
    by_cases h : p a = true
    · rw [List.takeWhile_cons_of_pos h, List.dropWhile_cons_of_pos h, List.length_cons,
        List.take_succ_cons, ih, List.cons_append]
    · rw [List.takeWhile_cons_of_neg h, List.dropWhile_cons_of_neg h]
      rfl

theorem take_length_take (f : CStr → CStr × Int) (l : List CStr) (j : Nat) :
    (l.take j).map f = (l.map f).take ((l.take j).map f).length := by
  rw [List.map_take, List.take_eq_take]
  simp

/-- The calls asked for when the first command returns a value that is not
negative: the first command and the calls asked for of the others. -/
theorem batch_calls_cons_pos (env : Env) (tok : CStr) (more : List CStr)
    (h : (handle_input env (trim tok) 0 0).rc ≥ 0) :
    batch_calls env (tok :: more) = (trim tok, 0) :: batch_calls env more := by
  unfold batch_calls
  rw [List.takeWhile_cons_of_pos (by simpa using h)]
  simp

/-- The calls asked for when the first command returns a negative value: the
first command only. -/
theorem batch_calls_cons_neg (env : Env) (tok : CStr) (more : List CStr)
    (h : ¬ (handle_input env (trim tok) 0 0).rc ≥ 0) :
    batch_calls env (tok :: more) = [(trim tok, 0)] := by
  unfold batch_calls
  rw [List.takeWhile_cons_of_neg (by simpa using h)]
  simp

/-- The second loop of the batch branch, entered with an `rc` that is not
negative, makes the calls asked for one after the other: its value, its
events and the state it leaves the device in are those of the calls made in
order. -/
theorem main_batch_loop_in_order (env : Env) (tokens : List CStr) (rc : Int) (tick : Nat)
    (h : rc ≥ 0) :
    (main_batch_loop env tokens rc tick).rc
        = (calls_in_order env (batch_calls env tokens) rc tick).rc
      ∧ (main_batch_loop env tokens rc tick).events
        = (calls_in_order env (batch_calls env tokens) rc tick).events
      ∧ (main_batch_loop env tokens rc tick).tick
        = (calls_in_order env (batch_calls env tokens) rc tick).tick := by
  induction tokens generalizing rc tick with
  | nil => exact ⟨rfl, rfl, rfl⟩
  | cons tok more ih =>
    rw [main_batch_loop, if_pos h]
    simp only
    by_cases hok : (handle_input env (trim tok) 0 tick).rc ≥ 0
    · have hok0 : (handle_input env (trim tok) 0 0).rc ≥ 0 := by
        rw [handle_input_rc_tick env (trim tok) 0 0 tick]
        exact hok
      rw [batch_calls_cons_pos env tok more hok0]
      simp only [calls_in_order]
      obtain ⟨h1, h2, h3⟩ := ih (handle_input env (trim tok) 0 tick).rc
        (handle_input env (trim tok) 0 tick).tick hok
      exact ⟨h1, by rw [h2], h3⟩
    · have hok0 : ¬ (handle_input env (trim tok) 0 0).rc ≥ 0 := by
        rw [handle_input_rc_tick env (trim tok) 0 0 tick]
        exact hok
      obtain ⟨_, h2, h3, h4⟩ := main_batch_loop_stopped env more
        (handle_input env (trim tok) 0 tick).rc (handle_input env (trim tok) 0 tick).tick
        (by omega)
      rw [batch_calls_cons_neg env tok more hok0, h2, h3, h4]
      simp [calls_in_order]

/-- Whatever the second loop of the batch branch writes, it writes with the
socket handle 0. -/
theorem main_batch_loop_written_sockets (env : Env) (tokens : List CStr) (rc : Int)
    (tick : Nat) :
    ∀ s ∈ written_sockets (main_batch_loop env tokens rc tick).events, s = 0 := by
  induction tokens generalizing rc tick with
  | nil => simp [main_batch_loop, written_sockets]
  | cons tok more ih =>
    rw [main_batch_loop]
    by_cases h : rc ≥ 0
    · rw [if_pos h]
      exact written_sockets_append_all _ _ _ (handle_input_written_sockets env (trim tok) 0 tick)
        (ih _ _)
    · rw [if_neg h]
      simp [written_sockets]

/-- A command string of 2048 characters or more fills the array `cmdexec`
without a terminator, and the batch branch reads beyond the array. -/
theorem main_batch_buffer_full (env : Env) (optarg : CStr) (tick : Nat)
    (h : MSG_BUFFER_MAXLEN ≤ optarg.length) :
    main_batch env optarg tick = MainRun.undefined := by
  unfold main_batch main_cmdexec
  rw [if_neg (by omega)]

/-- C21, as the claim states it, fails: the command string of 2048 letters
`H` is one command, but `strncpy` fills `cmdexec` with it and stores no
terminator, so the batch branch reads beyond the array, and there is no run
of the batch branch that hands this command to `handle_input`. -/
theorem main_batch_2048_characters :
    batch_commands (List.replicate 2048 72) = [List.replicate 2048 72]
      ∧ main_batch (sample_env DataModel.LP64) (List.replicate 2048 72) 0 = MainRun.undefined
      ∧ ¬ ∃ run, main_batch (sample_env DataModel.LP64) (List.replicate 2048 72) 0
          = MainRun.batch run := by
  have hfull := main_batch_buffer_full (sample_env DataModel.LP64) (List.replicate 2048 72) 0
    (by rw [List.length_replicate]; decide)
  refine ⟨?_, hfull, ?_⟩
  · unfold batch_commands
    rw [List.splitOnP_eq_single _ _ (by
      intro x hx
      rw [List.eq_of_mem_replicate hx]
      decide)]
    rfl
  · rintro ⟨run, hrun⟩
    rw [hfull] at hrun
    exact MainRun.noConfusion hrun

/-- C21, amended: for every command string that is not empty, has fewer than
2048 characters and fewer than 100 commands, `main` takes the batch branch
and runs it to its end, and the calls of `handle_input` it makes are these: the
commands of the string in their order, each once, with white space at the
ends removed and with the socket handle 0 (the local output stream), from
the first command up to and including the first one for which `handle_input`
returns a negative value.  So the calls are a leading part of the list of
commands, every call before the last one returned a value that is not
negative, and when a command is left without call, the last call returned a
negative value.  The calls are executed one after the other: the events of
the run, the state the device is left in and the last value of `rc` are
those of the calls made in order, and everything that is written is written
with the socket handle 0. -/
theorem main_batch_dispatch (env : Env) (optarg : CStr) (tick : Nat)
    (hfirst : deref optarg ≠ 0) (hlen : optarg.length < MSG_BUFFER_MAXLEN)
    (hn : (batch_commands optarg).length < 100) :
    ∃ run, main_batch env optarg tick = MainRun.batch run
      ∧ run.calls = batch_calls env (batch_commands optarg)
      ∧ run.calls
          = ((batch_commands optarg).map (fun c => (trim c, (0 : Int)))).take run.calls.length
      ∧ (∀ c ∈ (batch_commands optarg).take (run.calls.length - 1),
          (handle_input env (trim c) 0 0).rc ≥ 0)
      ∧ (run.calls.length < (batch_commands optarg).length →
          ∃ c, run.calls.getLast? = some (trim c, 0)
            ∧ (handle_input env (trim c) 0 0).rc < 0)
      ∧ run.events = (calls_in_order env run.calls 0 tick).events
      ∧ run.tick = (calls_in_order env run.calls 0 tick).tick
      ∧ run.rc = (calls_in_order env run.calls 0 tick).rc
      ∧ (∀ s ∈ written_sockets run.events, s = 0) := by
  have htok := main_tokens_eq_batch_commands (optarg.length + 1) optarg (Nat.lt_succ_self _)
  have hcalls := main_batch_loop_calls env (batch_commands optarg) 0 tick (by decide)
  obtain ⟨hrc, hev, htick⟩ :=
    main_batch_loop_in_order env (batch_commands optarg) 0 tick (by decide)
  refine ⟨main_batch_loop env (batch_commands optarg) 0 tick, ?_, hcalls, ?_, ?_, ?_, ?_, ?_, ?_,
    main_batch_loop_written_sockets env (batch_commands optarg) 0 tick⟩
  · unfold main_batch main_cmdexec
    rw [if_pos hlen]
    simp only [htok, hn, hfirst, if_true, ne_eq, not_false_eq_true]
  · rw [hcalls]
    exact take_length_take _ _ _
  · rw [hcalls]
    unfold batch_calls
    generalize batch_commands optarg = cs
    generalize hp : (fun c => decide ((handle_input env (trim c) 0 0).rc ≥ 0)) = p
    rw [take_takeWhile_succ]
    intro c hc
    have hk : ((cs.takeWhile p ++ (cs.dropWhile p).take 1).map
        (fun c => (trim c, (0 : Int)))).length - 1 ≤ (cs.takeWhile p).length := by
      simp only [List.length_map, List.length_append, List.length_take]
      omega
    generalize ((cs.takeWhile p ++ (cs.dropWhile p).take 1).map
        (fun c => (trim c, (0 : Int)))).length - 1 = k at hc hk
    have hsplit := List.takeWhile_append_dropWhile p cs
    have hpre : cs.take k = (cs.takeWhile p).take k := by
      conv_lhs => rw [← hsplit]
      exact List.take_append_of_le_length hk
    rw [hpre] at hc
    have hpc := List.mem_takeWhile_imp (List.mem_of_mem_take hc)
    rw [← hp] at hpc
    simpa using hpc
  · rw [hcalls]
    unfold batch_calls
    generalize batch_commands optarg = cs
    generalize hp : (fun c => decide ((handle_input env (trim c) 0 0).rc ≥ 0)) = p
    rw [take_takeWhile_succ]
    intro hlt
    have hsplit := List.takeWhile_append_dropWhile p cs
    rcases hd : cs.dropWhile p with _ | ⟨c, more⟩
    · rw [hd, List.append_nil] at hsplit
      rw [hd, List.take_nil, List.append_nil, List.length_map, hsplit] at hlt
      exact absurd hlt (Nat.lt_irrefl _)
    · refine ⟨c, ?_, ?_⟩
      · simp
      · have h1 := List.head_dropWhile_not p cs (by rw [hd]; simp)
        simp only [hd, List.head_cons] at h1
        rw [← hp] at h1
        have h2 : ¬ (handle_input env (trim c) 0 0).rc ≥ 0 := by simpa using h1
        omega
  · rw [hcalls]
    exact hev
  · rw [hcalls]
    exact htick
  · rw [hcalls]
    exact hrc

/-- Witness of `main_batch_dispatch`: the command string
`SCENE 3; quit ,FS20 1112 ON`. -/
theorem main_batch_dispatch_witness :
    ∃ run, main_batch (sample_env DataModel.LP64) (cstr "SCENE 3; quit ,FS20 1112 ON") 0 = MainRun.batch run
      ∧ run.calls = batch_calls (sample_env DataModel.LP64) (batch_commands (cstr "SCENE 3; quit ,FS20 1112 ON"))
      ∧ run.calls
          = ((batch_commands (cstr "SCENE 3; quit ,FS20 1112 ON")).map
              (fun c => (trim c, (0 : Int)))).take run.calls.length
      ∧ (∀ c ∈ (batch_commands (cstr "SCENE 3; quit ,FS20 1112 ON")).take (run.calls.length - 1),
          (handle_input (sample_env DataModel.LP64) (trim c) 0 0).rc ≥ 0)
      ∧ (run.calls.length < (batch_commands (cstr "SCENE 3; quit ,FS20 1112 ON")).length →
          ∃ c, run.calls.getLast? = some (trim c, 0)
            ∧ (handle_input (sample_env DataModel.LP64) (trim c) 0 0).rc < 0)
      ∧ run.events = (calls_in_order (sample_env DataModel.LP64) run.calls 0 0).events
      ∧ run.tick = (calls_in_order (sample_env DataModel.LP64) run.calls 0 0).tick
      ∧ run.rc = (calls_in_order (sample_env DataModel.LP64) run.calls 0 0).rc
      ∧ (∀ s ∈ written_sockets run.events, s = 0) :=
  main_batch_dispatch (sample_env DataModel.LP64) (cstr "SCENE 3; quit ,FS20 1112 ON") 0
    (by decide) (by decide) (by decide)

/-- A batch run spelled out (supplement to claim C21): of the command string
`SCENE 3; quit ,FS20 1112 ON` the commands `SCENE 3` and `quit` are handed to
`handle_input`, the FS20 command is not; the only frame sent is that of the
scene, the reply goes to the socket handle 0, the device has seen one
transfer, and the last value of `rc` is that of `quit`. -/
theorem main_batch_sample :
    batch_commands (cstr "SCENE 3; quit ,FS20 1112 ON")
        = [cstr "SCENE 3", cstr " quit ", cstr "FS20 1112 ON"]
      ∧ (main_batch (sample_env DataModel.LP64) (cstr "SCENE 3; quit ,FS20 1112 ON") 0).run.map
          (fun run => run.calls)
        = some [(cstr "SCENE 3", 0), (cstr "quit", 0)]
      ∧ (main_batch (sample_env DataModel.LP64) (cstr "SCENE 3; quit ,FS20 1112 ON") 0).run.map
          (fun run => run.events)
        = some [Event.usb [0x0f, 0x03, 0, 0, 0, 0, 0, 0] false
              [UsbStep.lock, UsbStep.transfer 0x01 [0x0f, 0x03, 0, 0, 0, 0, 0, 0] 0,
                UsbStep.unlock] 0,
            Event.write 0 (cstr "OK\r\n") []]
      ∧ (main_batch (sample_env DataModel.LP64) (cstr "SCENE 3; quit ,FS20 1112 ON") 0).run.map
          (fun run => run.tick)
        = some 1
      ∧ (main_batch (sample_env DataModel.LP64) (cstr "SCENE 3; quit ,FS20 1112 ON") 0).run.map
          (fun run => run.rc)
        = some (-1) := by
  decide

/-- Two commands that both run (supplement to claim C21): of the command
string `SCENE 3,WAIT 5` both frames and replies appear in the order of the
commands, each reply with the socket handle 0. -/
theorem main_batch_two_commands :
    (main_batch (sample_env DataModel.LP64) (cstr "SCENE 3,WAIT 5") 0).run.map (fun run => run.events)
        = some [Event.usb [0x0f, 0x03, 0, 0, 0, 0, 0, 0] false
              [UsbStep.lock, UsbStep.transfer 0x01 [0x0f, 0x03, 0, 0, 0, 0, 0, 0] 0,
                UsbStep.unlock] 0,
            Event.write 0 (cstr "OK\r\n") [],
            Event.usleep 5000,
            Event.write 0 (cstr "OK\r\n") []]
      ∧ (main_batch (sample_env DataModel.LP64) (cstr "SCENE 3,WAIT 5") 0).run.map (fun run => run.rc)
        = some 0 := by
  decide

/-- The bound of 100 commands (supplement to claim C21): with 99 commands the
batch branch runs, with 100 commands the first loop stores the final NULL
beyond the array `token`. -/
theorem main_batch_token_array :
    (main_batch (sample_env DataModel.LP64) (List.replicate 99 [72, 59]).flatten 0).run.isSome = true
      ∧ (main_batch (sample_env DataModel.LP64)
          (List.replicate 100 [72, 59]).flatten 0).run.isSome = false := by
  set_option maxRecDepth 100000 in decide

/-- The empty command string (supplement to claim C21): without an option
`-c`, or with an empty argument, `*cmdexec` is zero and `main` becomes the
TCP server; no command is executed. -/
theorem main_batch_empty_string (env : Env) (tick : Nat) :
    main_batch env [] tick = MainRun.tcp_server := by
  rfl

/-! ## Claim C22: two concurrent calls of `usb_send` -/

/-- What one step of a thread does to the mutex, to the trace and to the
place of the thread: it is silent, or it locks the free mutex, or it is a
transfer or a sleep of the thread that holds the mutex, or it unlocks. -/
theorem usb_send_step_summary (dev : Device) (who : Bool) (w : World) :
    (∀ b, b ≠ who → (usb_send_step dev who w).session b = w.session b)
      ∧ (((usb_send_step dev who w).mutex_usb = w.mutex_usb
            ∧ (usb_send_step dev who w).trace = w.trace
            ∧ ((usb_send_step dev who w).session who).pc.inside = (w.session who).pc.inside
            ∧ (((usb_send_step dev who w).session who).pc = SendPc.entry
                ↔ (w.session who).pc = SendPc.entry)
            ∧ (((usb_send_step dev who w).session who).pc = SendPc.returned
                ↔ (w.session who).pc = SendPc.returned))
        ∨ ((w.session who).pc = SendPc.entry ∧ w.mutex_usb = none
            ∧ (usb_send_step dev who w).mutex_usb = some who
            ∧ ((usb_send_step dev who w).session who).pc.inside = true
            ∧ (usb_send_step dev who w).trace = w.trace ++ [(who, UsbStep.lock)])
        ∨ ((w.session who).pc.inside = true
            ∧ (usb_send_step dev who w).mutex_usb = w.mutex_usb
            ∧ ((usb_send_step dev who w).session who).pc.inside = true
            ∧ ∃ a, (usb_send_step dev who w).trace = w.trace ++ [(who, a)])
        ∨ ((w.session who).pc.inside = true
            ∧ (usb_send_step dev who w).mutex_usb = none
            ∧ ((usb_send_step dev who w).session who).pc = SendPc.returned
            ∧ (usb_send_step dev who w).trace = w.trace ++ [(who, UsbStep.unlock)])) := by
  constructor
  · intro b hb
    unfold usb_send_step
    simp only
    split <;> (try split) <;> (try split) <;> simp [World.move, hb]
  · unfold usb_send_step
    simp only
    split
    · rename_i h
      by_cases hm : w.mutex_usb = none
      · right; left
        simp [hm, h, World.move, SendPc.inside]
      · left
        simp [hm, h]
    · rename_i h
      by_cases hc : (w.session who).ret ≠ 0 ∧ (w.session who).retry > 0
      · right; right; left
        rw [if_pos hc]
        refine ⟨by simp [h, SendPc.inside], rfl, ?_, ⟨_, rfl⟩⟩
        simp only [World.move, if_true]
        split <;> rfl
      · left
        rw [if_neg hc]
        split <;> simp [World.move, h, SendPc.inside]
    · rename_i h
      right; right; left
      exact ⟨by simp [h, SendPc.inside], rfl, by simp [World.move, SendPc.inside], ⟨_, rfl⟩⟩
    · rename_i h
      by_cases hc : (w.session who).ret ≠ 0 ∧ (w.session who).retry > 0
      · right; right; left
        rw [if_pos hc]
        refine ⟨by simp [h, SendPc.inside], rfl, ?_, ⟨_, rfl⟩⟩
        simp only [World.move, if_true]
        split <;> rfl
      · left
        rw [if_neg hc]
        simp [World.move, h, SendPc.inside]
    · rename_i h
      right; right; left
      exact ⟨by simp [h, SendPc.inside], rfl, by simp [World.move, SendPc.inside], ⟨_, rfl⟩⟩
    · rename_i h
      right; right; right
      exact ⟨by simp [h, SendPc.inside], rfl, by simp [World.move], rfl⟩
    · rename_i h
      left
      simp [h]

theorem inside_cases (pc : SendPc) (h : pc.inside = false) :
    pc = SendPc.entry ∨ pc = SendPc.returned := by
  cases pc <;> simp [SendPc.inside] at h ⊢

theorem inside_not_entry (pc : SendPc) (h : pc.inside = true) :
    pc ≠ SendPc.entry ∧ pc ≠ SendPc.returned := by
  cases pc <;> simp [SendPc.inside] at h ⊢

/-- A step of the session `who` that adds one entry to the trace keeps the
trace in the form of two runs. -/
theorem serial_trace_append (w w2 : World) (who : Bool) (a : UsbStep)
    (hne_ret : (w.session who).pc ≠ SendPc.returned)
    (hne_ent : (w2.session who).pc ≠ SendPc.entry)
    (hoth : (w.session (!who)).pc = SendPc.entry ∨ (w.session (!who)).pc = SendPc.returned)
    (hsame : w2.session (!who) = w.session (!who))
    (htr : w2.trace = w.trace ++ [(who, a)])
    (hT : ∃ x tr1 tr2, w.trace = tr1 ++ tr2 ∧ (∀ p ∈ tr1, p.1 = x) ∧ (∀ p ∈ tr2, p.1 = !x)
        ∧ (tr2 ≠ [] → (w.session x).pc = SendPc.returned)
        ∧ ((w.session x).pc = SendPc.entry → tr1 = [])
        ∧ ((w.session (!x)).pc = SendPc.entry → tr2 = [])) :
    ∃ x tr1 tr2, w2.trace = tr1 ++ tr2 ∧ (∀ p ∈ tr1, p.1 = x) ∧ (∀ p ∈ tr2, p.1 = !x)
        ∧ (tr2 ≠ [] → (w2.session x).pc = SendPc.returned)
        ∧ ((w2.session x).pc = SendPc.entry → tr1 = [])
        ∧ ((w2.session (!x)).pc = SendPc.entry → tr2 = []) := by
  obtain ⟨x, tr1, tr2, h1, h2, h3, h4, h5, h6⟩ := hT
  have first_run : ∀ tr : List (Bool × UsbStep), w.trace = tr → (∀ p ∈ tr, p.1 = who) →
      ∃ x tr1 tr2, w2.trace = tr1 ++ tr2 ∧ (∀ p ∈ tr1, p.1 = x) ∧ (∀ p ∈ tr2, p.1 = !x)
        ∧ (tr2 ≠ [] → (w2.session x).pc = SendPc.returned)
        ∧ ((w2.session x).pc = SendPc.entry → tr1 = [])
        ∧ ((w2.session (!x)).pc = SendPc.entry → tr2 = []) := by
    intro tr e hall
    refine ⟨who, tr ++ [(who, a)], [], ?_, ?_, ?_, ?_, ?_, ?_⟩
    · rw [htr, e, List.append_nil]
    · intro p hp
      rcases List.mem_append.mp hp with hp | hp
      · exact hall p hp
      · rw [List.mem_singleton.mp hp]
    · intro p hp
      exact absurd hp (List.not_mem_nil p)
    · intro h
      exact absurd rfl h
    · intro h
      exact absurd h hne_ent
    · intro _
      rfl
  by_cases hx : x = who
  · subst hx
    have htr2 : tr2 = [] := by
      by_contra hne
      exact hne_ret (h4 hne)
    rw [htr2, List.append_nil] at h1
    exact first_run tr1 h1 h2
  · have hxo : x = !who := by
      cases x <;> cases who <;> simp at hx ⊢
    subst hxo
    rw [Bool.not_not] at h3 h6
    rcases hoth with hent | hret
    · have htr1 : tr1 = [] := h5 hent
      rw [htr1, List.nil_append] at h1
      exact first_run tr2 h1 h3
    · refine ⟨!who, tr1, tr2 ++ [(who, a)], ?_, h2, ?_, ?_, ?_, ?_⟩
      · rw [htr, h1, List.append_assoc]
      · intro p hp
        rw [Bool.not_not]
        rcases List.mem_append.mp hp with hp | hp
        · exact h3 p hp
        · rw [List.mem_singleton.mp hp]
      · intro _
        rw [hsame]
        exact hret
      · intro h
        rw [hsame, hret] at h
        exact absurd h (by decide)
      · intro h
        rw [Bool.not_not] at h
        exact absurd h hne_ent

/-- Every step of either thread keeps the world serial. -/
theorem serial_step (dev : Device) (who : Bool) (w : World) (h : w.serial) :
    (usb_send_step dev who w).serial := by
  obtain ⟨hM, hT⟩ := h
  obtain ⟨hsess, hcase⟩ := usb_send_step_summary dev who w
  have hother : ∀ b, b ≠ who → b = !who := by
    intro b hb
    cases b <;> cases who <;> simp at hb ⊢
  have hnw : (!who) ≠ who := by cases who <;> decide
  rcases hcase with ⟨hm, htr, hin, hent, hret⟩ | ⟨hpc, hm, hm2, hin2, htr⟩
      | ⟨hin, hm2, hin2, a, htr⟩ | ⟨hin, hm2, hpc2, htr⟩
  · -- a silent step
    have hpcs : ∀ b, (((usb_send_step dev who w).session b).pc = SendPc.entry
          ↔ (w.session b).pc = SendPc.entry)
        ∧ (((usb_send_step dev who w).session b).pc = SendPc.returned
          ↔ (w.session b).pc = SendPc.returned) := by
      intro b
      by_cases hb : b = who
      · subst hb
        exact ⟨hent, hret⟩
      · rw [hsess b hb]
        exact ⟨Iff.rfl, Iff.rfl⟩
    constructor
    · intro b
      rw [hm]
      by_cases hb : b = who
      · subst hb
        rw [hin]
        exact hM b
      · rw [hsess b hb]
        exact hM b
    · obtain ⟨x, tr1, tr2, h1, h2, h3, h4, h5, h6⟩ := hT
      refine ⟨x, tr1, tr2, by rw [htr, h1], h2, h3, ?_, ?_, ?_⟩
      · intro hne
        exact (hpcs x).2.mpr (h4 hne)
      · intro he
        exact h5 ((hpcs x).1.mp he)
      · intro he
        exact h6 ((hpcs (!x)).1.mp he)
  · -- the lock
    have hoin : (w.session (!who)).pc.inside = false := by
      cases hi : (w.session (!who)).pc.inside
      · rfl
      · have := (hM (!who)).mp hi
        rw [hm] at this
        exact absurd this (by simp)
    constructor
    · intro b
      rw [hm2]
      by_cases hb : b = who
      · subst hb
        simp [hin2]
      · have hbo := hother b hb
        rw [hsess b hb, hbo, hoin]
        simp
    · exact serial_trace_append w _ who _ (by rw [hpc]; decide)
        (inside_not_entry _ hin2).1 (inside_cases _ hoin) (hsess _ hnw) htr hT
  · -- a transfer or a sleep
    have hmw : w.mutex_usb = some who := (hM who).mp hin
    have hoin : (w.session (!who)).pc.inside = false := by
      cases hi : (w.session (!who)).pc.inside
      · rfl
      · have := (hM (!who)).mp hi
        rw [hmw] at this
        exact absurd (Option.some.inj this) (fun h => hnw h.symm)
    constructor
    · intro b
      rw [hm2]
      by_cases hb : b = who
      · subst hb
        rw [hin2, hmw]
        simp
      · rw [hsess b hb]
        exact hM b
    · exact serial_trace_append w _ who a (inside_not_entry _ hin).2
        (inside_not_entry _ hin2).1 (inside_cases _ hoin) (hsess _ hnw) htr hT
  · -- the unlock
    have hmw : w.mutex_usb = some who := (hM who).mp hin
    have hoin : (w.session (!who)).pc.inside = false := by
      cases hi : (w.session (!who)).pc.inside
      · rfl
      · have := (hM (!who)).mp hi
        rw [hmw] at this
        exact absurd (Option.some.inj this) (fun h => hnw h.symm)
    constructor
    · intro b
      rw [hm2]
      by_cases hb : b = who
      · subst hb
        rw [hpc2]
        simp [SendPc.inside]
      · have hbo := hother b hb
        rw [hsess b hb, hbo, hoin]
        simp
    · exact serial_trace_append w _ who _ (inside_not_entry _ hin).2
        (by rw [hpc2]; decide) (inside_cases _ hoin) (hsess _ hnw) htr hT

/-- The world stays serial under every schedule. -/
theorem serial_run_schedule (dev : Device) (schedule : List Bool) (w : World) (h : w.serial) :
    (run_schedule dev schedule w).serial := by
  induction schedule generalizing w with
  | nil => exact h
  | cons who more ih =>
    exact ih (usb_send_step dev who w) (serial_step dev who w h)

theorem serial_two_calls (data1 : Nat) (fexpect1 : Bool) (data2 : Nat) (fexpect2 : Bool)
    (mem : Nat → List Nat) (tick : Nat) :
    (two_calls data1 fexpect1 data2 fexpect2 mem tick).serial := by
  constructor
  · intro b
    cases b <;> simp [two_calls, SendPc.inside]
  · exact ⟨false, [], [], rfl, by simp, by simp, by simp, by simp, by simp⟩

theorem transfer_sessions_append (a b : List (Bool × UsbStep)) :
    transfer_sessions (a ++ b) = transfer_sessions a ++ transfer_sessions b := by
  induction a with
  | nil => rfl
  | cons p more ih =>
    obtain ⟨who, s⟩ := p
    cases s <;> simp [transfer_sessions, ih]

theorem transfer_sessions_of_one (x : Bool) (tr : List (Bool × UsbStep))
    (h : ∀ p ∈ tr, p.1 = x) :
    transfer_sessions tr = List.replicate (transfer_sessions tr).length x := by
  induction tr with
  | nil => rfl
  | cons p more ih =>
    obtain ⟨who, s⟩ := p
    have hw : who = x := h (who, s) (by simp)
    have ih2 := ih (fun q hq => h q (by simp [hq]))
    subst hw
    cases s with
    | transfer e d r =>
      simp only [transfer_sessions, List.length_cons, List.replicate_succ, List.cons.injEq,
        true_and]
      exact ih2
    | lock => simpa [transfer_sessions] using ih2
    | usleep u => simpa [transfer_sessions] using ih2
    | unlock => simpa [transfer_sessions] using ih2

/-- C22: two sessions call `usb_send` at the same time, each with its
parameters, on buffers that may be one and the same, and the threads run in
any order whatever.  At every moment the steps taken so far are a run of
steps of one session followed by a run of steps of the other: the transfers
on the device link are all transfers of the one call (outbound and inbound
attempts), then all transfers of the other call. -/
theorem usb_send_calls_do_not_interleave (dev : Device) (data1 : Nat) (fexpect1 : Bool)
    (data2 : Nat) (fexpect2 : Bool) (mem : Nat → List Nat) (tick : Nat)
    (schedule : List Bool) :
    ∃ x tr1 tr2,
      (run_schedule dev schedule (two_calls data1 fexpect1 data2 fexpect2 mem tick)).trace
          = tr1 ++ tr2
        ∧ (∀ p ∈ tr1, p.1 = x) ∧ (∀ p ∈ tr2, p.1 = !x)
        ∧ transfer_sessions
            (run_schedule dev schedule (two_calls data1 fexpect1 data2 fexpect2 mem tick)).trace
          = List.replicate (transfer_sessions tr1).length x
            ++ List.replicate (transfer_sessions tr2).length (!x) := by
  obtain ⟨_, x, tr1, tr2, h1, h2, h3, _, _, _⟩ := serial_run_schedule dev schedule _
    (serial_two_calls data1 fexpect1 data2 fexpect2 mem tick)
  refine ⟨x, tr1, tr2, h1, h2, h3, ?_⟩
  rw [h1, transfer_sessions_append, ← transfer_sessions_of_one x tr1 h2,
    ← transfer_sessions_of_one (!x) tr2 h3]

theorem run_schedule_append (dev : Device) (a b : List Bool) (w : World) :
    run_schedule dev (a ++ b) w = run_schedule dev b (run_schedule dev a w) := by
  unfold run_schedule
  rw [List.foldl_append]

theorem run_schedule_replicate_add (dev : Device) (who : Bool) (m n : Nat) (w : World) :
    run_schedule dev (List.replicate (m + n) who) w
      = run_schedule dev (List.replicate n who) (run_schedule dev (List.replicate m who) w) := by
  rw [List.replicate_add, run_schedule_append]

theorem run_schedule_one (dev : Device) (who : Bool) (w : World) :
    run_schedule dev (List.replicate 1 who) w = usb_send_step dev who w := rfl

theorem World.move_self (w : World) (who : Bool) :
    w.move who (w.session who) w.mutex_usb w.mem w.tick [] = w := by
  cases w with
  | mk session mutex_usb mem tick trace =>
    simp only [World.move, List.map_nil, List.append_nil, World.mk.injEq, and_true]
    funext b
    by_cases hb : b = who
    · rw [if_pos hb, hb]
    · rw [if_neg hb]

theorem World.move_move (w : World) (who : Bool) (s1 s2 : SendState) (m1 m2 : Option Bool)
    (mem1 mem2 : Nat → List Nat) (t1 t2 : Nat) (l1 l2 : List UsbStep) :
    (w.move who s1 m1 mem1 t1 l1).move who s2 m2 mem2 t2 l2
      = w.move who s2 m2 mem2 t2 (l1 ++ l2) := by
  simp only [World.move, List.map_append, List.append_assoc, World.mk.injEq, and_true]
  funext b
  by_cases hb : b = who <;> simp [hb]

theorem World.move_session (w : World) (who : Bool) (s : SendState) (m : Option Bool)
    (mem : Nat → List Nat) (t : Nat) (l : List UsbStep) :
    (w.move who s m mem t l).session who = s := by
  simp [World.move]

/-- The first loop of `usb_send`, step by step: a thread that stands at the
test of the loop and runs alone comes to stand at the test with the loop
condition false, and what it has done by then is what `usb_send_out` says. -/
theorem usb_send_step_out_loop (dev : Device) (who : Bool) (p : Nat) (f : Bool) (err : Int)
    (retry : Nat) (ret : Int) (w : World)
    (hs : w.session who = ⟨SendPc.out_test, p, f, retry, ret, err⟩) :
    ∃ n, run_schedule dev (List.replicate n who) w
        = w.move who
            ⟨SendPc.out_test, p, f, (usb_send_out dev (w.mem p) retry ret w.tick).retry,
              (usb_send_out dev (w.mem p) retry ret w.tick).ret, err⟩
            w.mutex_usb w.mem (usb_send_out dev (w.mem p) retry ret w.tick).tick
            (usb_send_out dev (w.mem p) retry ret w.tick).steps
      ∧ ¬ ((usb_send_out dev (w.mem p) retry ret w.tick).ret ≠ 0
            ∧ (usb_send_out dev (w.mem p) retry ret w.tick).retry > 0) := by
  induction retry generalizing ret w with
  | zero =>
    refine ⟨0, ?_, ?_⟩
    · simp only [usb_send_out]
      rw [← hs]
      exact (World.move_self w who).symm
    · simp [usb_send_out]
  | succ k ih =>
    by_cases hret : ret = 0
    · refine ⟨0, ?_, ?_⟩
      · rw [usb_send_out, if_neg (by simp [hret])]
        simp only
        rw [← hs]
        exact (World.move_self w who).symm
      · rw [usb_send_out, if_neg (by simp [hret])]
        simp [hret]
    · have hgo : ret ≠ 0 ∧ k + 1 > 0 := ⟨hret, Nat.succ_pos k⟩
      have hstep : usb_send_step dev who w
          = w.move who
              ⟨if dev.xferOut w.tick (w.mem p) ≠ 0 ∧ k > 0 then SendPc.out_sleep
                else SendPc.out_test, p, f, k, dev.xferOut w.tick (w.mem p), err⟩
              w.mutex_usb w.mem (w.tick + 1)
              [UsbStep.transfer 0x01 (w.mem p) (dev.xferOut w.tick (w.mem p))] := by
        unfold usb_send_step
        simp only [hs]
        rw [if_pos hgo]
        rfl
      have hbig : usb_send_out dev (w.mem p) (k + 1) ret w.tick
          = ⟨(usb_send_out dev (w.mem p) k (dev.xferOut w.tick (w.mem p)) (w.tick + 1)).ret,
             (usb_send_out dev (w.mem p) k (dev.xferOut w.tick (w.mem p)) (w.tick + 1)).retry,
             (usb_send_out dev (w.mem p) k (dev.xferOut w.tick (w.mem p)) (w.tick + 1)).data,
             (usb_send_out dev (w.mem p) k (dev.xferOut w.tick (w.mem p)) (w.tick + 1)).tick,
             UsbStep.transfer 0x01 (w.mem p) (dev.xferOut w.tick (w.mem p))
               :: ((if dev.xferOut w.tick (w.mem p) ≠ 0 ∧ k > 0
                     then [UsbStep.usleep (USB_WAIT_ON_ERROR * 1000)] else [])
                   ++ (usb_send_out dev (w.mem p) k (dev.xferOut w.tick (w.mem p))
                        (w.tick + 1)).steps)⟩ := by
        rw [usb_send_out, if_pos hret]
        rfl
      by_cases hsl : dev.xferOut w.tick (w.mem p) ≠ 0 ∧ k > 0
      · rw [if_pos hsl] at hstep
        have hstep2 : usb_send_step dev who (usb_send_step dev who w)
            = w.move who ⟨SendPc.out_test, p, f, k, dev.xferOut w.tick (w.mem p), err⟩
                w.mutex_usb w.mem (w.tick + 1)
                [UsbStep.transfer 0x01 (w.mem p) (dev.xferOut w.tick (w.mem p)),
                  UsbStep.usleep (USB_WAIT_ON_ERROR * 1000)] := by
          rw [hstep]
          unfold usb_send_step
          simp only [World.move_session]
          rw [World.move_move]
          rfl
        obtain ⟨n, hn, hcond⟩ := ih (dev.xferOut w.tick (w.mem p))
          (w.move who ⟨SendPc.out_test, p, f, k, dev.xferOut w.tick (w.mem p), err⟩
            w.mutex_usb w.mem (w.tick + 1)
            [UsbStep.transfer 0x01 (w.mem p) (dev.xferOut w.tick (w.mem p)),
              UsbStep.usleep (USB_WAIT_ON_ERROR * 1000)])
          (World.move_session _ _ _ _ _ _ _)
        refine ⟨2 + n, ?_, ?_⟩
        · rw [run_schedule_replicate_add]
          have h2 : run_schedule dev (List.replicate 2 who) w
              = usb_send_step dev who (usb_send_step dev who w) := rfl
          rw [h2, hstep2, hn, World.move_move, hbig, if_pos hsl]
          rfl
        · rw [hbig]
          exact hcond
      · rw [if_neg hsl] at hstep
        obtain ⟨n, hn, hcond⟩ := ih (dev.xferOut w.tick (w.mem p))
          (w.move who ⟨SendPc.out_test, p, f, k, dev.xferOut w.tick (w.mem p), err⟩
            w.mutex_usb w.mem (w.tick + 1)
            [UsbStep.transfer 0x01 (w.mem p) (dev.xferOut w.tick (w.mem p))])
          (World.move_session _ _ _ _ _ _ _)
        refine ⟨1 + n, ?_, ?_⟩
        · rw [run_schedule_replicate_add, run_schedule_one, hstep, hn, World.move_move, hbig,
            if_neg hsl]
          rfl
        · rw [hbig]
          exact hcond

theorem mem_update_self (mem : Nat → List Nat) (p : Nat) :
    (fun q => if q = p then mem p else mem q) = mem := by
  funext q
  by_cases hq : q = p
  · rw [if_pos hq, hq]
  · rw [if_neg hq]

theorem mem_update_update (mem : Nat → List Nat) (p : Nat) (a b : List Nat) :
    (fun q => if q = p then b else (fun r => if r = p then a else mem r) q)
      = (fun q => if q = p then b else mem q) := by
  funext q
  by_cases hq : q = p <;> simp [hq]

/-- The second loop of `usb_send`, step by step: a thread that stands at the
test of the loop and runs alone comes to stand at the test with the loop
condition false, and what it has done by then is what `usb_send_in` says. -/
theorem usb_send_step_in_loop (dev : Device) (who : Bool) (p : Nat) (f : Bool) (err : Int)
    (retry : Nat) (ret : Int) (w : World)
    (hs : w.session who = ⟨SendPc.in_test, p, f, retry, ret, err⟩) :
    ∃ n, run_schedule dev (List.replicate n who) w
        = w.move who
            ⟨SendPc.in_test, p, f, (usb_send_in dev retry ret (w.mem p) w.tick).retry,
              (usb_send_in dev retry ret (w.mem p) w.tick).ret, err⟩
            w.mutex_usb
            (fun q => if q = p then (usb_send_in dev retry ret (w.mem p) w.tick).data
              else w.mem q)
            (usb_send_in dev retry ret (w.mem p) w.tick).tick
            (usb_send_in dev retry ret (w.mem p) w.tick).steps
      ∧ ¬ ((usb_send_in dev retry ret (w.mem p) w.tick).ret ≠ 0
            ∧ (usb_send_in dev retry ret (w.mem p) w.tick).retry > 0) := by
  induction retry generalizing ret w with
  | zero =>
    refine ⟨0, ?_, ?_⟩
    · simp only [usb_send_in]
      rw [← hs, mem_update_self]
      exact (World.move_self w who).symm
    · simp [usb_send_in]
  | succ k ih =>
    by_cases hret : ret = 0
    · refine ⟨0, ?_, ?_⟩
      · rw [usb_send_in, if_neg (by simp [hret])]
        simp only
        rw [← hs, mem_update_self]
        exact (World.move_self w who).symm
      · rw [usb_send_in, if_neg (by simp [hret])]
        simp [hret]
    · have hgo : ret ≠ 0 ∧ k + 1 > 0 := ⟨hret, Nat.succ_pos k⟩
      have hstep : usb_send_step dev who w
          = w.move who
              ⟨if (dev.xferIn w.tick (w.mem p)).1 ≠ 0 ∧ k > 0 then SendPc.in_sleep
                else SendPc.in_test, p, f, k, (dev.xferIn w.tick (w.mem p)).1, err⟩
              w.mutex_usb (fun q => if q = p then (dev.xferIn w.tick (w.mem p)).2 else w.mem q)
              (w.tick + 1)
              [UsbStep.transfer 0x82 (dev.xferIn w.tick (w.mem p)).2
                (dev.xferIn w.tick (w.mem p)).1] := by
        unfold usb_send_step
        simp only [hs]
        rw [if_pos hgo]
        rfl
      have hbig : usb_send_in dev (k + 1) ret (w.mem p) w.tick
          = ⟨(usb_send_in dev k (dev.xferIn w.tick (w.mem p)).1 (dev.xferIn w.tick (w.mem p)).2
                (w.tick + 1)).ret,
             (usb_send_in dev k (dev.xferIn w.tick (w.mem p)).1 (dev.xferIn w.tick (w.mem p)).2
                (w.tick + 1)).retry,
             (usb_send_in dev k (dev.xferIn w.tick (w.mem p)).1 (dev.xferIn w.tick (w.mem p)).2
                (w.tick + 1)).data,
             (usb_send_in dev k (dev.xferIn w.tick (w.mem p)).1 (dev.xferIn w.tick (w.mem p)).2
                (w.tick + 1)).tick,
             UsbStep.transfer 0x82 (dev.xferIn w.tick (w.mem p)).2
                 (dev.xferIn w.tick (w.mem p)).1
               :: ((if (dev.xferIn w.tick (w.mem p)).1 ≠ 0 ∧ k > 0
                     then [UsbStep.usleep (USB_WAIT_ON_ERROR * 1000)] else [])
                   ++ (usb_send_in dev k (dev.xferIn w.tick (w.mem p)).1
                        (dev.xferIn w.tick (w.mem p)).2 (w.tick + 1)).steps)⟩ := by
        rw [usb_send_in, if_pos hret]
        rfl
      generalize dev.xferIn w.tick (w.mem p) = x at hstep hbig
      by_cases hsl : x.1 ≠ 0 ∧ k > 0
      · rw [if_pos hsl] at hstep
        have hstep2 : usb_send_step dev who (usb_send_step dev who w)
            = w.move who ⟨SendPc.in_test, p, f, k, x.1, err⟩
                w.mutex_usb (fun q => if q = p then x.2 else w.mem q) (w.tick + 1)
                [UsbStep.transfer 0x82 x.2 x.1, UsbStep.usleep (USB_WAIT_ON_ERROR * 1000)] := by
          rw [hstep]
          unfold usb_send_step
          simp only [World.move_session]
          rw [World.move_move]
          rfl
        obtain ⟨n, hn, hcond⟩ := ih x.1
          (w.move who ⟨SendPc.in_test, p, f, k, x.1, err⟩
            w.mutex_usb (fun q => if q = p then x.2 else w.mem q) (w.tick + 1)
            [UsbStep.transfer 0x82 x.2 x.1, UsbStep.usleep (USB_WAIT_ON_ERROR * 1000)])
          (World.move_session _ _ _ _ _ _ _)
        have em : (w.move who ⟨SendPc.in_test, p, f, k, x.1, err⟩
            w.mutex_usb (fun q => if q = p then x.2 else w.mem q) (w.tick + 1)
            [UsbStep.transfer 0x82 x.2 x.1, UsbStep.usleep (USB_WAIT_ON_ERROR * 1000)]).mem p
              = x.2 := by
          simp [World.move]
        rw [em] at hn hcond
        refine ⟨2 + n, ?_, ?_⟩
        · rw [run_schedule_replicate_add]
          have h2 : run_schedule dev (List.replicate 2 who) w
              = usb_send_step dev who (usb_send_step dev who w) := rfl
          rw [h2, hstep2, hn, World.move_move, hbig, if_pos hsl]
          simp only [World.move, mem_update_update]
          rfl
        · rw [hbig]
          exact hcond
      · rw [if_neg hsl] at hstep
        obtain ⟨n, hn, hcond⟩ := ih x.1
          (w.move who ⟨SendPc.in_test, p, f, k, x.1, err⟩
            w.mutex_usb (fun q => if q = p then x.2 else w.mem q) (w.tick + 1)
            [UsbStep.transfer 0x82 x.2 x.1])
          (World.move_session _ _ _ _ _ _ _)
        have em : (w.move who ⟨SendPc.in_test, p, f, k, x.1, err⟩
            w.mutex_usb (fun q => if q = p then x.2 else w.mem q) (w.tick + 1)
            [UsbStep.transfer 0x82 x.2 x.1]).mem p = x.2 := by
          simp [World.move]
        rw [em] at hn hcond
        refine ⟨1 + n, ?_, ?_⟩
        · rw [run_schedule_replicate_add, run_schedule_one, hstep, hn, World.move_move, hbig,
            if_neg hsl]
          simp only [World.move, mem_update_update]
          rfl
        · rw [hbig]
          exact hcond

/-- A call of `usb_send` that runs alone, step by step, does what the function
`usb_send` says (supplement to claim C22): from a world in which the mutex is
free and the session `who` is about to call `usb_send`, the thread of `who`
comes to the end of the call, and by then it has taken the steps of
`usb_send`, the variable `err` holds the value `usb_send` returns, the buffer
holds what `usb_send` leaves in it, and the mutex is free again. -/
theorem usb_send_step_alone (dev : Device) (who : Bool) (p : Nat) (f : Bool)
    (retry0 : Nat) (ret0 : Int) (w : World)
    (hs : w.session who = ⟨SendPc.entry, p, f, retry0, ret0, 0⟩) (hm : w.mutex_usb = none) :
    ∃ n retry ret, run_schedule dev (List.replicate n who) w
      = w.move who ⟨SendPc.returned, p, f, retry, ret, (usb_send dev (w.mem p) f w.tick).err⟩
          none (fun q => if q = p then (usb_send dev (w.mem p) f w.tick).data else w.mem q)
          (usb_send dev (w.mem p) f w.tick).tick (usb_send dev (w.mem p) f w.tick).steps := by
  have h1 : usb_send_step dev who w
      = w.move who ⟨SendPc.out_test, p, f, USB_MAX_RETRY, -1, 0⟩ (some who) w.mem w.tick
          [UsbStep.lock] := by
    unfold usb_send_step
    simp only [hs, hm, if_true]
  obtain ⟨n1, hn1, hc1⟩ := usb_send_step_out_loop dev who p f 0 USB_MAX_RETRY (-1)
    (w.move who ⟨SendPc.out_test, p, f, USB_MAX_RETRY, -1, 0⟩ (some who) w.mem w.tick
      [UsbStep.lock]) (World.move_session _ _ _ _ _ _ _)
  have hdata := (usb_send_out_spec dev (w.mem p) USB_MAX_RETRY (-1) w.tick).2.2.2.1
  have e2 : run_schedule dev (List.replicate (1 + n1) who) w
      = w.move who
          ⟨SendPc.out_test, p, f, (usb_send_out dev (w.mem p) USB_MAX_RETRY (-1) w.tick).retry,
            (usb_send_out dev (w.mem p) USB_MAX_RETRY (-1) w.tick).ret, 0⟩
          (some who) w.mem (usb_send_out dev (w.mem p) USB_MAX_RETRY (-1) w.tick).tick
          ([UsbStep.lock] ++ (usb_send_out dev (w.mem p) USB_MAX_RETRY (-1) w.tick).steps) := by
    rw [run_schedule_replicate_add, run_schedule_one, h1, hn1, World.move_move]
    rfl
  have hc1b : ¬ ((usb_send_out dev (w.mem p) USB_MAX_RETRY (-1) w.tick).ret ≠ 0
      ∧ (usb_send_out dev (w.mem p) USB_MAX_RETRY (-1) w.tick).retry > 0) := hc1
  cases f with
  | false =>
    rw [usb_send_eq_false]
    generalize usb_send_out dev (w.mem p) USB_MAX_RETRY (-1) w.tick = o at e2 hc1b hdata ⊢
    have e3 : run_schedule dev (List.replicate (1 + n1 + 1) who) w
        = w.move who
            ⟨SendPc.leave, p, false, o.retry, o.ret,
              if o.ret ≠ 0 ∧ o.retry = 0 then o.ret else 0⟩
            (some who) w.mem o.tick ([UsbStep.lock] ++ o.steps ++ []) := by
      rw [run_schedule_replicate_add, run_schedule_one, e2]
      unfold usb_send_step
      simp only [World.move_session]
      rw [if_neg hc1b]
      simp only [Bool.false_eq_true, if_false]
      rw [World.move_move]
      rfl
    have e4 : run_schedule dev (List.replicate (1 + n1 + 1 + 1) who) w
        = w.move who
            ⟨SendPc.returned, p, false, o.retry, o.ret,
              if o.ret ≠ 0 ∧ o.retry = 0 then o.ret else 0⟩
            none w.mem o.tick ([UsbStep.lock] ++ o.steps ++ [] ++ [UsbStep.unlock]) := by
      rw [run_schedule_replicate_add, run_schedule_one, e3]
      unfold usb_send_step
      simp only [World.move_session]
      rw [World.move_move]
      rfl
    refine ⟨1 + n1 + 1 + 1, o.retry, o.ret, ?_⟩
    rw [e4]
    simp only [hdata, mem_update_self, List.append_nil]
  | true =>
    rw [usb_send_eq_true]
    obtain ⟨n2, hn2, hc2⟩ := usb_send_step_in_loop dev who p true
      (if (usb_send_out dev (w.mem p) USB_MAX_RETRY (-1) w.tick).ret ≠ 0
          ∧ (usb_send_out dev (w.mem p) USB_MAX_RETRY (-1) w.tick).retry = 0
        then (usb_send_out dev (w.mem p) USB_MAX_RETRY (-1) w.tick).ret else 0)
      USB_MAX_RETRY (-1)
      (w.move who
        ⟨SendPc.in_test, p, true, USB_MAX_RETRY, -1,
          if (usb_send_out dev (w.mem p) USB_MAX_RETRY (-1) w.tick).ret ≠ 0
              ∧ (usb_send_out dev (w.mem p) USB_MAX_RETRY (-1) w.tick).retry = 0
            then (usb_send_out dev (w.mem p) USB_MAX_RETRY (-1) w.tick).ret else 0⟩
        (some who) w.mem (usb_send_out dev (w.mem p) USB_MAX_RETRY (-1) w.tick).tick
        ([UsbStep.lock] ++ (usb_send_out dev (w.mem p) USB_MAX_RETRY (-1) w.tick).steps ++ []))
      (World.move_session _ _ _ _ _ _ _)
    have hc2b : ¬ ((usb_send_in dev USB_MAX_RETRY (-1) (w.mem p)
          (usb_send_out dev (w.mem p) USB_MAX_RETRY (-1) w.tick).tick).ret ≠ 0
        ∧ (usb_send_in dev USB_MAX_RETRY (-1) (w.mem p)
          (usb_send_out dev (w.mem p) USB_MAX_RETRY (-1) w.tick).tick).retry > 0) := hc2
    rw [hdata]
    generalize usb_send_out dev (w.mem p) USB_MAX_RETRY (-1) w.tick = o at e2 hc1b hn2 hc2b ⊢
    have e3 : run_schedule dev (List.replicate (1 + n1 + 1) who) w
        = w.move who
            ⟨SendPc.in_test, p, true, USB_MAX_RETRY, -1,
              if o.ret ≠ 0 ∧ o.retry = 0 then o.ret else 0⟩
            (some who) w.mem o.tick ([UsbStep.lock] ++ o.steps ++ []) := by
      rw [run_schedule_replicate_add, run_schedule_one, e2]
      unfold usb_send_step
      simp only [World.move_session]
      rw [if_neg hc1b]
      simp only [if_true]
      rw [World.move_move]
      rfl
    have e4 : run_schedule dev (List.replicate (1 + n1 + 1 + n2) who) w
        = w.move who
            ⟨SendPc.in_test, p, true,
              (usb_send_in dev USB_MAX_RETRY (-1) (w.mem p) o.tick).retry,
              (usb_send_in dev USB_MAX_RETRY (-1) (w.mem p) o.tick).ret,
              if o.ret ≠ 0 ∧ o.retry = 0 then o.ret else 0⟩
            (some who)
            (fun q => if q = p then (usb_send_in dev USB_MAX_RETRY (-1) (w.mem p) o.tick).data
              else w.mem q)
            (usb_send_in dev USB_MAX_RETRY (-1) (w.mem p) o.tick).tick
            ([UsbStep.lock] ++ o.steps ++ []
              ++ (usb_send_in dev USB_MAX_RETRY (-1) (w.mem p) o.tick).steps) := by
      rw [run_schedule_replicate_add, e3, hn2, World.move_move]
      rfl
    generalize usb_send_in dev USB_MAX_RETRY (-1) (w.mem p) o.tick = i at e4 hc2b ⊢
    have e5 : run_schedule dev (List.replicate (1 + n1 + 1 + n2 + 1) who) w
        = w.move who
            ⟨SendPc.leave, p, true, i.retry, i.ret,
              if i.ret ≠ 0 ∧ i.retry = 0 then i.ret
              else if o.ret ≠ 0 ∧ o.retry = 0 then o.ret else 0⟩
            (some who) (fun q => if q = p then i.data else w.mem q) i.tick
            ([UsbStep.lock] ++ o.steps ++ [] ++ i.steps ++ []) := by
      rw [run_schedule_replicate_add, run_schedule_one, e4]
      unfold usb_send_step
      simp only [World.move_session]
      rw [if_neg hc2b, World.move_move]
      rfl
    have e6 : run_schedule dev (List.replicate (1 + n1 + 1 + n2 + 1 + 1) who) w
        = w.move who
            ⟨SendPc.returned, p, true, i.retry, i.ret,
              if i.ret ≠ 0 ∧ i.retry = 0 then i.ret
              else if o.ret ≠ 0 ∧ o.retry = 0 then o.ret else 0⟩
            none (fun q => if q = p then i.data else w.mem q) i.tick
            ([UsbStep.lock] ++ o.steps ++ [] ++ i.steps ++ [] ++ [UsbStep.unlock]) := by
      rw [run_schedule_replicate_add, run_schedule_one, e5]
      unfold usb_send_step
      simp only [World.move_session]
      rw [World.move_move]
      rfl
    refine ⟨1 + n1 + 1 + n2 + 1 + 1, i.retry, i.ret, ?_⟩
    rw [e6]
    simp only [List.append_nil]

/-- Both calls can run to their end (supplement to claim C22): there is a
schedule under which the first session makes its whole call and then the
second session makes its whole call; the trace is then the steps of
`usb_send` for the first call followed by the steps of `usb_send` for the
second call, which starts at the transfer count and with the buffers the
first call has left. -/
theorem usb_send_two_calls_in_turn (dev : Device) (data1 : Nat) (fexpect1 : Bool) (data2 : Nat)
    (fexpect2 : Bool) (mem : Nat → List Nat) (tick : Nat) :
    ∃ schedule,
      (run_schedule dev schedule (two_calls data1 fexpect1 data2 fexpect2 mem tick)).trace
          = (usb_send dev (mem data1) fexpect1 tick).steps.map (fun a => (false, a))
            ++ (usb_send dev
                  (if data2 = data1 then (usb_send dev (mem data1) fexpect1 tick).data
                    else mem data2)
                  fexpect2 (usb_send dev (mem data1) fexpect1 tick).tick).steps.map
                (fun a => (true, a))
        ∧ ((run_schedule dev schedule
              (two_calls data1 fexpect1 data2 fexpect2 mem tick)).session false).pc
            = SendPc.returned
        ∧ ((run_schedule dev schedule
              (two_calls data1 fexpect1 data2 fexpect2 mem tick)).session true).pc
            = SendPc.returned
        ∧ ((run_schedule dev schedule
              (two_calls data1 fexpect1 data2 fexpect2 mem tick)).session false).err
            = (usb_send dev (mem data1) fexpect1 tick).err
        ∧ ((run_schedule dev schedule
              (two_calls data1 fexpect1 data2 fexpect2 mem tick)).session true).err
            = (usb_send dev
                  (if data2 = data1 then (usb_send dev (mem data1) fexpect1 tick).data
                    else mem data2)
                  fexpect2 (usb_send dev (mem data1) fexpect1 tick).tick).err := by
  obtain ⟨n1, r1, t1, h1⟩ := usb_send_step_alone dev false data1 fexpect1 0 0
    (two_calls data1 fexpect1 data2 fexpect2 mem tick) rfl rfl
  obtain ⟨n2, r2, t2, h2⟩ := usb_send_step_alone dev true data2 fexpect2 0 0
    (run_schedule dev (List.replicate n1 false)
      (two_calls data1 fexpect1 data2 fexpect2 mem tick))
    (by rw [h1]; rfl) (by rw [h1]; rfl)
  refine ⟨List.replicate n1 false ++ List.replicate n2 true, ?_⟩
  rw [run_schedule_append, h2, h1]
  exact ⟨rfl, rfl, rfl, rfl, rfl⟩

/-- Two calls under an alternating schedule, spelled out (supplement to claim
C22): on the dead device the first session sends a frame without expected
response, the second a frame with expected response from the same buffer, and
the threads take turns step by step.  The second thread waits for the mutex until the first
has unlocked it; the five transfers of the first call come before the ten
transfers of the second, and each session has taken the steps of
`usb_send`. -/
theorem usb_send_two_calls_alternating :
    transfer_sessions
        (run_schedule dead_device (List.replicate 34 [false, true]).flatten
          (two_calls 0 false 0 true (fun _ => [1, 2, 3, 4, 5, 6, 7, 8]) 0)).trace
        = List.replicate 5 false ++ List.replicate 10 true
      ∧ steps_of false
          (run_schedule dead_device (List.replicate 34 [false, true]).flatten
            (two_calls 0 false 0 true (fun _ => [1, 2, 3, 4, 5, 6, 7, 8]) 0)).trace
        = (usb_send dead_device [1, 2, 3, 4, 5, 6, 7, 8] false 0).steps
      ∧ steps_of true
          (run_schedule dead_device (List.replicate 34 [false, true]).flatten
            (two_calls 0 false 0 true (fun _ => [1, 2, 3, 4, 5, 6, 7, 8]) 0)).trace
        = (usb_send dead_device [1, 2, 3, 4, 5, 6, 7, 8] true 5).steps
      ∧ ((run_schedule dead_device (List.replicate 34 [false, true]).flatten
            (two_calls 0 false 0 true (fun _ => [1, 2, 3, 4, 5, 6, 7, 8]) 0)).session true).pc
        = SendPc.returned := by
  set_option maxRecDepth 100000 in decide

/-! ## Claim C23: the value returned by `usb_send` -/

/-- C23: `usb_send` returns 0 if and only if a transfer of the outbound phase
returned 0 and, when a response is expected, a transfer of the inbound phase
returned 0 as well.  The outbound phase makes between one and five transfers;
when a response is expected the inbound phase makes between one and five
transfers too, whatever the outbound phase came to, and all of them after the
last outbound transfer; without expected response there is no inbound
transfer.  A call whose outbound transfers all failed returns a value other
than 0, whatever the inbound phase came to. -/
theorem usb_send_returns_zero_iff (dev : Device) (device_data : List Nat) (fexpectdata : Bool)
    (tick : Nat) :
    ((usb_send dev device_data fexpectdata tick).err = 0
        ↔ (0 : Int) ∈ transfer_rets 0x01 (usb_send dev device_data fexpectdata tick).steps
          ∧ (fexpectdata = true →
              (0 : Int) ∈ transfer_rets 0x82 (usb_send dev device_data fexpectdata tick).steps))
      ∧ 1 ≤ (transfer_rets 0x01 (usb_send dev device_data fexpectdata tick).steps).length
      ∧ (transfer_rets 0x01 (usb_send dev device_data fexpectdata tick).steps).length ≤ 5
      ∧ (fexpectdata = true →
          1 ≤ (transfer_rets 0x82 (usb_send dev device_data fexpectdata tick).steps).length
          ∧ (transfer_rets 0x82 (usb_send dev device_data fexpectdata tick).steps).length ≤ 5)
      ∧ (fexpectdata = false →
          transfer_rets 0x82 (usb_send dev device_data fexpectdata tick).steps = [])
      ∧ transfer_endpoints (usb_send dev device_data fexpectdata tick).steps
        = List.replicate
            (transfer_rets 0x01 (usb_send dev device_data fexpectdata tick).steps).length 0x01
          ++ List.replicate
            (transfer_rets 0x82 (usb_send dev device_data fexpectdata tick).steps).length 0x82
      ∧ ((0 : Int) ∉ transfer_rets 0x01 (usb_send dev device_data fexpectdata tick).steps →
          (usb_send dev device_data fexpectdata tick).err ≠ 0) := by
  obtain ⟨o1, o2, o3, _, o5⟩ := usb_send_out_spec dev device_data USB_MAX_RETRY (-1) tick
  obtain ⟨olen, oiff⟩ := o5 (by decide) (by decide)
  have h5 : USB_MAX_RETRY = 5 := rfl
  cases fexpectdata with
  | false =>
    obtain ⟨hs, he⟩ := usb_send_steps_false dev device_data tick
    have r1 : transfer_rets 0x01 (usb_send dev device_data false tick).steps
        = transfer_rets 0x01 (usb_send_out dev device_data USB_MAX_RETRY (-1) tick).steps := by
      rw [hs, transfer_rets_append, transfer_rets_append]
      simp [transfer_rets]
    have r2 : transfer_rets 0x82 (usb_send dev device_data false tick).steps = [] := by
      rw [hs, transfer_rets_append, transfer_rets_append, o2]
      simp [transfer_rets]
    have r3 : transfer_endpoints (usb_send dev device_data false tick).steps
        = transfer_endpoints (usb_send_out dev device_data USB_MAX_RETRY (-1) tick).steps := by
      rw [hs, transfer_endpoints_append, transfer_endpoints_append]
      simp [transfer_endpoints]
    rw [r1, r2, r3, he]
    generalize usb_send_out dev device_data USB_MAX_RETRY (-1) tick = o at *
    have herr : (if o.ret ≠ 0 ∧ o.retry = 0 then o.ret else 0) = 0
        ↔ (0 : Int) ∈ transfer_rets 0x01 o.steps := by
      by_cases hc : o.ret ≠ 0 ∧ o.retry = 0
      · rw [if_pos hc]
        exact ⟨fun h => absurd h hc.1, fun h => absurd h (oiff.mp hc)⟩
      · rw [if_neg hc]
        exact ⟨fun _ => by_contra (fun h => hc (oiff.mpr h)), fun _ => rfl⟩
    refine ⟨?_, olen, by omega, ?_, fun _ => rfl, ?_, ?_⟩
    · rw [herr]
      simp
    · intro h
      exact absurd h (by decide)
    · rw [o1]
      simp
    · intro h hz
      exact h (herr.mp hz)
  | true =>
    obtain ⟨hs, he⟩ := usb_send_steps_true dev device_data tick
    obtain ⟨j1, j2, j3, j5⟩ := usb_send_in_spec dev USB_MAX_RETRY (-1) device_data
      (usb_send_out dev device_data USB_MAX_RETRY (-1) tick).tick
    obtain ⟨ilen, iiff⟩ := j5 (by decide) (by decide)
    have r1 : transfer_rets 0x01 (usb_send dev device_data true tick).steps
        = transfer_rets 0x01 (usb_send_out dev device_data USB_MAX_RETRY (-1) tick).steps := by
      rw [hs, transfer_rets_append, transfer_rets_append, transfer_rets_append, j2]
      simp [transfer_rets]
    have r2 : transfer_rets 0x82 (usb_send dev device_data true tick).steps
        = transfer_rets 0x82 (usb_send_in dev USB_MAX_RETRY (-1) device_data
            (usb_send_out dev device_data USB_MAX_RETRY (-1) tick).tick).steps := by
      rw [hs, transfer_rets_append, transfer_rets_append, transfer_rets_append, o2]
      simp [transfer_rets]
    have r3 : transfer_endpoints (usb_send dev device_data true tick).steps
        = transfer_endpoints (usb_send_out dev device_data USB_MAX_RETRY (-1) tick).steps
          ++ transfer_endpoints (usb_send_in dev USB_MAX_RETRY (-1) device_data
            (usb_send_out dev device_data USB_MAX_RETRY (-1) tick).tick).steps := by
      rw [hs, transfer_endpoints_append, transfer_endpoints_append, transfer_endpoints_append]
      simp [transfer_endpoints]
    rw [r1, r2, r3, he, o1, j1]
    generalize usb_send_in dev USB_MAX_RETRY (-1) device_data
      (usb_send_out dev device_data USB_MAX_RETRY (-1) tick).tick = i at *
    generalize usb_send_out dev device_data USB_MAX_RETRY (-1) tick = o at *
    have herr : (if i.ret ≠ 0 ∧ i.retry = 0 then i.ret
          else if o.ret ≠ 0 ∧ o.retry = 0 then o.ret else 0) = 0
        ↔ (0 : Int) ∈ transfer_rets 0x01 o.steps ∧ (0 : Int) ∈ transfer_rets 0x82 i.steps := by
      by_cases hi : i.ret ≠ 0 ∧ i.retry = 0
      · rw [if_pos hi]
        exact ⟨fun h => absurd h hi.1, fun h => absurd h.2 (iiff.mp hi)⟩
      · rw [if_neg hi]
        have hin : (0 : Int) ∈ transfer_rets 0x82 i.steps :=
          by_contra (fun h => hi (iiff.mpr h))
        by_cases hc : o.ret ≠ 0 ∧ o.retry = 0
        · rw [if_pos hc]
          exact ⟨fun h => absurd h hc.1, fun h => absurd h.1 (oiff.mp hc)⟩
        · rw [if_neg hc]
          exact ⟨fun _ => ⟨by_contra (fun h => hc (oiff.mpr h)), hin⟩, fun _ => rfl⟩
    refine ⟨?_, olen, by omega, fun _ => ⟨ilen, by omega⟩, ?_, rfl, ?_⟩
    · rw [herr]
      simp
    · intro h
      exact absurd h (by decide)
    · intro h hz
      exact h (herr.mp hz).1

/-- An outbound failure is not cleared (supplement to claim C23): on a device
on which every outbound transfer fails and every inbound transfer succeeds, a
call that expects a response makes five outbound transfers and one inbound
transfer and returns the error code of the last outbound transfer. -/
theorem usb_send_outbound_failure_kept :
    (usb_send ⟨fun _ _ => -7, fun _ data => (0, data)⟩ [9, 0, 0, 0, 0, 0, 0, 0] true 0).err = -7
      ∧ transfer_rets 0x01
          (usb_send ⟨fun _ _ => -7, fun _ data => (0, data)⟩ [9, 0, 0, 0, 0, 0, 0, 0] true 0).steps
        = [-7, -7, -7, -7, -7]
      ∧ transfer_rets 0x82
          (usb_send ⟨fun _ _ => -7, fun _ data => (0, data)⟩ [9, 0, 0, 0, 0, 0, 0, 0] true 0).steps
        = [0] := by
  decide

/-! ## Claim C24: an FS20 action token that is no keyword and no number -/

theorem strtol_no_digits (dm : DataModel) (ptr : CStr)
    (hhead : isspace (deref ptr) = false ∧ ¬ (48 ≤ deref ptr ∧ deref ptr ≤ 57)
      ∧ deref ptr ≠ 43 ∧ deref ptr ≠ 45) :
    strtol dm ptr = (0, false) := by
  obtain ⟨hsp, hdig, hplus, hminus⟩ := hhead
  have hmax : ¬ ((0 : Int) > LONG_MAX dm) := by
    have := LONG_MAX_ge dm
    omega
  cases ptr with
  | nil =>
    unfold strtol
    simp [deref, strtol_digits, hmax]
  | cons c t =>
    have hc : deref (c :: t) = c := rfl
    rw [hc] at hsp hdig hplus hminus
    unfold strtol
    rw [List.dropWhile_cons_of_neg (by simp [hsp])]
    simp only [hc, hplus, hminus, if_false, strtol_digits, hdig]
    simp [hmax]

/-- The FS20 branch on an action token that no keyword matches and that
starts with neither a digit, a sign nor white space: `strtol` reads it as 0
without error, `cmd` becomes 0 and the frame is sent. -/
theorem handle_input_FS20_cmd_word (env : Env) (addr : Int) (ptr : CStr) (socket_handle : Int)
    (tick : Nat)
    (hk : ∀ kw ∈ [cstr "ON", cstr "OFF", cstr "TOGGLE", cstr "UP", cstr "+", cstr "DOWN",
      cstr "-"], cmdcompare ptr kw ≠ 0)
    (hhead : isspace (deref ptr) = false ∧ ¬ (48 ≤ deref ptr ∧ deref ptr ≤ 57)
      ∧ deref ptr ≠ 43 ∧ deref ptr ≠ 45) :
    handle_input_FS20_cmd env addr ptr socket_handle tick
      = send_and_reply env
          [0x01, env.housecode / 256 % 256, env.housecode % 256, toByte addr, 0x00, 0x00, 0x03,
            0x00]
          socket_handle tick [] := by
  have k1 : ¬ cmdcompare ptr (cstr "ON") = 0 := hk _ (by simp)
  have k2 : ¬ cmdcompare ptr (cstr "OFF") = 0 := hk _ (by simp)
  have k3 : ¬ cmdcompare ptr (cstr "TOGGLE") = 0 := hk _ (by simp)
  have k4 : ¬ cmdcompare ptr (cstr "UP") = 0 := hk _ (by simp)
  have k5 : ¬ cmdcompare ptr (cstr "+") = 0 := hk _ (by simp)
  have k6 : ¬ cmdcompare ptr (cstr "DOWN") = 0 := hk _ (by simp)
  have k7 : ¬ cmdcompare ptr (cstr "-") = 0 := hk _ (by simp)
  have hw : wrap32 0 = 0 := by decide
  have hw2 : Int.tdiv (wrap32 (16 * 0)) 100 = 0 := by decide
  have hb : toByte (0x01 * 0) = 0 := by decide
  have hcond : ¬ (false = true ∨ (0 : Int) < 0 ∨ (0 : Int) > 16) := by decide
  have hge : (0x01 : Int) * 0 ≥ 0 := by decide
  unfold handle_input_FS20_cmd
  simp only [k1, k2, k3, k4, k5, k6, k7, if_false, or_self,
    strtol_no_digits env.dataModel ptr hhead, hw, hw2, ite_self, hcond, hge, if_true,
    usbcmd_FS20, hb]

/-- C24: an FS20 command with an accepted address and an action token that
no keyword matches and that starts with neither a digit, a sign nor white
space, such as `abc`, is not turned away: the token is read as the dim level
0 and the frame with action byte 0, the frame of OFF, is sent; the claim says
an error about the <cmd> parameter is written and no frame is sent. -/
theorem handle_input_FS20_word_sent_as_dim_0 (env : Env) (a w : CStr) (socket_handle : Int)
    (tick : Nat) (ha : a ≠ []) (had : ∀ c ∈ a, c ∉ delimiter) (hpos : 0 < fs20toi env.charSigned a)
    (hw : w ≠ []) (hwd : ∀ c ∈ w, c ∉ delimiter)
    (hk : ∀ kw ∈ [cstr "ON", cstr "OFF", cstr "TOGGLE", cstr "UP", cstr "+", cstr "DOWN",
      cstr "-"], cmdcompare w kw ≠ 0)
    (hhead : isspace (deref w) = false ∧ ¬ (48 ≤ deref w ∧ deref w ≤ 57)
      ∧ deref w ≠ 43 ∧ deref w ≠ 45) :
    handle_input env (cstr "FS20 " ++ a ++ 32 :: w) socket_handle tick
      = send_and_reply env
          [0x01, env.housecode / 256 % 256, env.housecode % 256, toByte (fs20toi env.charSigned a), 0x00, 0x00,
            0x03, 0x00]
          socket_handle tick [] := by
  rw [List.append_assoc, handle_input_FS20_line]
  unfold handle_input_FS20
  rw [strtok_token_sep a _ 32 ha had (by decide)]
  simp only [gt_iff_lt, hpos, if_true]
  rw [strtok_token_end w hw hwd]
  simp only
  rw [handle_input_FS20_cmd_word env _ w socket_handle tick hk hhead]

/-- Witness of `handle_input_FS20_word_sent_as_dim_0`: the line
`FS20 1112 abc`. -/
theorem handle_input_FS20_word_sent_as_dim_0_witness :
    handle_input (sample_env DataModel.LP64) (cstr "FS20 " ++ cstr "1112" ++ 32 :: cstr "abc") 0 0
      = send_and_reply (sample_env DataModel.LP64)
          [0x01, (sample_env DataModel.LP64).housecode / 256 % 256,
            (sample_env DataModel.LP64).housecode % 256,
            toByte (fs20toi (sample_env DataModel.LP64).charSigned (cstr "1112")), 0x00,
            0x00, 0x03, 0x00] 0 0 [] :=
  handle_input_FS20_word_sent_as_dim_0 (sample_env DataModel.LP64) (cstr "1112") (cstr "abc") 0 0
    (by decide) (by decide) (by decide) (by decide) (by decide) (by decide) (by decide)

/-- The reply about an unknown <cmd> parameter is dead code (supplement to
claim C24): whatever the action token, the FS20 branch never writes it,
because `cmd` is either a keyword code, a dim level or -2, never -1. -/
theorem handle_input_FS20_cmd_never_unknown (env : Env) (addr : Int) (ptr : CStr)
    (socket_handle : Int) (tick : Nat) :
    cstr "FS20: unknown <cmd> parameter \x27%s\x27\r\n"
      ∉ written_formats (handle_input_FS20_cmd env addr ptr socket_handle tick).events := by
  have hne1 : cstr "FS20: unknown <cmd> parameter \x27%s\x27\r\n" ≠ cstr "OK\r\n" := by decide
  have hne2 : cstr "FS20: unknown <cmd> parameter \x27%s\x27\r\n"
      ≠ cstr "USB communication error\r\n" := by decide
  have hne3 : cstr "FS20: unknown <cmd> parameter \x27%s\x27\r\n"
      ≠ cstr "FS20: Wrong dim level (must be within 0-16 or 0%-100%)\r\n" := by decide
  have hsend : ∀ (frame : List Nat),
      cstr "FS20: unknown <cmd> parameter \x27%s\x27\r\n"
        ∉ written_formats (send_and_reply env frame socket_handle tick []).events := by
    intro frame
    unfold send_and_reply
    by_cases h : (usb_send env.dev frame false tick).err ≠ 0
    · simp only [List.nil_append, if_pos h, written_formats, List.mem_singleton]
      exact hne2
    · simp only [List.nil_append, if_neg h, written_formats, List.mem_singleton]
      exact hne1
  unfold handle_input_FS20_cmd
  by_cases c1 : cmdcompare ptr (cstr "ON") = 0
  · simp only [c1, if_true]
    rw [if_pos (by decide)]
    exact hsend _
  by_cases c2 : cmdcompare ptr (cstr "OFF") = 0
  · simp only [c1, c2, if_true, if_false]
    rw [if_pos (by decide)]
    exact hsend _
  by_cases c3 : cmdcompare ptr (cstr "TOGGLE") = 0
  · simp only [c1, c2, c3, if_true, if_false]
    rw [if_pos (by decide)]
    exact hsend _
  by_cases c4 : cmdcompare ptr (cstr "UP") = 0 ∨ cmdcompare ptr (cstr "+") = 0
  · simp only [c1, c2, c3, c4, if_true, if_false]
    rw [if_pos (by decide)]
    exact hsend _
  by_cases c5 : cmdcompare ptr (cstr "DOWN") = 0 ∨ cmdcompare ptr (cstr "-") = 0
  · simp only [c1, c2, c3, c4, c5, if_true, if_false]
    rw [if_pos (by decide)]
    exact hsend _
  simp only [c1, c2, c3, c4, c5, if_false]
  generalize (if ptr.getLast? = some 37
      then Int.tdiv (wrap32 (16 * wrap32 (strtol env.dataModel ptr).1)) 100
      else wrap32 (strtol env.dataModel ptr).1) = dim
  by_cases hbad : (strtol env.dataModel ptr).2 = true ∨ dim < 0 ∨ dim > 16
  · simp only [if_pos hbad]
    rw [if_neg (by decide), if_neg (by decide)]
    simp only [written_formats, List.mem_singleton]
    exact hne3
  · have hge : 0x01 * dim ≥ 0 := by
      have : ¬ dim < 0 := fun h => hbad (Or.inr (Or.inl h))
      omega
    simp only [if_neg hbad, hge, if_true]
    exact hsend _

/-- More tokens that are sent as a dim level (supplement to claim C24):
`abc%` and `x9` are sent as level 0, `5abc` as level 5. -/
theorem handle_input_FS20_word_samples :
    sent_frames (handle_input (sample_env DataModel.LP64) (cstr "FS20 1112 abc%") 0 0).events
        = [[0x01, 0x12, 0x34, 0x01, 0x00, 0x00, 0x03, 0x00]]
      ∧ sent_frames (handle_input (sample_env DataModel.ILP32) (cstr "FS20 1112 x9") 0 0).events
        = [[0x01, 0x12, 0x34, 0x01, 0x00, 0x00, 0x03, 0x00]]
      ∧ sent_frames (handle_input (sample_env DataModel.LP64) (cstr "FS20 1112 5abc") 0 0).events
        = [[0x01, 0x12, 0x34, 0x01, 0x05, 0x00, 0x03, 0x00]]
      ∧ written_formats
          (handle_input (sample_env DataModel.LP64) (cstr "FS20 1112 abc") 0 0).events
        = [cstr "OK\r\n"] := by
  decide

/-! ## Claim C25: a time token that does not parse -/

theorem written_formats_append (a b : List Event) :
    written_formats (a ++ b) = written_formats a ++ written_formats b := by
  induction a with
  | nil => rfl
  | cons e es ih =>
    cases e <;> simp [written_formats, ih]

theorem written_formats_send_and_reply (env : Env) (usbcmd : List Nat) (socket_handle : Int)
    (tick : Nat) (before : List Event) :
    written_formats (send_and_reply env usbcmd socket_handle tick before).events
      = written_formats before
        ++ [if (usb_send env.dev usbcmd false tick).err = 0 then cstr "OK\r\n"
            else cstr "USB communication error\r\n"] := by
  unfold send_and_reply
  simp only [written_formats_append]
  by_cases h : (usb_send env.dev usbcmd false tick).err = 0 <;> simp [h, written_formats]

/-- C25: a time token of an accepted length on which `strptime` reports
failure is not turned away.  For every token of an accepted length and
whatever `strptime` does with it, `handle_input` drops the pointer `strptime`
returns: the three frames of SET CLOCK are sent, the first made from whatever
`strptime` left in the `struct tm`, and the only reply is `OK` or the
communication error, by the value the third call of `usb_send` returned; when
`strptime` returned NULL and left the `struct tm` alone, the frames are those
of `SET CLOCK` without time token, so the device clock is set to the local
time.  The claim says no frame is sent and an error is replied. -/
theorem handle_input_SET_CLOCK_parse_failure (env : Env)
    (strptime_full : CStr → CStr → Tm → Option CStr × Tm) (tok fmt : CStr)
    (socket_handle : Int) (tick : Nat) (hdel : ∀ c ∈ tok, c ∉ delimiter)
    (hmem : (tok.length, fmt) ∈ [(8, cstr "%m%d%H%M"), (10, cstr "%m%d%H%M%y"),
      (11, cstr "%m%d%H%M.%S"), (12, cstr "%m%d%H%M%Y"), (13, cstr "%m%d%H%M%y.%S"),
      (15, cstr "%m%d%H%M%Y.%S")]) :
    (sent_frames (handle_input (env_with_strptime env strptime_full)
        (cstr "SET CLOCK " ++ tok) socket_handle tick).events).length = 3
      ∧ (sent_frames (handle_input (env_with_strptime env strptime_full)
          (cstr "SET CLOCK " ++ tok) socket_handle tick).events).drop 1
        = [[0x00, 0x00, 0x0d, 0x00, 0x00, 0x00, 0x00, 0x00],
           [0x06, 0x02, 0x01, 0x02, 0x00, 0x00, 0x00, 0x00]]
      ∧ (written_formats (handle_input (env_with_strptime env strptime_full)
            (cstr "SET CLOCK " ++ tok) socket_handle tick).events = [cstr "OK\r\n"]
          ∨ written_formats (handle_input (env_with_strptime env strptime_full)
            (cstr "SET CLOCK " ++ tok) socket_handle tick).events
              = [cstr "USB communication error\r\n"])
      ∧ (strptime_full tok fmt env.localtime = (none, env.localtime) →
          sent_frames (handle_input (env_with_strptime env strptime_full)
              (cstr "SET CLOCK " ++ tok) socket_handle tick).events
            = sent_frames (handle_input (env_with_strptime env strptime_full)
              (cstr "SET CLOCK") socket_handle tick).events) := by
  obtain ⟨a, b, h⟩ := handle_input_SET_CLOCK_time (env_with_strptime env strptime_full)
    (cstr "SET CLOCK " ++ tok) ((strptime_full tok fmt env.localtime).2) socket_handle tick
    (Or.inr ⟨tok, fmt, hdel, hmem, rfl, rfl⟩)
  obtain ⟨a2, b2, h2⟩ := handle_input_SET_CLOCK_time (env_with_strptime env strptime_full)
    (cstr "SET CLOCK") env.localtime socket_handle tick (Or.inl ⟨rfl, rfl⟩)
  rw [h, h2, sent_frames_send_and_reply, sent_frames_send_and_reply,
    written_formats_send_and_reply]
  refine ⟨rfl, rfl, ?_, ?_⟩
  · simp only [written_formats, List.nil_append]
    split
    · exact Or.inl rfl
    · exact Or.inr rfl
  · intro hsame
    rw [hsame]
    rfl

/-- Witness of `handle_input_SET_CLOCK_parse_failure`: the line
`SET CLOCK abcdefgh`, with a `strptime` that fails. -/
theorem handle_input_SET_CLOCK_parse_failure_witness :
    (sent_frames (handle_input (env_with_strptime (sample_env DataModel.LP64) failing_strptime)
        (cstr "SET CLOCK " ++ cstr "abcdefgh") 0 0).events).length = 3
      ∧ (sent_frames (handle_input (env_with_strptime (sample_env DataModel.LP64) failing_strptime)
          (cstr "SET CLOCK " ++ cstr "abcdefgh") 0 0).events).drop 1
        = [[0x00, 0x00, 0x0d, 0x00, 0x00, 0x00, 0x00, 0x00],
           [0x06, 0x02, 0x01, 0x02, 0x00, 0x00, 0x00, 0x00]]
      ∧ (written_formats (handle_input
            (env_with_strptime (sample_env DataModel.LP64) failing_strptime)
            (cstr "SET CLOCK " ++ cstr "abcdefgh") 0 0).events = [cstr "OK\r\n"]
          ∨ written_formats (handle_input
            (env_with_strptime (sample_env DataModel.LP64) failing_strptime)
            (cstr "SET CLOCK " ++ cstr "abcdefgh") 0 0).events
              = [cstr "USB communication error\r\n"])
      ∧ (failing_strptime (cstr "abcdefgh") (cstr "%m%d%H%M")
            (sample_env DataModel.LP64).localtime = (none, (sample_env DataModel.LP64).localtime) →
          sent_frames (handle_input
              (env_with_strptime (sample_env DataModel.LP64) failing_strptime)
              (cstr "SET CLOCK " ++ cstr "abcdefgh") 0 0).events
            = sent_frames (handle_input
              (env_with_strptime (sample_env DataModel.LP64) failing_strptime)
              (cstr "SET CLOCK") 0 0).events) :=
  handle_input_SET_CLOCK_parse_failure (sample_env DataModel.LP64) failing_strptime
    (cstr "abcdefgh") (cstr "%m%d%H%M") 0 0 (by decide) (by decide)

/-- The line `SET CLOCK abcdefgh` spelled out (supplement to claim C25): with
a `strptime` that fails and the local time Friday 2026-10-30 14:37:05, the
frames of that local time are sent and the reply is `OK`. -/
theorem handle_input_SET_CLOCK_abcdefgh :
    sent_frames (handle_input (env_with_strptime (sample_env DataModel.LP64) failing_strptime)
        (cstr "SET CLOCK abcdefgh") 0 0).events
        = [[0x08, 0x05, 0x37, 0x14, 0x30, 0x10, 0x05, 0x26],
           [0x00, 0x00, 0x0d, 0x00, 0x00, 0x00, 0x00, 0x00],
           [0x06, 0x02, 0x01, 0x02, 0x00, 0x00, 0x00, 0x00]]
      ∧ written_formats
          (handle_input (env_with_strptime (sample_env DataModel.LP64) failing_strptime)
            (cstr "SET CLOCK abcdefgh") 0 0).events
        = [cstr "OK\r\n"] := by
  decide

/-! ## Claim C26: FS20 percentages above 100 -/

/-- The FS20 line with a percentage p whose product 16*p fits an `int`: the
frame is sent if and only if 16*p/100, rounded down, is at most 16, that is
if and only if p ≤ 106. -/
theorem handle_input_FS20_percent_in_int_range (env : Env) (a : CStr) (ds : List Nat)
    (socket_handle : Int) (tick : Nat) (ha : a ≠ []) (had : ∀ c ∈ a, c ∉ delimiter)
    (hpos : 0 < fs20toi env.charSigned a) (hne : ds ≠ []) (hd : ∀ d ∈ ds, d ≤ 9)
    (hp : ds.foldl (fun a d => a * 10 + d) 0 ≤ 134217727) :
    handle_input env (cstr "FS20 " ++ a ++ 32 :: (ds.map (fun d => 48 + d) ++ cstr "%"))
        socket_handle tick
      = (if ds.foldl (fun a d => a * 10 + d) 0 ≤ 106 then
          send_and_reply env
            [0x01, env.housecode / 256 % 256, env.housecode % 256, toByte (fs20toi env.charSigned a),
              16 * ds.foldl (fun a d => a * 10 + d) 0 / 100, 0x00, 0x03, 0x00]
            socket_handle tick []
         else
          ⟨0, [Event.write socket_handle
            (cstr "FS20: Wrong dim level (must be within 0-16 or 0%-100%)\r\n") []], tick⟩) := by
  have hpc : cstr "%" = [37] := by decide
  have htail : ¬ (48 ≤ deref [37] ∧ deref [37] ≤ 57) := by decide
  have hst := strtol_decimal_small env.dataModel ds [37] hne hd htail (by omega)
  have hnd := decimal_token_no_delimiter ds [37] hd (by decide)
  have hlast := getLast_decimal_percent ds
  rw [hpc, List.append_assoc, handle_input_FS20_line]
  unfold handle_input_FS20
  rw [strtok_token_sep a _ 32 ha had (by decide)]
  simp only [gt_iff_lt, hpos, if_true]
  rw [strtok_token_end _ (by simp) hnd]
  simp only
  cases ds with
  | nil => exact absurd rfl hne
  | cons d ds =>
    have h9 : d ≤ 9 := hd d (by simp)
    simp only [List.map_cons, List.cons_append] at hst hlast ⊢
    rw [handle_input_FS20_cmd_digit env _ d _ socket_handle tick h9 _ _ rfl rfl]
    simp only [hst, hlast, if_true]
    generalize List.foldl (fun a d => a * 10 + d) 0 (d :: ds) = p at hp ⊢
    have e1 : wrap32 (p : Int) = p := by unfold wrap32; omega
    have e2 : wrap32 (16 * (p : Int)) = ((16 * p : Nat) : Int) := by
      unfold wrap32; push_cast; omega
    have e3 : Int.tdiv ((16 * p : Nat) : Int) 100 = ((16 * p / 100 : Nat) : Int) := by
      rw [Int.ofNat_tdiv]; rfl
    rw [e1, e2, e3]
    by_cases h106 : p ≤ 106
    · have hlt : 16 * p / 100 ≤ 16 := by omega
      rw [if_neg (by simp; omega), if_pos h106, toByte_natCast _ (by omega)]
    · have hgt : 16 < 16 * p / 100 := by omega
      rw [if_pos (by simp; omega), if_neg h106]

/-- C26: the percentages 101 to 106 are not turned away.  For every accepted
address and every p with 101 ≤ p ≤ 106, written with any number of decimal
digits, the line `FS20 <addr> p%` sends the frame with the action byte 16,
the frame of 100%, and the wrong-dim-level message is not written; the claim
says every percentage above 100 gets that message and no frame. -/
theorem handle_input_FS20_percent_101_to_106 (env : Env) (a : CStr) (ds : List Nat)
    (socket_handle : Int) (tick : Nat) (ha : a ≠ []) (had : ∀ c ∈ a, c ∉ delimiter)
    (hpos : 0 < fs20toi env.charSigned a) (hd : ∀ d ∈ ds, d ≤ 9)
    (hp : 101 ≤ ds.foldl (fun a d => a * 10 + d) 0 ∧ ds.foldl (fun a d => a * 10 + d) 0 ≤ 106) :
    handle_input env (cstr "FS20 " ++ a ++ 32 :: (ds.map (fun d => 48 + d) ++ cstr "%"))
        socket_handle tick
      = send_and_reply env
          [0x01, env.housecode / 256 % 256, env.housecode % 256, toByte (fs20toi env.charSigned a), 16, 0x00,
            0x03, 0x00]
          socket_handle tick [] := by
  have hne : ds ≠ [] := by
    intro h
    subst h
    simp at hp
  rw [handle_input_FS20_percent_in_int_range env a ds socket_handle tick ha had hpos hne hd
    (by omega), if_pos hp.2]
  have e : 16 * ds.foldl (fun a d => a * 10 + d) 0 / 100 = 16 := by omega
  rw [e]

/-- Witness of `handle_input_FS20_percent_101_to_106`: the line
`FS20 1112 101%`. -/
theorem handle_input_FS20_percent_101_to_106_witness :
    handle_input (sample_env DataModel.ILP32)
        (cstr "FS20 " ++ cstr "1112" ++ 32 :: ([1, 0, 1].map (fun d => 48 + d) ++ cstr "%")) 0 0
      = send_and_reply (sample_env DataModel.ILP32)
          [0x01, (sample_env DataModel.ILP32).housecode / 256 % 256,
            (sample_env DataModel.ILP32).housecode % 256,
            toByte (fs20toi (sample_env DataModel.ILP32).charSigned (cstr "1112")), 16,
            0x00, 0x03, 0x00] 0 0 [] :=
  handle_input_FS20_percent_101_to_106 (sample_env DataModel.ILP32) (cstr "1112") [1, 0, 1] 0 0
    (by decide) (by decide) (by decide) (by decide) (by decide)

/-- Percentages at the border and beyond the range of `int` (supplement to
claim C26): `106%` is sent as level 16 and `107%` is turned away; the product
16 * 268435456 wraps to 0 in `int`, so `268435456%` is sent as level 0 on
either data model. -/
theorem handle_input_FS20_percent_samples :
    sent_frames (handle_input (sample_env DataModel.LP64) (cstr "FS20 1112 106%") 0 0).events
        = [[0x01, 0x12, 0x34, 0x01, 16, 0x00, 0x03, 0x00]]
      ∧ (handle_input (sample_env DataModel.LP64) (cstr "FS20 1112 107%") 0 0).events
        = [Event.write 0 (cstr "FS20: Wrong dim level (must be within 0-16 or 0%-100%)\r\n") []]
      ∧ sent_frames
          (handle_input (sample_env DataModel.LP64) (cstr "FS20 1112 268435456%") 0 0).events
        = [[0x01, 0x12, 0x34, 0x01, 0, 0x00, 0x03, 0x00]]
      ∧ sent_frames
          (handle_input (sample_env DataModel.ILP32) (cstr "FS20 1112 268435456%") 0 0).events
        = [[0x01, 0x12, 0x34, 0x01, 0, 0x00, 0x03, 0x00]] := by
  decide

/-! ## Claim C27: decoding, then encoding -/

/-- C27: for every code c with 0 ≤ c ≤ 0xffff, whatever the buffer held
before, `fs20toi` gives c back on the text `itofs20` makes of c without
separator; the text has two digit pairs (four characters) when c ≤ 0xff and
four digit pairs (eight characters) otherwise. -/
theorem fs20toi_itofs20_roundtrip (charSigned : Bool) (buf : Mem) (c : Nat)
    (h : c ≤ 0xffff) :
    fs20toi charSigned (itofs20 buf (c : Int) none) = (c : Int)
      ∧ (itofs20 buf (c : Int) none).length = (if c ≤ 0xff then 4 else 8) := by
  by_cases hs : c ≤ 255
  · rw [itofs20_short buf c hs, if_pos hs]
    refine ⟨?_, rfl⟩
    have e := fs20toi_two_pairs charSigned (c / 16 % 16 / 4 + 1) (c / 16 % 16 % 4 + 1) (c % 16 / 4 + 1)
      (c % 16 % 4 + 1) (by omega) (by omega) (by omega) (by omega)
    have e1 : 49 + c / 16 % 16 / 4 = 48 + (c / 16 % 16 / 4 + 1) := by omega
    have e2 : 49 + c / 16 % 16 % 4 = 48 + (c / 16 % 16 % 4 + 1) := by omega
    have e3 : 49 + c % 16 / 4 = 48 + (c % 16 / 4 + 1) := by omega
    have e4 : 49 + c % 16 % 4 = 48 + (c % 16 % 4 + 1) := by omega
    rw [e1, e2, e3, e4, e]
    refine congrArg (fun n : Nat => (n : Int)) ?_
    omega
  · rw [itofs20_long buf c (by omega), if_neg hs]
    refine ⟨?_, rfl⟩
    have e := fs20toi_four_pairs charSigned (c / 4096 % 16 / 4 + 1) (c / 4096 % 16 % 4 + 1)
      (c / 256 % 16 / 4 + 1) (c / 256 % 16 % 4 + 1) (c / 16 % 16 / 4 + 1) (c / 16 % 16 % 4 + 1)
      (c % 16 / 4 + 1) (c % 16 % 4 + 1) (by omega) (by omega) (by omega) (by omega) (by omega)
      (by omega) (by omega) (by omega)
    have e1 : 49 + c / 16 % 16 / 4 = 48 + (c / 16 % 16 / 4 + 1) := by omega
    have e2 : 49 + c / 16 % 16 % 4 = 48 + (c / 16 % 16 % 4 + 1) := by omega
    have e3 : 49 + c % 16 / 4 = 48 + (c % 16 / 4 + 1) := by omega
    have e4 : 49 + c % 16 % 4 = 48 + (c % 16 % 4 + 1) := by omega
    have e5 : 49 + c / 256 % 16 / 4 = 48 + (c / 256 % 16 / 4 + 1) := by omega
    have e6 : 49 + c / 256 % 16 % 4 = 48 + (c / 256 % 16 % 4 + 1) := by omega
    have e7 : 49 + c / 4096 % 16 / 4 = 48 + (c / 4096 % 16 / 4 + 1) := by omega
    have e8 : 49 + c / 4096 % 16 % 4 = 48 + (c / 4096 % 16 % 4 + 1) := by omega
    rw [e1, e2, e3, e4, e5, e6, e7, e8, e]
    refine congrArg (fun n : Nat => (n : Int)) ?_
    omega

/-- Witness of `fs20toi_itofs20_roundtrip`: the housecode 0x1234. -/
theorem fs20toi_itofs20_roundtrip_witness :
    fs20toi true (itofs20 (fun _ => 0) ((0x1234 : Nat) : Int) none) = ((0x1234 : Nat) : Int)
      ∧ (itofs20 (fun _ => 0) ((0x1234 : Nat) : Int) none).length
          = (if 0x1234 ≤ 0xff then 4 else 8) :=
  fs20toi_itofs20_roundtrip true (fun _ => 0) 0x1234 (by decide)

/-- Both forms of the text spelled out (supplement to claim C27): the code
0x1b gives `1234`, the code 0x1234 gives `12131421`, the largest code 0xffff
gives `44444444`, and each text encodes to its code. -/
theorem fs20toi_itofs20_samples :
    itofs20 (fun _ => 0) 0x1b none = cstr "1234" ∧ fs20toi true (cstr "1234") = 0x1b
      ∧ itofs20 (fun _ => 0) 0x1234 none = cstr "12131421"
      ∧ fs20toi true (cstr "12131421") = 0x1234
      ∧ itofs20 (fun _ => 0) 0xffff none = cstr "44444444"
      ∧ fs20toi false (cstr "44444444") = 0xffff := by
  decide

/-! ## Claim C28: a line that starts with a delimiter -/

theorem strtok_first_token (input : CStr) (h : ∃ c ∈ input, c ∉ delimiter) :
    strtok delimiter input
      = some ((input.dropWhile (fun c => delimiter.contains c)).takeWhile
                (fun c => !delimiter.contains c),
              ((input.dropWhile (fun c => delimiter.contains c)).dropWhile
                (fun c => !delimiter.contains c)).drop 1) := by
  unfold strtok
  rcases hd : input.dropWhile (fun c => delimiter.contains c) with _ | ⟨c, cs⟩
  · obtain ⟨c, hc, hnd⟩ := h
    have hall := List.dropWhile_eq_nil_iff.mp hd c hc
    exact absurd (by simpa using hall) hnd
  · rfl

theorem strtok_no_token (input : CStr) (h : ∀ c ∈ input, c ∈ delimiter) :
    strtok delimiter input = none := by
  unfold strtok
  have hd : input.dropWhile (fun c => delimiter.contains c) = [] :=
    List.dropWhile_eq_nil_iff.mpr (fun c hc => by simpa using h c hc)
  rw [hd]

/-- The dispatcher on a line whose first character, as the keyword
comparisons see it, is `,` or `;`: no keyword matches. -/
theorem handle_input_unknown_of_head (env : Env) (input ptr rest : CStr) (socket_handle : Int)
    (tick : Nat) (hs : strtok delimiter input = some (ptr, rest))
    (hd : deref (input_after_strtok input ptr) = 44 ∨ deref (input_after_strtok input ptr) = 59) :
    handle_input env input socket_handle tick
      = ⟨0, [Event.write socket_handle (cstr "\x1brror - unknown command \x27%s\x27\r\n")
          [Arg.str ptr]], tick⟩ := by
  generalize hinp : input_after_strtok input ptr = inp at hd
  have hlt : deref inp < 256 := by omega
  have hup : toupper (deref inp) = deref inp := by
    unfold toupper
    rw [if_neg (by omega)]
  have hH : cmdcompare inp (cstr "H") = 0 → toupper (deref inp) = 72 :=
    cmdcompare_zero_head inp 72 [] hlt (by decide)
  have hq : cmdcompare inp (cstr "?") = 0 → toupper (deref inp) = 63 :=
    cmdcompare_zero_head inp 63 [] hlt (by decide)
  have hF : cmdcompare inp (cstr "FS20") = 0 → toupper (deref inp) = 70 :=
    cmdcompare_zero_head inp 70 [83, 50, 48] hlt (by decide)
  have hU : cmdcompare inp (cstr "UNI") = 0 → toupper (deref inp) = 85 :=
    cmdcompare_zero_head inp 85 [78, 73] hlt (by decide)
  have hI : cmdcompare inp (cstr "IT") = 0 → toupper (deref inp) = 73 :=
    cmdcompare_zero_head inp 73 [84] hlt (by decide)
  have hI2 : cmdcompare inp (cstr "InterTechno") = 0 → toupper (deref inp) = 73 :=
    cmdcompare_zero_head inp 73 (cstr "nterTechno") hlt (by decide)
  have hS : cmdcompare inp (cstr "SCENE") = 0 → toupper (deref inp) = 83 :=
    cmdcompare_zero_head inp 83 (cstr "CENE") hlt (by decide)
  have hG : cmdcompare inp (cstr "GET") = 0 → toupper (deref inp) = 71 :=
    cmdcompare_zero_head inp 71 (cstr "ET") hlt (by decide)
  have hSe : cmdcompare inp (cstr "SET") = 0 → toupper (deref inp) = 83 :=
    cmdcompare_zero_head inp 83 (cstr "ET") hlt (by decide)
  have hW : cmdcompare inp (cstr "WAIT") = 0 → toupper (deref inp) = 87 :=
    cmdcompare_zero_head inp 87 (cstr "AIT") hlt (by decide)
  have hQU : cmdcompare inp (cstr "QUIT") = 0 → toupper (deref inp) = 81 :=
    cmdcompare_zero_head inp 81 (cstr "UIT") hlt (by decide)
  have hQ : cmdcompare inp (cstr "Q") = 0 → toupper (deref inp) = 81 :=
    cmdcompare_zero_head inp 81 [] hlt (by decide)
  have hEX : cmdcompare inp (cstr "EXIT") = 0 → toupper (deref inp) = 69 :=
    cmdcompare_zero_head inp 69 (cstr "XIT") hlt (by decide)
  have hE : cmdcompare inp (cstr "E") = 0 → toupper (deref inp) = 69 :=
    cmdcompare_zero_head inp 69 [] hlt (by decide)
  rw [hup] at hH hq hF hU hI hI2 hS hG hSe hW hQU hQ hEX hE
  have key : ∀ (kw : CStr) (k : Nat), (cmdcompare inp kw = 0 → deref inp = k) → k ≠ 44 →
      k ≠ 59 → ¬ cmdcompare inp kw = 0 := by
    intro kw k hk h1 h2 hz
    have e := hk hz
    rcases hd with e2 | e2
    · exact h1 (e.symm.trans e2)
    · exact h2 (e.symm.trans e2)
  have c1 : ¬ (cmdcompare inp (cstr "H") = 0 ∨ cmdcompare inp (cstr "?") = 0) :=
    fun h => h.elim (key _ 72 hH (by decide) (by decide)) (key _ 63 hq (by decide) (by decide))
  have c2 : ¬ cmdcompare inp (cstr "FS20") = 0 := key _ 70 hF (by decide) (by decide)
  have c3 : ¬ cmdcompare inp (cstr "UNI") = 0 := key _ 85 hU (by decide) (by decide)
  have c4 : ¬ (cmdcompare inp (cstr "IT") = 0 ∨ cmdcompare inp (cstr "InterTechno") = 0) :=
    fun h => h.elim (key _ 73 hI (by decide) (by decide)) (key _ 73 hI2 (by decide) (by decide))
  have c5 : ¬ cmdcompare inp (cstr "SCENE") = 0 := key _ 83 hS (by decide) (by decide)
  have c6 : ¬ cmdcompare inp (cstr "GET") = 0 := key _ 71 hG (by decide) (by decide)
  have c7 : ¬ cmdcompare inp (cstr "SET") = 0 := key _ 83 hSe (by decide) (by decide)
  have c8 : ¬ cmdcompare inp (cstr "WAIT") = 0 := key _ 87 hW (by decide) (by decide)
  have c9 : ¬ (cmdcompare inp (cstr "QUIT") = 0 ∨ cmdcompare inp (cstr "Q") = 0) :=
    fun h => h.elim (key _ 81 hQU (by decide) (by decide)) (key _ 81 hQ (by decide) (by decide))
  have c10 : ¬ (cmdcompare inp (cstr "EXIT") = 0 ∨ cmdcompare inp (cstr "E") = 0) :=
    fun h => h.elim (key _ 69 hEX (by decide) (by decide)) (key _ 69 hE (by decide) (by decide))
  unfold handle_input
  rw [hs]
  simp only [hinp]
  rw [if_neg c1, if_neg c2, if_neg c3, if_neg c4, if_neg c5, if_neg c6, if_neg c7, if_neg c8,
    if_neg c9, if_neg c10]

/-- C28: the command family is chosen from the first character of the line,
not from its first token.  A line whose first character is `,` or `;` and
which holds a character that is no delimiter gets the unknown-command reply
with its first token as argument, makes no call of `usb_send` and returns 0,
whatever the first token is; a line of delimiters only, and the empty line,
writes nothing and returns 0. -/
theorem handle_input_leading_delimiter (env : Env) (input : CStr) (socket_handle : Int)
    (tick : Nat) :
    ((input.head? = some 44 ∨ input.head? = some 59) → (∃ c ∈ input, c ∉ delimiter) →
        handle_input env input socket_handle tick
          = ⟨0, [Event.write socket_handle (cstr "\x1brror - unknown command \x27%s\x27\r\n")
              [Arg.str ((input.dropWhile (fun c => delimiter.contains c)).takeWhile
                (fun c => !delimiter.contains c))]], tick⟩)
      ∧ ((∀ c ∈ input, c ∈ delimiter) →
        handle_input env input socket_handle tick = ⟨0, [], tick⟩) := by
  constructor
  · intro hhead htok
    have hs := strtok_first_token input htok
    apply handle_input_unknown_of_head env input _ _ socket_handle tick hs
    cases input with
    | nil => simp at hhead
    | cons c t =>
      have hc : c = 44 ∨ c = 59 := by simpa using hhead
      have hcd : delimiter.contains c = true := by
        rcases hc with rfl | rfl <;> decide
      unfold input_after_strtok
      rw [List.takeWhile_cons_of_pos hcd]
      exact hc
  · intro hall
    unfold handle_input
    rw [strtok_no_token input hall]

/-- Lines that start with a delimiter, spelled out (supplement to claim C28):
`;FS20 1112 ON` sends nothing and names `FS20` as unknown, `,QUIT` and `;EXIT`
do not end the session, and a line of delimiters does nothing. -/
theorem handle_input_leading_delimiter_samples :
    (handle_input (sample_env DataModel.LP64) (cstr ";FS20 1112 ON") 7 0).events
        = [Event.write 7 (cstr "\x1brror - unknown command \x27%s\x27\r\n")
            [Arg.str (cstr "FS20")]]
      ∧ (handle_input (sample_env DataModel.LP64) (cstr ",QUIT") 7 0).events
        = [Event.write 7 (cstr "\x1brror - unknown command \x27%s\x27\r\n")
            [Arg.str (cstr "QUIT")]]
      ∧ (handle_input (sample_env DataModel.LP64) (cstr ",QUIT") 7 0).rc = 0
      ∧ (handle_input (sample_env DataModel.LP64) (cstr ";EXIT") 7 0).events
        = [Event.write 7 (cstr "\x1brror - unknown command \x27%s\x27\r\n")
            [Arg.str (cstr "EXIT")]]
      ∧ (handle_input (sample_env DataModel.LP64) (cstr ";EXIT") 7 0).rc = 0
      ∧ (handle_input (sample_env DataModel.LP64) (cstr ";, ;") 7 0).events = []
      ∧ sent_frames (handle_input (sample_env DataModel.LP64) (cstr "FS20 1112 ON") 7 0).events
        = [[0x01, 0x12, 0x34, 0x01, 0x11, 0x00, 0x03, 0x00]] := by
  decide

end LightManager
